import Mathlib

/-! The rpm_gauge program: a shallow embedding of the gauge geometry and text layout.

The C++ sources embedded here are `src/main.cpp` (value mapper, hue policy,
dial mesh generator, frame driver) and `src/text_renderer.cpp` (glyph layout).

Conventions of the embedding:

* `float` values are modelled by exact rationals (`ℚ`): a statement about
  floating-point code is a statement in exact arithmetic, unless it is about
  one of the definitions named `..._f32`. Those compute in binary32: every
  `float` operation is rounded to the nearest binary32 number, ties to even,
  and the binary32 numbers are represented by the rationals they denote.
* `int` values are modelled by `Int`; all integers that occur (loop counters up
  to 3600, glyph metrics) are far away from the 32-bit limits.
* `std::cos`, `std::sin` and the inverse square root used by `glm::normalize`
  are not rational-valued; they are supplied by a `Libm` record of functions,
  and theorems that depend on their values say so in a hypothesis.
* A C++ `char` is modelled by a Lean `Char` and a `std::string_view` by a
  `List Char`; the glyph table is keyed by `Char`.
* OpenGL is modelled by the part of the context that the text renderer touches
  (`GLState`); every `glDrawArrays` call is recorded with the bindings and the
  `transform` uniform in force when it was issued.
* The uniform setters of `shader.hpp` other than the 4x4 matrix one return,
  next to the context, the upload they issue (`uniform_upload`): the OpenGL
  entry point and the numbers it reads.
* FreeType is modelled by a `FreeType` record saying which calls succeed and
  which glyph each character code loads; an array read outside its bounds
  ends the run in `load_outcome.out_of_bounds`.
* The GLM helpers that the program calls (`glm::radians`, `glm::clamp`,
  `glm::rotate`, `glm::translate`, `glm::scale`) are transcribed from the GLM
  library, which is a dependency of the repository.
-/

namespace RpmGauge

/-! ## Vectors and matrices (GLM) -/

/-- The type `glm::vec2`. -/
structure vec2 where
  x : ℚ
  y : ℚ
  deriving DecidableEq

/-- The type `glm::vec3`. -/
structure vec3 where
  x : ℚ
  y : ℚ
  z : ℚ
  deriving DecidableEq

/-- The type `glm::vec4`. -/
structure vec4 where
  x : ℚ
  y : ℚ
  z : ℚ
  w : ℚ
  deriving DecidableEq

/-- The type `glm::ivec2`. -/
structure ivec2 where
  x : Int
  y : Int
  deriving DecidableEq

/-- The type `glm::mat4`, stored by columns as GLM does (`m[i]` is column `i`). -/
structure mat4 where
  c0 : vec4
  c1 : vec4
  c2 : vec4
  c3 : vec4
  deriving DecidableEq

/-- Scalar times vector, `s * v` on `glm::vec4`. -/
def vec4.smul (s : ℚ) (v : vec4) : vec4 := ⟨s * v.x, s * v.y, s * v.z, s * v.w⟩

/-- Component-wise sum on `glm::vec4`. -/
def vec4.add (a b : vec4) : vec4 := ⟨a.x + b.x, a.y + b.y, a.z + b.z, a.w + b.w⟩

/-- The constructor `glm::vec4(v, w)` from a `vec3` and a scalar. -/
def vec4.ofVec3 (v : vec3) (w : ℚ) : vec4 := ⟨v.x, v.y, v.z, w⟩

/-- The narrowing conversion `glm::vec3(v)` of a `vec4` (drops `w`). -/
def vec4.toVec3 (v : vec4) : vec3 := ⟨v.x, v.y, v.z⟩

/-- The matrix `glm::identity<glm::mat4>()`, also `glm::mat4{1.0f}`. -/
def mat4.identity : mat4 :=
  ⟨⟨1, 0, 0, 0⟩, ⟨0, 1, 0, 0⟩, ⟨0, 0, 1, 0⟩, ⟨0, 0, 0, 1⟩⟩

/-- Matrix times column vector, `m * v`. -/
def mat4.mulVec (m : mat4) (v : vec4) : vec4 :=
  vec4.add (vec4.add (vec4.smul v.x m.c0) (vec4.smul v.y m.c1))
    (vec4.add (vec4.smul v.z m.c2) (vec4.smul v.w m.c3))

/-- Matrix product `a * b`: column `i` of the result is `a * b[i]`. -/
def mat4.mul (a b : mat4) : mat4 :=
  ⟨a.mulVec b.c0, a.mulVec b.c1, a.mulVec b.c2, a.mulVec b.c3⟩

/-- The functions of the C math library that have no rational model. -/
structure Libm where
  cos : ℚ → ℚ
  sin : ℚ → ℚ
  inversesqrt : ℚ → ℚ

/-- The macro `M_PI` of `<cmath>`, the decimal literal it expands to. -/
def M_PI : ℚ := 3.14159265358979323846

/-- The function `glm::radians`: degrees times the literal GLM uses for pi/180. -/
def radians (degrees : ℚ) : ℚ := degrees * 0.01745329251994329576923690768489

/-- The one-argument `glm::clamp` of the GLM library on a scalar, which is
`glm::clamp(x, 0, 1)`, computed as `min(max(x, 0), 1)`. -/
def clamp01 (x : ℚ) : ℚ := min (max x 0) 1

/-- The one-argument `glm::clamp` on a `vec3`, component-wise. -/
def clamp (v : vec3) : vec3 := ⟨clamp01 v.x, clamp01 v.y, clamp01 v.z⟩

/-- The function `glm::normalize` on a `vec3`: `v * inversesqrt(dot(v, v))`. -/
def normalize (m : Libm) (v : vec3) : vec3 :=
  let k := m.inversesqrt (v.x * v.x + v.y * v.y + v.z * v.z)
  ⟨v.x * k, v.y * k, v.z * k⟩

/-- The function `glm::rotate(m, angle, v)`, transcribed from GLM. -/
def rotate (lm : Libm) (m : mat4) (angle : ℚ) (v : vec3) : mat4 :=
  let c := lm.cos angle
  let s := lm.sin angle
  let axis := normalize lm v
  let temp : vec3 := ⟨(1 - c) * axis.x, (1 - c) * axis.y, (1 - c) * axis.z⟩
  let r00 := c + temp.x * axis.x
  let r01 := temp.x * axis.y + s * axis.z
  let r02 := temp.x * axis.z - s * axis.y
  let r10 := temp.y * axis.x - s * axis.z
  let r11 := c + temp.y * axis.y
  let r12 := temp.y * axis.z + s * axis.x
  let r20 := temp.z * axis.x + s * axis.y
  let r21 := temp.z * axis.y - s * axis.x
  let r22 := c + temp.z * axis.z
  ⟨vec4.add (vec4.add (vec4.smul r00 m.c0) (vec4.smul r01 m.c1)) (vec4.smul r02 m.c2),
   vec4.add (vec4.add (vec4.smul r10 m.c0) (vec4.smul r11 m.c1)) (vec4.smul r12 m.c2),
   vec4.add (vec4.add (vec4.smul r20 m.c0) (vec4.smul r21 m.c1)) (vec4.smul r22 m.c2),
   m.c3⟩

/-- The function `glm::translate(m, v)`, transcribed from GLM. -/
def translate (m : mat4) (v : vec3) : mat4 :=
  ⟨m.c0, m.c1, m.c2,
   vec4.add (vec4.add (vec4.smul v.x m.c0) (vec4.smul v.y m.c1))
     (vec4.add (vec4.smul v.z m.c2) m.c3)⟩

/-- The function `glm::scale(m, v)`, transcribed from GLM. -/
def scale (m : mat4) (v : vec3) : mat4 :=
  ⟨vec4.smul v.x m.c0, vec4.smul v.y m.c1, vec4.smul v.z m.c2, m.c3⟩

/-! ## Constants of `main.cpp` -/

def RPM_MIN : Int := 0
def RPM_MAX : Int := 3500
def RPM_STEP : Int := 100

def NOTCHES : Int := 8
def NOTCH_MAX : ℚ := 0.90
def NOTCH_MAX_SMALL : ℚ := 0.80
def NOTCH_MIN : ℚ := 0.70
def NOTCH_WIDTH : ℚ := 0.002

def NEEDLE_RANGE : ℚ := 270

def DIAMETER : ℚ := 0.75
def NEEDLE_WIDTH : ℚ := 0.015
def NEEDLE_LENGTH : ℚ := 0.6
def NEEDLE_OFFSET : ℚ := 0.01

/-- The struct `datapack`: a vertex with position and colour. -/
structure datapack where
  pos : vec3
  color : vec3
  deriving DecidableEq

/-! ## The value mapper -/

/-- The template `map<T>` at `T = float`:
`(x - x_low) * (t_high - t_low) / (x_high - x_low) + t_low`. -/
def map (x x_low x_high t_low t_high : ℚ) : ℚ :=
  (x - x_low) * (t_high - t_low) / (x_high - x_low) + t_low

/-! ## The frame driver's needle transform -/

/-- The value `working_angle` of `main`, for the slider value `angle`. -/
def working_angle (angle : ℚ) : ℚ :=
  map angle (RPM_MIN : ℚ) (RPM_MAX : ℚ) (-NEEDLE_RANGE / 2) (NEEDLE_RANGE / 2)

/-- The matrix `model` that `main` uploads before drawing the needle. -/
def needle_model (lm : Libm) (angle : ℚ) : mat4 :=
  rotate lm mat4.identity (radians (working_angle angle)) ⟨0, 0, -1⟩

/-! ## The colour policy -/

/-- Truncation toward zero of a rational, the integer quotient used by `fmod`. -/
def truncQ (q : ℚ) : Int := if 0 ≤ q then ⌊q⌋ else ⌈q⌉

/-- The C function `fmodf(x, y)` for `y ≠ 0`: `x - n * y` where `n` is `x / y`
truncated toward zero, so the result carries the sign of `x`. -/
def fmodf (x y : ℚ) : ℚ := x - (truncQ (x / y) : ℚ) * y

/-- The function `Hue` of `main.cpp`. -/
def Hue (H : ℚ) : vec3 :=
  let H := map (fmodf H 360) 0 360 0 1
  let R := |H * 6 - 3| - 1
  let G := 2 - |H * 6 - 2|
  let B := 2 - |H * 6 - 4|
  clamp ⟨R, G, B⟩

def HUE_RED : ℚ := 0
def HUE_YELLOW : ℚ := 60
def HUE_GREEN : ℚ := 140

/-- The colour chosen for the band segment starting at `rpm`
(the `if` chain in the band loop of `genCompleteBase`). -/
def bandColor (rpm : Int) : vec3 :=
  if rpm < 500 ∨ (rpm ≥ 2600 ∧ rpm < 2800) then Hue HUE_YELLOW
  else if rpm ≥ 2800 then Hue HUE_RED
  else Hue HUE_GREEN

/-! ## The dial mesh generator -/

/-- The local `min` of `genCompleteBase`: `90 + NEEDLE_RANGE / 2`. -/
def angle_min : ℚ := 90 + NEEDLE_RANGE / 2

/-- The local `max` of `genCompleteBase`: `90 - NEEDLE_RANGE / 2`. -/
def angle_max : ℚ := 90 - NEEDLE_RANGE / 2

/-- The local `STEPS` of `genCompleteBase` (C++ integer division). -/
def STEPS : Int := Int.tdiv RPM_MAX RPM_STEP

def CIRCLE_DIVISIONS : Int := 64

/-- The three vertices pushed by one pass of the circle loop. -/
def circleBody (lm : Libm) (i : Int) : List datapack :=
  let o1 := ((i : ℚ) / (CIRCLE_DIVISIONS : ℚ)) * (2 * M_PI)
  let o2 := (((i + 1 : Int) : ℚ) / (CIRCLE_DIVISIONS : ℚ)) * (2 * M_PI)
  [⟨⟨0, 0, 0⟩, ⟨0.7, 0.7, 0.7⟩⟩,
   ⟨⟨lm.cos o1, lm.sin o1, 0⟩, ⟨0.7, 0.7, 0.7⟩⟩,
   ⟨⟨lm.cos o2, lm.sin o2, 0⟩, ⟨0.7, 0.7, 0.7⟩⟩]

/-- The loop `for (int i = 0; i < CIRCLE_DIVISIONS; i++)`, from counter `i` on. -/
def circleLoop (lm : Libm) (i : Int) (ret : List datapack) : List datapack :=
  if i < CIRCLE_DIVISIONS then circleLoop lm (i + 1) (ret ++ circleBody lm i) else ret
termination_by (CIRCLE_DIVISIONS - i).toNat
decreasing_by
  simp only [CIRCLE_DIVISIONS] at *
  omega

/-- The six vertices pushed by one pass of the band loop. -/
def bandBody (lm : Libm) (rpm : Int) : List datapack :=
  let angle1 := radians (map (rpm : ℚ) 0 (RPM_MAX : ℚ) angle_min angle_max)
  let angle2 := radians (map ((rpm + RPM_STEP : Int) : ℚ) 0 (RPM_MAX : ℚ) angle_min angle_max)
  let c1 := lm.cos angle1
  let s1 := lm.sin angle1
  let c2 := lm.cos angle2
  let s2 := lm.sin angle2
  let color := bandColor rpm
  [⟨⟨c1 * NOTCH_MAX_SMALL, s1 * NOTCH_MAX_SMALL, 1⟩, color⟩,
   ⟨⟨c1 * NOTCH_MIN, s1 * NOTCH_MIN, 1⟩, color⟩,
   ⟨⟨c2 * NOTCH_MIN, s2 * NOTCH_MIN, 1⟩, color⟩,
   ⟨⟨c1 * NOTCH_MAX_SMALL, s1 * NOTCH_MAX_SMALL, 1⟩, color⟩,
   ⟨⟨c2 * NOTCH_MAX_SMALL, s2 * NOTCH_MAX_SMALL, 1⟩, color⟩,
   ⟨⟨c2 * NOTCH_MIN, s2 * NOTCH_MIN, 1⟩, color⟩]

/-- The loop `for (int rpm = RPM_MIN; rpm < RPM_MAX; rpm += RPM_STEP)`. -/
def bandLoop (lm : Libm) (rpm : Int) (ret : List datapack) : List datapack :=
  if rpm < RPM_MAX then bandLoop lm (rpm + RPM_STEP) (ret ++ bandBody lm rpm) else ret
termination_by (RPM_MAX - rpm).toNat
decreasing_by
  simp only [RPM_MAX, RPM_STEP] at *
  omega

/-- The array `notch_small`. -/
def notch_small : List datapack :=
  [⟨⟨NOTCH_MIN, NOTCH_WIDTH / 2, 3⟩, ⟨0.2, 0.2, 0.2⟩⟩,
   ⟨⟨NOTCH_MIN, -NOTCH_WIDTH / 2, 3⟩, ⟨0.2, 0.2, 0.2⟩⟩,
   ⟨⟨NOTCH_MAX_SMALL, NOTCH_WIDTH / 2, 3⟩, ⟨0.2, 0.2, 0.2⟩⟩,
   ⟨⟨NOTCH_MIN, -NOTCH_WIDTH / 2, 3⟩, ⟨0.2, 0.2, 0.2⟩⟩,
   ⟨⟨NOTCH_MAX_SMALL, NOTCH_WIDTH / 2, 3⟩, ⟨0.2, 0.2, 0.2⟩⟩,
   ⟨⟨NOTCH_MAX_SMALL, -NOTCH_WIDTH / 2, 3⟩, ⟨0.2, 0.2, 0.2⟩⟩]

/-- The array `notch_large`. -/
def notch_large : List datapack :=
  [⟨⟨NOTCH_MIN, NOTCH_WIDTH / 2, 3⟩, ⟨0.2, 0.2, 0.2⟩⟩,
   ⟨⟨NOTCH_MIN, -NOTCH_WIDTH / 2, 3⟩, ⟨0.2, 0.2, 0.2⟩⟩,
   ⟨⟨NOTCH_MAX, NOTCH_WIDTH / 2, 3⟩, ⟨0.2, 0.2, 0.2⟩⟩,
   ⟨⟨NOTCH_MIN, -NOTCH_WIDTH / 2, 3⟩, ⟨0.2, 0.2, 0.2⟩⟩,
   ⟨⟨NOTCH_MAX, NOTCH_WIDTH / 2, 3⟩, ⟨0.2, 0.2, 0.2⟩⟩,
   ⟨⟨NOTCH_MAX, -NOTCH_WIDTH / 2, 3⟩, ⟨0.2, 0.2, 0.2⟩⟩]

/-- The vertices appended by one pass of the tick loop: the chosen notch,
each position rotated by `mat * glm::vec4(data.pos, 0)`. -/
def tickBody (lm : Libm) (rpm : Int) : List datapack :=
  let angle := radians (map (rpm : ℚ) (RPM_MIN : ℚ) (RPM_MAX : ℚ) angle_min angle_max)
  let mat := rotate lm mat4.identity angle ⟨0, 0, 1⟩
  let notch := if Int.tmod rpm (RPM_STEP * 5) = 0 then notch_large else notch_small
  notch.map (fun data => { data with pos := (mat.mulVec (vec4.ofVec3 data.pos 0)).toVec3 })

/-- The loop `for (int rpm = RPM_MIN; rpm <= RPM_MAX; rpm += RPM_STEP)`. -/
def tickLoop (lm : Libm) (rpm : Int) (ret : List datapack) : List datapack :=
  if rpm ≤ RPM_MAX then tickLoop lm (rpm + RPM_STEP) (ret ++ tickBody lm rpm) else ret
termination_by (RPM_MAX + 1 - rpm).toNat
decreasing_by
  simp only [RPM_MAX, RPM_STEP] at *
  omega

/-- The final pass `vert.pos *= glm::vec3{DIAMETER, DIAMETER, 1.0}`. -/
def scaleVertex (vert : datapack) : datapack :=
  { vert with pos := ⟨vert.pos.x * DIAMETER, vert.pos.y * DIAMETER, vert.pos.z * 1⟩ }

/-- The function `genCompleteBase` of `main.cpp`. -/
def genCompleteBase (lm : Libm) : List datapack :=
  let ret := circleLoop lm 0 []
  let ret := bandLoop lm RPM_MIN ret
  let ret := tickLoop lm RPM_MIN ret
  ret.map scaleVertex

/-! ## The text renderer -/

/-- The struct `impl::character_details`. -/
structure character_details where
  TextureID : Nat
  Size : ivec2
  Bearing : ivec2
  Advance : Nat
  deriving DecidableEq

/-- A value-initialised `character_details`, what `operator[]` of the map
inserts for a key that is not present. -/
def character_details.zero : character_details := ⟨0, ⟨0, 0⟩, ⟨0, 0⟩, 0⟩

/-- The member `ch`, a `std::unordered_map<char, character_details>`:
a finite partial map, here a function into `Option`. -/
abbrev glyph_table := Char → Option character_details

/-- The expression `ch[c]` (`std::unordered_map::operator[]`): the stored value,
or a value-initialised entry that is inserted when the key is absent. -/
def glyph_table.index (ch : glyph_table) (c : Char) : character_details × glyph_table :=
  match ch c with
  | some details => (details, ch)
  | none => (character_details.zero,
      fun k => if k = c then some character_details.zero else ch k)

/-- One recorded `glDrawArrays` call, with the bindings in force when it ran. -/
structure draw_call where
  mode : Nat
  first : Int
  count : Int
  program : Nat
  vertex_array : Nat
  texture : Nat
  transform : mat4
  deriving DecidableEq

/-- The part of the OpenGL context that `text_renderer::draw` reads or writes. -/
structure GLState where
  blend : Bool
  blend_src_rgb : Nat
  blend_dst_rgb : Nat
  blend_src_alpha : Nat
  blend_dst_alpha : Nat
  current_program : Nat
  texture_binding_2D : Nat
  vertex_array_binding : Nat
  uniform_mat4 : Nat → String → mat4
  calls : List draw_call

def GL_TRIANGLE_STRIP : Nat := 0x0005
def GL_SRC_ALPHA : Nat := 0x0302
def GL_ONE_MINUS_SRC_ALPHA : Nat := 0x0303

def glUseProgram (gl : GLState) (program : Nat) : GLState :=
  { gl with current_program := program }

def glBindVertexArray (gl : GLState) (array : Nat) : GLState :=
  { gl with vertex_array_binding := array }

def glBindTexture2D (gl : GLState) (texture : Nat) : GLState :=
  { gl with texture_binding_2D := texture }

def glBlendFunc (gl : GLState) (sfactor dfactor : Nat) : GLState :=
  { gl with blend_src_rgb := sfactor, blend_src_alpha := sfactor,
            blend_dst_rgb := dfactor, blend_dst_alpha := dfactor }

/-- The call `glEnable(GL_BLEND)`. -/
def glEnableBlend (gl : GLState) : GLState :=
  { gl with blend := true }

/-- The call `glDisable(GL_BLEND)`. -/
def glDisableBlend (gl : GLState) : GLState :=
  { gl with blend := false }

/-- The call `glUniformMatrix4fv(location, 1, GL_FALSE, value)`: it writes the
uniform of the program that is current. -/
def glUniformMatrix4fv (gl : GLState) (location : String) (value : mat4) : GLState :=
  { gl with uniform_mat4 := fun p l =>
      if p = gl.current_program ∧ l = location then value else gl.uniform_mat4 p l }

/-- The call `glDrawArrays(mode, first, count)`, recorded with its bindings. -/
def glDrawArrays (gl : GLState) (mode : Nat) (first count : Int) : GLState :=
  { gl with calls := gl.calls ++
      [⟨mode, first, count, gl.current_program, gl.vertex_array_binding,
        gl.texture_binding_2D, gl.uniform_mat4 gl.current_program "transform"⟩] }

/-- The method `impl::Program::uniformMatrix4fv` of `shader.hpp`. -/
def Program.uniformMatrix4fv (program_id : Nat) (gl : GLState) (location : String)
    (value : mat4) : GLState :=
  let prev := gl.current_program
  let gl := glUseProgram gl program_id
  let gl := glUniformMatrix4fv gl location value
  glUseProgram gl prev

/-- The overload `Program::setUniform(const char *, glm::mat4 const &)`. -/
def Program.setUniform_mat4 (program_id : Nat) (gl : GLState) (name : String)
    (data : mat4) : GLState :=
  Program.uniformMatrix4fv program_id gl name data

/-- The fields of the class `text_renderer`. -/
structure text_renderer where
  vao : Nat
  vbo : Nat
  program : Nat
  ch : glyph_table

/-- The state carried through the character loop of `draw`: the OpenGL
context, the glyph table and the pen position `x`. -/
structure draw_state where
  gl : GLState
  ch : glyph_table
  x : ℚ

/-- One pass of the loop `for (char c : text)` in `text_renderer::draw`. -/
def draw_char (self : text_renderer) (y scale : ℚ) (st : draw_state) (c : Char) :
    draw_state :=
  let (details, ch) := st.ch.index c
  if c = ' ' then
    { gl := st.gl, ch := ch, x := st.x + ((details.Advance >>> 6 : Nat) : ℚ) * scale }
  else
    let xpos := st.x + (details.Bearing.x : ℚ) * scale
    let ypos := y - ((details.Size.y - details.Bearing.y : Int) : ℚ) * scale
    let transform :=
      mat4.mul (translate mat4.identity ⟨xpos, ypos, 0⟩)
        (scale_mat details scale)
    let gl := Program.setUniform_mat4 self.program st.gl "transform" transform
    let gl := glBindTexture2D gl details.TextureID
    let gl := glDrawArrays gl GL_TRIANGLE_STRIP 0 4
    { gl := gl, ch := ch, x := st.x + ((details.Advance >>> 6 : Nat) : ℚ) * scale }
where
  /-- The factor `glm::scale(glm::mat4{1.0f}, {Size.x * scale, Size.y * scale, 1})`. -/
  scale_mat (details : character_details) (scale : ℚ) : mat4 :=
    RpmGauge.scale mat4.identity
      ⟨(details.Size.x : ℚ) * scale, (details.Size.y : ℚ) * scale, 1⟩

/-- The loop `for (char c : text)` of `text_renderer::draw`. -/
def draw_loop (self : text_renderer) (y scale : ℚ) (st : draw_state) (text : List Char) :
    draw_state :=
  text.foldl (draw_char self y scale) st

/-- The method `text_renderer::draw` (with `DEBUG_DISABLE_BLENDING = false`):
the renderer and the OpenGL context after the call. -/
def text_renderer.draw (self : text_renderer) (gl : GLState) (text : List Char)
    (x y scale : ℚ) : text_renderer × GLState :=
  let last_blend := gl.blend
  let last_blend_src_alpha := gl.blend_src_alpha
  let last_program := gl.current_program
  let last_texture_2D := gl.texture_binding_2D
  let last_vertex_array := gl.vertex_array_binding
  let gl := glEnableBlend gl
  let gl := glBlendFunc gl GL_SRC_ALPHA GL_ONE_MINUS_SRC_ALPHA
  let gl := glUseProgram gl self.program
  let gl := glBindVertexArray gl self.vao
  let st := draw_loop self y scale ⟨gl, self.ch, x⟩ text
  let gl := glBindVertexArray st.gl last_vertex_array
  let gl := glBindTexture2D gl last_texture_2D
  let gl := glUseProgram gl last_program
  let gl := glBlendFunc gl GL_SRC_ALPHA last_blend_src_alpha
  let gl := if last_blend then glEnableBlend gl else glDisableBlend gl
  ({ self with ch := st.ch }, gl)

/-- The array `verts` of `text_renderer.cpp`, the unit quad drawn per glyph. -/
def verts : List vec2 := [⟨0, 0⟩, ⟨0, 1⟩, ⟨1, 0⟩, ⟨1, 1⟩]

/-- Where the vertex shader of the text renderer puts a vertex of the unit
quad before projection: `transform * vec4(position.xy, 0.0, 1.0)`. -/
def quad_vertex (d : draw_call) (position : vec2) : vec4 :=
  d.transform.mulVec ⟨position.x, position.y, 0, 1⟩

/-- The origin of a drawn quad: the image of the corner `(0, 0)`. -/
def quad_origin (d : draw_call) : vec2 :=
  ⟨(quad_vertex d ⟨0, 0⟩).x, (quad_vertex d ⟨0, 0⟩).y⟩

/-- The width and height of a drawn quad: corner `(1, 1)` minus corner `(0, 0)`. -/
def quad_size (d : draw_call) : vec2 :=
  ⟨(quad_vertex d ⟨1, 1⟩).x - (quad_vertex d ⟨0, 0⟩).x,
   (quad_vertex d ⟨1, 1⟩).y - (quad_vertex d ⟨0, 0⟩).y⟩

/-- The pen advance of one character, `(details.Advance >> 6) * scale`, read
from a glyph table (zero for a character without an entry). -/
def pen_advance (ch : glyph_table) (scale : ℚ) (c : Char) : ℚ :=
  (((ch.index c).1.Advance >>> 6 : Nat) : ℚ) * scale


/-- The matrix `transform` that one pass of the loop in `draw` builds for a
character with metrics `details` when the pen is at `x`. -/
def glyph_transform (details : character_details) (x y scale : ℚ) : mat4 :=
  mat4.mul
    (translate mat4.identity
      ⟨x + (details.Bearing.x : ℚ) * scale,
       y - ((details.Size.y - details.Bearing.y : Int) : ℚ) * scale, 0⟩)
    (draw_char.scale_mat details scale)

/-- A small glyph table with synthetic metrics for `A` and the space. -/
def sampleGlyphs : glyph_table := fun c =>
  if c = 'A' then some ⟨7, ⟨10, 12⟩, ⟨1, 11⟩, 704⟩
  else if c = ' ' then some ⟨3, ⟨0, 0⟩, ⟨0, 0⟩, 330⟩
  else none

/-- A renderer over `sampleGlyphs`. -/
def sampleRenderer : text_renderer := ⟨5, 6, 9, sampleGlyphs⟩

/-- An OpenGL context with foreign bindings and no recorded draw call. -/
def sampleGL : GLState := ⟨false, 1, 0, 1, 0, 42, 43, 44, fun _ _ => mat4.identity, []⟩

/-! ## The needle mesh and its draw call -/

/-- The function `genNeedle` of `main.cpp`. -/
def genNeedle : List datapack :=
  [⟨⟨-NEEDLE_WIDTH / 2, -NEEDLE_OFFSET, 0⟩, ⟨0.6, 0.4, 0.4⟩⟩,
   ⟨⟨NEEDLE_WIDTH / 2, -NEEDLE_OFFSET, 0⟩, ⟨0.6, 0.4, 0.4⟩⟩,
   ⟨⟨-NEEDLE_WIDTH / 2, NEEDLE_LENGTH - NEEDLE_OFFSET, 0⟩, ⟨0.6, 0.2, 0.2⟩⟩,
   ⟨⟨NEEDLE_WIDTH / 2, -NEEDLE_OFFSET, 0⟩, ⟨0.6, 0.4, 0.4⟩⟩,
   ⟨⟨-NEEDLE_WIDTH / 2, NEEDLE_LENGTH - NEEDLE_OFFSET, 0⟩, ⟨0.6, 0.2, 0.2⟩⟩,
   ⟨⟨NEEDLE_WIDTH / 2, NEEDLE_LENGTH - NEEDLE_OFFSET, 0⟩, ⟨0.6, 0.2, 0.2⟩⟩]

def GL_TRIANGLES : Nat := 0x0004

/-- The needle draw of `main`: `glBindVertexArray(vao_needle)` followed by
`glDrawArrays(GL_TRIANGLES, 0, needle.size())`. -/
def draw_needle (gl : GLState) (vao_needle : Nat) : GLState :=
  glDrawArrays (glBindVertexArray gl vao_needle) GL_TRIANGLES 0 (genNeedle.length : Int)

/-! ## Named parts of the dial mesh generator -/

/-- The angle in degrees that the band loop of `genCompleteBase` computes for
a value: `map<float>(rpm, 0, RPM_MAX, min, max)`. -/
def band_angle (rpm : ℚ) : ℚ := map rpm 0 (RPM_MAX : ℚ) angle_min angle_max

/-- The angle in degrees that the tick loop of `genCompleteBase` computes for
a value: `map<float>(rpm, RPM_MIN, RPM_MAX, min, max)`. -/
def tick_angle (rpm : ℚ) : ℚ := map rpm (RPM_MIN : ℚ) (RPM_MAX : ℚ) angle_min angle_max

/-- The notch array chosen by the tick loop of `genCompleteBase` for `rpm`
(the `if (rpm % (RPM_STEP * 5) == 0)` of the loop body). -/
def tickNotch (rpm : Int) : List datapack :=
  if Int.tmod rpm (RPM_STEP * 5) = 0 then notch_large else notch_small

/-! ## The hue formula as the specification words it -/

/-- The hue normalised to `[0, 1)` as the specification words it,
`h = (a mod 360) / 360`: the fractional part of `a / 360`. -/
def hue_normalised (a : ℚ) : ℚ := Int.fract (a / 360)

/-- The hue formula in the words of the specification, to be compared with
`Hue`: with `h = (a mod 360) / 360` normalised to `[0, 1)`, the channels are
the clamps of `|6h - 3| - 1`, `|2 - |6h - 2||` and `2 - |6h - 4|`. -/
def Hue_as_specified (a : ℚ) : vec3 :=
  let h := hue_normalised a
  ⟨clamp01 (|6 * h - 3| - 1), clamp01 (abs (2 - abs (6 * h - 2))), clamp01 (2 - |6 * h - 4|)⟩

/-! ## Glyph loading -/

/-- The fields of `face->glyph` that `load_characters` reads after a
successful `FT_Load_Char`. -/
structure FT_GlyphSlot where
  bitmap_width : Nat
  bitmap_rows : Nat
  bitmap_left : Int
  bitmap_top : Int
  advance_x : Int

/-- The FreeType library as `load_characters` sees it: whether
`FT_Init_FreeType` and `FT_New_Face` succeed, and for each character code the
glyph that `FT_Load_Char` loads, or `none` when it reports an error. -/
structure FreeType where
  init_ok : Bool
  new_face_ok : Bool
  load_char : Nat → Option FT_GlyphSlot

/-- How a call of `load_characters` can end: the process exits, an array is
indexed outside its bounds (undefined behaviour), or the function returns. -/
inductive load_outcome where
  | exited (status : Int)
  | out_of_bounds (index : Nat)
  | returned (ch : glyph_table) (gl : GLState)

/-- The call `ch.insert(std::pair(c, character))` of `std::unordered_map`:
the pair is stored only when the key is not yet present. -/
def glyph_table.insert (ch : glyph_table) (c : Char) (character : character_details) :
    glyph_table :=
  match ch c with
  | some _ => ch
  | none => fun k => if k = c then some character else ch k

/-- The conversion of an `unsigned int` to `int`, as `glm::ivec2(unsigned,
unsigned)` performs it on the bitmap size: the value modulo `2 ^ 32`, read as a
two's-complement number. -/
def to_int32 (n : Nat) : Int := ((n : Int) + 2 ^ 31) % 2 ^ 32 - 2 ^ 31

/-- The value `character` built in the loop of `load_characters`; the size is
`glm::ivec2(bitmap.width, bitmap.rows)` of two `unsigned int`, the advance is
`static_cast<unsigned int>(face->glyph->advance.x)`. -/
def make_character (texture : Nat) (g : FT_GlyphSlot) : character_details :=
  ⟨texture, ⟨to_int32 g.bitmap_width, to_int32 g.bitmap_rows⟩, ⟨g.bitmap_left, g.bitmap_top⟩,
    (g.advance_x % 2 ^ 32).toNat⟩

/-- The loop `for (unsigned char c = 0; c < 128; c++)` of `load_characters`,
from counter `c` on. The array `textures` is read at index `c`. -/
def load_loop (ft : FreeType) (textures : List Nat) (last_texture_2D : Nat) (c : Nat)
    (ch : glyph_table) (gl : GLState) : load_outcome :=
  if c < 128 then
    match ft.load_char c with
    | none => load_loop ft textures last_texture_2D (c + 1) ch gl
    | some g =>
      match textures[c]? with
      | none => load_outcome.out_of_bounds c
      | some texture =>
        let gl := glBindTexture2D gl texture
        load_loop ft textures last_texture_2D (c + 1)
          (ch.insert (Char.ofNat c) (make_character texture g)) gl
  else load_outcome.returned ch (glBindTexture2D gl last_texture_2D)
termination_by 128 - c

/-- The method `text_renderer::load_characters`. The names written by
`glGenTextures(127, textures)` are `texture_names 0, ..., texture_names 126`. -/
def load_characters (ft : FreeType) (texture_names : Nat → Nat) (ch : glyph_table)
    (gl : GLState) : load_outcome :=
  let last_texture_2D := gl.texture_binding_2D
  if ft.init_ok = false then load_outcome.exited 1
  else if ft.new_face_ok = false then load_outcome.exited 1
  else
    let textures := (List.range 127).map texture_names
    load_loop ft textures last_texture_2D 0 ch gl

/-- A FreeType in which every character code loads the same glyph. -/
def sampleFreeType : FreeType :=
  ⟨true, true, fun _ => some ⟨10, 12, 1, 11, 704⟩⟩

/-- A FreeType in which the codes 65 (`A`) and 127 fail to load. -/
def partialFreeType : FreeType :=
  ⟨true, true, fun c => if c = 65 ∨ c = 127 then none else some ⟨10, 12, 1, 11, 704⟩⟩

/-- The empty glyph table of a freshly constructed `text_renderer`. -/
def emptyGlyphs : glyph_table := fun _ => none

/-- The table that `load_characters` leaves when it returns, started on `ch`
with the loop counter at `c`: entries already present are kept, and a code in
`c .. 127` gets the metrics of its glyph when the glyph loads. -/
def loaded_table (ft : FreeType) (texture_names : Nat → Nat) (c : Nat) (ch : glyph_table) :
    glyph_table := fun k =>
  match ch k with
  | some d => some d
  | none =>
    if c ≤ k.toNat ∧ k.toNat < 128 then
      (ft.load_char k.toNat).map (make_character (texture_names k.toNat))
    else none

/-- A loop state as `draw` sets it up before the first character: the
renderer's program is current and its vertex array is bound. -/
def sampleProgramState : draw_state :=
  ⟨glBindVertexArray (glUseProgram sampleGL sampleRenderer.program) sampleRenderer.vao,
    sampleGlyphs, 100⟩

/-! ## The frame driver: view scaling and tick labels -/

/-- The template `map<T>` at `T = glm::vec2`: every operator of the body acts
component-wise on `glm::vec2`. -/
def map_vec2 (x x_low x_high t_low t_high : vec2) : vec2 :=
  ⟨(x.x - x_low.x) * (t_high.x - t_low.x) / (x_high.x - x_low.x) + t_low.x,
   (x.y - x_low.y) * (t_high.y - t_low.y) / (x_high.y - x_low.y) + t_low.y⟩

/-- The per-frame `scale` and `view` of `main`, for a framebuffer of
`width` by `height` pixels, in exact arithmetic (`frame_view_f32` rounds the
quotient). -/
def frame_view (width height : Int) : ℚ × mat4 :=
  if width > height then
    let scale := (height : ℚ) / (width : ℚ)
    (scale, RpmGauge.scale mat4.identity ⟨scale, 1, 1⟩)
  else
    let scale := (width : ℚ) / (height : ℚ)
    (scale, RpmGauge.scale mat4.identity ⟨1, scale, 1⟩)

/-- The angle in degrees of tick label `i` in `main`:
`map<float>(i, 0, static_cast<float>(RPM_MAX) / (RPM_STEP * 5), min, max)`. -/
def label_angle (i : ℚ) : ℚ :=
  map i 0 ((RPM_MAX : ℚ) / ((RPM_STEP * 5 : Int) : ℚ)) angle_min angle_max

/-- The text of tick label `i`: `std::to_string(i * RPM_STEP * 5 / 100)`. -/
def label_text (i : Int) : String :=
  toString (Int.tdiv (i * RPM_STEP * 5) 100)

/-- One call `text_renderer.draw(label, pos.x, pos.y, scale)` requested by `main`. -/
structure label_draw where
  text : String
  x : ℚ
  y : ℚ
  scale : ℚ
  deriving DecidableEq

/-- One pass of the label loop of `main`: the draw it requests for label `i`. -/
def label_body (lm : Libm) (width height : Int) (notch_text_scale : ℚ) (i : Int) :
    label_draw :=
  let scale := (frame_view width height).1
  let view := (frame_view width height).2
  let angle1 := radians (label_angle (i : ℚ))
  let pos : vec2 := ⟨lm.cos angle1, lm.sin angle1⟩
  let pos4 := view.mulVec ⟨pos.x * DIAMETER * NOTCH_MAX, pos.y * DIAMETER * NOTCH_MAX, 0, 0⟩
  let pos : vec2 := ⟨pos4.x, pos4.y⟩
  let pos := map_vec2 pos ⟨-1, -1⟩ ⟨1, 1⟩ ⟨0, 0⟩ ⟨(width : ℚ), (height : ℚ)⟩
  ⟨label_text i, pos.x, pos.y, notch_text_scale * scale⟩

/-- The loop `for (int i = 0; i <= RPM_MAX / (RPM_STEP * 5); i++)` of `main`,
from counter `i` on, collecting the requested label draws in order. -/
def labelLoop (lm : Libm) (width height : Int) (notch_text_scale : ℚ) (i : Int)
    (drawn : List label_draw) : List label_draw :=
  if i ≤ Int.tdiv RPM_MAX (RPM_STEP * 5) then
    labelLoop lm width height notch_text_scale (i + 1)
      (drawn ++ [label_body lm width height notch_text_scale i])
  else drawn
termination_by (Int.tdiv RPM_MAX (RPM_STEP * 5) + 1 - i).toNat
decreasing_by
  have e : Int.tdiv RPM_MAX (RPM_STEP * 5) = 7 := by decide
  omega

/-- The position of the readout text in `main`:
`map<glm::vec2>({0, -0.2}, {-1, -1}, {1, 1}, {0, 0}, {width, height})`. -/
def hours_pos (width height : Int) : vec2 :=
  map_vec2 ⟨0, -0.2⟩ ⟨-1, -1⟩ ⟨1, 1⟩ ⟨0, 0⟩ ⟨(width : ℚ), (height : ℚ)⟩

/-- The colour rule of the band loop read on an arbitrary value `v` instead of
a segment start: the same comparisons as in `bandColor`. -/
def band_rule (v : ℚ) : vec3 :=
  if v < 500 ∨ (v ≥ 2600 ∧ v < 2800) then Hue HUE_YELLOW
  else if v ≥ 2800 then Hue HUE_RED
  else Hue HUE_GREEN

/-! ## The uniform setters of `shader.hpp` -/

/-- The type `glm::mat3`, stored by columns. -/
structure mat3 where
  c0 : vec3
  c1 : vec3
  c2 : vec3
  deriving DecidableEq

/-- The floats that `glm::value_ptr` points at for a `vec3`. -/
def vec3.value_ptr (v : vec3) : List ℚ := [v.x, v.y, v.z]

/-- The floats that `glm::value_ptr` points at for a `vec4`. -/
def vec4.value_ptr (v : vec4) : List ℚ := [v.x, v.y, v.z, v.w]

/-- The floats that `glm::value_ptr` points at for a `mat3`, column by column. -/
def mat3.value_ptr (m : mat3) : List ℚ :=
  m.c0.value_ptr ++ m.c1.value_ptr ++ m.c2.value_ptr

/-- The OpenGL entry points for uniform uploads that `shader.hpp` calls. -/
inductive uniform_call where
  | glUniform1i
  | glUniform3fv
  | glUniform4fv
  | glUniformMatrix3fv
  | glUniformMatrix4fv
  deriving DecidableEq

/-- One uniform upload as issued to OpenGL: the program that was current, the
location, the entry point, and the numbers it reads from its argument. -/
structure uniform_upload where
  program : Nat
  location : String
  call : uniform_call
  value : List ℚ
  deriving DecidableEq

def GL_TRUE : Int := 1
def GL_FALSE : Int := 0

/-- The call `glUniform1i(location, v0)`. -/
def glUniform1i (gl : GLState) (location : String) (v0 : Int) : GLState × uniform_upload :=
  (gl, ⟨gl.current_program, location, uniform_call.glUniform1i, [(v0 : ℚ)]⟩)

/-- The call `glUniform3fv(location, count, value)`: it reads `3 * count` floats. -/
def glUniform3fv (gl : GLState) (location : String) (count : Nat) (value : List ℚ) :
    GLState × uniform_upload :=
  (gl, ⟨gl.current_program, location, uniform_call.glUniform3fv, value.take (3 * count)⟩)

/-- The call `glUniform4fv(location, count, value)`: it reads `4 * count` floats. -/
def glUniform4fv (gl : GLState) (location : String) (count : Nat) (value : List ℚ) :
    GLState × uniform_upload :=
  (gl, ⟨gl.current_program, location, uniform_call.glUniform4fv, value.take (4 * count)⟩)

/-- The call `glUniformMatrix3fv(location, count, transpose, value)`: it reads
`9 * count` floats. -/
def glUniformMatrix3fv (gl : GLState) (location : String) (count : Nat) (value : List ℚ) :
    GLState × uniform_upload :=
  (gl, ⟨gl.current_program, location, uniform_call.glUniformMatrix3fv,
    value.take (9 * count)⟩)

/-- The method `impl::Program::uniform1i`. -/
def Program.uniform1i (program_id : Nat) (gl : GLState) (location : String) (value : Int) :
    GLState × uniform_upload :=
  let prev := gl.current_program
  let gl := glUseProgram gl program_id
  let r := glUniform1i gl location value
  (glUseProgram r.1 prev, r.2)

/-- The method `impl::Program::uniform3fv`. -/
def Program.uniform3fv (program_id : Nat) (gl : GLState) (location : String) (count : Nat)
    (value : List ℚ) : GLState × uniform_upload :=
  let prev := gl.current_program
  let gl := glUseProgram gl program_id
  let r := glUniform3fv gl location count value
  (glUseProgram r.1 prev, r.2)

/-- The method `impl::Program::uniform4fv`. -/
def Program.uniform4fv (program_id : Nat) (gl : GLState) (location : String) (count : Nat)
    (value : List ℚ) : GLState × uniform_upload :=
  let prev := gl.current_program
  let gl := glUseProgram gl program_id
  let r := glUniform4fv gl location count value
  (glUseProgram r.1 prev, r.2)

/-- The method `impl::Program::uniformMatrix3fv`. -/
def Program.uniformMatrix3fv (program_id : Nat) (gl : GLState) (location : String)
    (count : Nat) (value : List ℚ) : GLState × uniform_upload :=
  let prev := gl.current_program
  let gl := glUseProgram gl program_id
  let r := glUniformMatrix3fv gl location count value
  (glUseProgram r.1 prev, r.2)

/-- The overload `Program::setUniform(const char *, bool)`. -/
def Program.setUniform_bool (program_id : Nat) (gl : GLState) (name : String) (data : Bool) :
    GLState × uniform_upload :=
  Program.uniform1i program_id gl name (if data then GL_TRUE else GL_FALSE)

/-- The overload `Program::setUniform(const char *, GLint)`. -/
def Program.setUniform_int (program_id : Nat) (gl : GLState) (name : String) (data : Int) :
    GLState × uniform_upload :=
  Program.uniform1i program_id gl name data

/-- The overload `Program::setUniform(const char *, glm::mat3 const &)`. -/
def Program.setUniform_mat3 (program_id : Nat) (gl : GLState) (name : String) (data : mat3) :
    GLState × uniform_upload :=
  Program.uniformMatrix3fv program_id gl name 1 data.value_ptr

/-- The overload `Program::setUniform(const char *, glm::vec3 const &)`. -/
def Program.setUniform_vec3 (program_id : Nat) (gl : GLState) (name : String) (data : vec3) :
    GLState × uniform_upload :=
  Program.uniform3fv program_id gl name 1 data.value_ptr

/-- The overload `Program::setUniform(const char *, glm::vec4 const &)`; its
body calls `program.uniform3fv`, as in the source. -/
def Program.setUniform_vec4 (program_id : Nat) (gl : GLState) (name : String) (data : vec4) :
    GLState × uniform_upload :=
  Program.uniform3fv program_id gl name 1 data.value_ptr

/-- A rational stand-in for the math library: the rational parametrisation of
the circle, `cos a = (1 - a^2) / (1 + a^2)` and `sin a = 2 a / (1 + a^2)`,
which satisfies `cos^2 + sin^2 = 1`, `cos 0 = 1` and `sin 0 = 0`. -/
def rationalTrig : Libm :=
  ⟨fun a => (1 - a * a) / (1 + a * a), fun a => 2 * a / (1 + a * a), fun _ => 1⟩

/-! ## Binary32 arithmetic

The definitions above compute in exact rational arithmetic. The definitions of
this section compute what the C++ code computes on IEEE 754 hardware: every
`float` operation is followed by rounding to the nearest binary32 number, ties
to even (no fused multiply-add). Binary32 numbers are represented by the
rationals they denote; overflow to infinity and NaN are not modelled, so the
definitions are meant for arguments and results of ordinary magnitude. -/

/-- Rounding of a rational to the nearest integer, ties to the even one. -/
def round_half_even (q : ℚ) : Int :=
  if q - ⌊q⌋ < 1 / 2 then ⌊q⌋
  else if 1 / 2 < q - ⌊q⌋ then ⌊q⌋ + 1
  else if ⌊q⌋ % 2 = 0 then ⌊q⌋ else ⌊q⌋ + 1

/-- Rounding to the nearest binary floating-point number with `p` significand
bits and least normal exponent `emin`, ties to even: with `e` the binary
exponent of `q` (not below `emin`, which covers the subnormal range), `q` is
rounded to a multiple of `2 ^ (e - (p - 1))`. -/
def round_to (p : Nat) (emin : Int) (q : ℚ) : ℚ :=
  (round_half_even (q / 2 ^ (max (Int.log 2 |q|) emin - ((p : Int) - 1))) : ℚ) *
    2 ^ (max (Int.log 2 |q|) emin - ((p : Int) - 1))

/-- Rounding to binary32 (`float`): 24 significand bits, least exponent -126. -/
def round32 (q : ℚ) : ℚ := round_to 24 (-126) q

/-- Rounding to binary64 (`double`): 53 significand bits, least exponent -1022. -/
def round64 (q : ℚ) : ℚ := round_to 53 (-1022) q

/-- A decimal literal of type `double` converted to `float`, as in
`static constexpr float NOTCH_MAX = 0.90;`. -/
def f32_lit (q : ℚ) : ℚ := round32 (round64 q)

/-- The `float` sum `a + b`. -/
def f32.add (a b : ℚ) : ℚ := round32 (a + b)

/-- The `float` difference `a - b`. -/
def f32.sub (a b : ℚ) : ℚ := round32 (a - b)

/-- The `float` product `a * b`. -/
def f32.mul (a b : ℚ) : ℚ := round32 (a * b)

/-- The `float` quotient `a / b`. -/
def f32.div (a b : ℚ) : ℚ := round32 (a / b)

/-- The conversion `static_cast<float>(n)` of an `int`. -/
def f32.ofInt (n : Int) : ℚ := round32 (n : ℚ)

/-- The template `map<T>` at `T = float`, every operation rounded to binary32. -/
def map_f32 (x x_low x_high t_low t_high : ℚ) : ℚ :=
  f32.add (f32.div (f32.mul (f32.sub x x_low) (f32.sub t_high t_low)) (f32.sub x_high x_low))
    t_low

/-- The constant `NEEDLE_RANGE` as a `float`. -/
def NEEDLE_RANGE_f32 : ℚ := round32 270

/-- The value `working_angle` of `main` in binary32, for the slider value `angle`. -/
def working_angle_f32 (angle : ℚ) : ℚ :=
  map_f32 angle (f32.ofInt RPM_MIN) (f32.ofInt RPM_MAX)
    (f32.div (-NEEDLE_RANGE_f32) 2) (f32.div NEEDLE_RANGE_f32 2)

/-- The local `min` of `genCompleteBase` in binary32: `90.0f + (NEEDLE_RANGE / 2.0f)`. -/
def angle_min_f32 : ℚ := f32.add 90 (f32.div NEEDLE_RANGE_f32 2)

/-- The local `max` of `genCompleteBase` in binary32: `90.0f - (NEEDLE_RANGE / 2.0f)`. -/
def angle_max_f32 : ℚ := f32.sub 90 (f32.div NEEDLE_RANGE_f32 2)

/-- The tick angle of `genCompleteBase` in binary32, in degrees:
`map<float>(rpm, RPM_MIN, RPM_MAX, min, max)`. -/
def tick_angle_f32 (rpm : ℚ) : ℚ :=
  map_f32 rpm (f32.ofInt RPM_MIN) (f32.ofInt RPM_MAX) angle_min_f32 angle_max_f32

/-- The product `v * s` of a `glm::vec4` and a `float` in binary32. -/
def vec4.smul_f32 (s : ℚ) (v : vec4) : vec4 :=
  ⟨f32.mul v.x s, f32.mul v.y s, f32.mul v.z s, f32.mul v.w s⟩

/-- The component-wise sum of two `glm::vec4` in binary32. -/
def vec4.add_f32 (a b : vec4) : vec4 :=
  ⟨f32.add a.x b.x, f32.add a.y b.y, f32.add a.z b.z, f32.add a.w b.w⟩

/-- The function `glm::scale(m, v)` in binary32. -/
def scale_f32 (m : mat4) (v : vec3) : mat4 :=
  ⟨vec4.smul_f32 v.x m.c0, vec4.smul_f32 v.y m.c1, vec4.smul_f32 v.z m.c2, m.c3⟩

/-- The per-frame `scale` and `view` of `main` in binary32:
`scale = float(height) / float(width)` (or the reciprocal) is a rounded quotient. -/
def frame_view_f32 (width height : Int) : ℚ × mat4 :=
  if width > height then
    let scale := f32.div (f32.ofInt height) (f32.ofInt width)
    (scale, scale_f32 mat4.identity ⟨scale, 1, 1⟩)
  else
    let scale := f32.div (f32.ofInt width) (f32.ofInt height)
    (scale, scale_f32 mat4.identity ⟨1, scale, 1⟩)

/-! ## The dial mesh generator in binary32 -/

/-- The function `glm::radians` in binary32; the factor is a `double` literal
converted to `float`. -/
def radians_f32 (degrees : ℚ) : ℚ :=
  f32.mul degrees (f32_lit 0.01745329251994329576923690768489)

/-- The function `glm::normalize` on a `vec3` in binary32:
`v * inversesqrt(dot(v, v))` with `dot = (x*x + y*y) + z*z`. -/
def normalize_f32 (lm : Libm) (v : vec3) : vec3 :=
  let k := lm.inversesqrt
    (f32.add (f32.add (f32.mul v.x v.x) (f32.mul v.y v.y)) (f32.mul v.z v.z))
  ⟨f32.mul v.x k, f32.mul v.y k, f32.mul v.z k⟩

/-- The function `glm::rotate(m, angle, v)` in binary32. -/
def rotate_f32 (lm : Libm) (m : mat4) (angle : ℚ) (v : vec3) : mat4 :=
  let c := lm.cos angle
  let s := lm.sin angle
  let axis := normalize_f32 lm v
  let temp : vec3 :=
    ⟨f32.mul (f32.sub 1 c) axis.x, f32.mul (f32.sub 1 c) axis.y, f32.mul (f32.sub 1 c) axis.z⟩
  let r00 := f32.add c (f32.mul temp.x axis.x)
  let r01 := f32.add (f32.mul temp.x axis.y) (f32.mul s axis.z)
  let r02 := f32.sub (f32.mul temp.x axis.z) (f32.mul s axis.y)
  let r10 := f32.sub (f32.mul temp.y axis.x) (f32.mul s axis.z)
  let r11 := f32.add c (f32.mul temp.y axis.y)
  let r12 := f32.add (f32.mul temp.y axis.z) (f32.mul s axis.x)
  let r20 := f32.add (f32.mul temp.z axis.x) (f32.mul s axis.y)
  let r21 := f32.sub (f32.mul temp.z axis.y) (f32.mul s axis.x)
  let r22 := f32.add c (f32.mul temp.z axis.z)
  ⟨vec4.add_f32 (vec4.add_f32 (vec4.smul_f32 r00 m.c0) (vec4.smul_f32 r01 m.c1))
      (vec4.smul_f32 r02 m.c2),
   vec4.add_f32 (vec4.add_f32 (vec4.smul_f32 r10 m.c0) (vec4.smul_f32 r11 m.c1))
      (vec4.smul_f32 r12 m.c2),
   vec4.add_f32 (vec4.add_f32 (vec4.smul_f32 r20 m.c0) (vec4.smul_f32 r21 m.c1))
      (vec4.smul_f32 r22 m.c2),
   m.c3⟩

/-- Matrix times column vector, `m * v`, in binary32. -/
def mat4.mulVec_f32 (m : mat4) (v : vec4) : vec4 :=
  vec4.add_f32 (vec4.add_f32 (vec4.smul_f32 v.x m.c0) (vec4.smul_f32 v.y m.c1))
    (vec4.add_f32 (vec4.smul_f32 v.z m.c2) (vec4.smul_f32 v.w m.c3))

def NOTCH_MAX_f32 : ℚ := f32_lit 0.90
def NOTCH_MAX_SMALL_f32 : ℚ := f32_lit 0.80
def NOTCH_MIN_f32 : ℚ := f32_lit 0.70
def NOTCH_WIDTH_f32 : ℚ := f32_lit 0.002
def DIAMETER_f32 : ℚ := f32_lit 0.75

/-- The macro `M_PI` as the `double` it denotes. -/
def M_PI_f64 : ℚ := round64 3.14159265358979323846

/-- The function `Hue` of `main.cpp` in binary32 (`fmodf` and the clamp are exact). -/
def Hue_f32 (H : ℚ) : vec3 :=
  let H := map_f32 (fmodf H 360) 0 360 0 1
  let R := f32.sub |f32.sub (f32.mul H 6) 3| 1
  let G := f32.sub 2 |f32.sub (f32.mul H 6) 2|
  let B := f32.sub 2 |f32.sub (f32.mul H 6) 4|
  clamp ⟨R, G, B⟩

/-- The colour chosen for the band segment starting at `rpm`, in binary32. -/
def bandColor_f32 (rpm : Int) : vec3 :=
  if rpm < 500 ∨ (rpm ≥ 2600 ∧ rpm < 2800) then Hue_f32 HUE_YELLOW
  else if rpm ≥ 2800 then Hue_f32 HUE_RED
  else Hue_f32 HUE_GREEN

/-- The three vertices pushed by one pass of the circle loop, in binary32; the
product with `2.0f * M_PI` is computed in `double` and stored in a `float`. -/
def circleBody_f32 (lm : Libm) (i : Int) : List datapack :=
  let o1 := round32 (round64
    (f32.div (f32.ofInt i) (f32.ofInt CIRCLE_DIVISIONS) * round64 (2 * M_PI_f64)))
  let o2 := round32 (round64
    (f32.div (f32.ofInt (i + 1)) (f32.ofInt CIRCLE_DIVISIONS) * round64 (2 * M_PI_f64)))
  [⟨⟨0, 0, 0⟩, ⟨f32_lit 0.7, f32_lit 0.7, f32_lit 0.7⟩⟩,
   ⟨⟨lm.cos o1, lm.sin o1, 0⟩, ⟨f32_lit 0.7, f32_lit 0.7, f32_lit 0.7⟩⟩,
   ⟨⟨lm.cos o2, lm.sin o2, 0⟩, ⟨f32_lit 0.7, f32_lit 0.7, f32_lit 0.7⟩⟩]

/-- The circle loop of `genCompleteBase` over `circleBody_f32`. -/
def circleLoop_f32 (lm : Libm) (i : Int) (ret : List datapack) : List datapack :=
  if i < CIRCLE_DIVISIONS then circleLoop_f32 lm (i + 1) (ret ++ circleBody_f32 lm i) else ret
termination_by (CIRCLE_DIVISIONS - i).toNat
decreasing_by
  simp only [CIRCLE_DIVISIONS] at *
  omega

/-- The six vertices pushed by one pass of the band loop, in binary32. -/
def bandBody_f32 (lm : Libm) (rpm : Int) : List datapack :=
  let angle1 := radians_f32
    (map_f32 (f32.ofInt rpm) 0 (f32.ofInt RPM_MAX) angle_min_f32 angle_max_f32)
  let angle2 := radians_f32
    (map_f32 (f32.ofInt (rpm + RPM_STEP)) 0 (f32.ofInt RPM_MAX) angle_min_f32 angle_max_f32)
  let c1 := lm.cos angle1
  let s1 := lm.sin angle1
  let c2 := lm.cos angle2
  let s2 := lm.sin angle2
  let color := bandColor_f32 rpm
  [⟨⟨f32.mul c1 NOTCH_MAX_SMALL_f32, f32.mul s1 NOTCH_MAX_SMALL_f32, 1⟩, color⟩,
   ⟨⟨f32.mul c1 NOTCH_MIN_f32, f32.mul s1 NOTCH_MIN_f32, 1⟩, color⟩,
   ⟨⟨f32.mul c2 NOTCH_MIN_f32, f32.mul s2 NOTCH_MIN_f32, 1⟩, color⟩,
   ⟨⟨f32.mul c1 NOTCH_MAX_SMALL_f32, f32.mul s1 NOTCH_MAX_SMALL_f32, 1⟩, color⟩,
   ⟨⟨f32.mul c2 NOTCH_MAX_SMALL_f32, f32.mul s2 NOTCH_MAX_SMALL_f32, 1⟩, color⟩,
   ⟨⟨f32.mul c2 NOTCH_MIN_f32, f32.mul s2 NOTCH_MIN_f32, 1⟩, color⟩]

/-- The band loop of `genCompleteBase` over `bandBody_f32`. -/
def bandLoop_f32 (lm : Libm) (rpm : Int) (ret : List datapack) : List datapack :=
  if rpm < RPM_MAX then bandLoop_f32 lm (rpm + RPM_STEP) (ret ++ bandBody_f32 lm rpm) else ret
termination_by (RPM_MAX - rpm).toNat
decreasing_by
  simp only [RPM_MAX, RPM_STEP] at *
  omega

/-- The array `notch_small` in binary32. -/
def notch_small_f32 : List datapack :=
  [⟨⟨NOTCH_MIN_f32, f32.div NOTCH_WIDTH_f32 2, 3⟩, ⟨f32_lit 0.2, f32_lit 0.2, f32_lit 0.2⟩⟩,
   ⟨⟨NOTCH_MIN_f32, f32.div (-NOTCH_WIDTH_f32) 2, 3⟩, ⟨f32_lit 0.2, f32_lit 0.2, f32_lit 0.2⟩⟩,
   ⟨⟨NOTCH_MAX_SMALL_f32, f32.div NOTCH_WIDTH_f32 2, 3⟩,
     ⟨f32_lit 0.2, f32_lit 0.2, f32_lit 0.2⟩⟩,
   ⟨⟨NOTCH_MIN_f32, f32.div (-NOTCH_WIDTH_f32) 2, 3⟩, ⟨f32_lit 0.2, f32_lit 0.2, f32_lit 0.2⟩⟩,
   ⟨⟨NOTCH_MAX_SMALL_f32, f32.div NOTCH_WIDTH_f32 2, 3⟩,
     ⟨f32_lit 0.2, f32_lit 0.2, f32_lit 0.2⟩⟩,
   ⟨⟨NOTCH_MAX_SMALL_f32, f32.div (-NOTCH_WIDTH_f32) 2, 3⟩,
     ⟨f32_lit 0.2, f32_lit 0.2, f32_lit 0.2⟩⟩]

/-- The array `notch_large` in binary32. -/
def notch_large_f32 : List datapack :=
  [⟨⟨NOTCH_MIN_f32, f32.div NOTCH_WIDTH_f32 2, 3⟩, ⟨f32_lit 0.2, f32_lit 0.2, f32_lit 0.2⟩⟩,
   ⟨⟨NOTCH_MIN_f32, f32.div (-NOTCH_WIDTH_f32) 2, 3⟩, ⟨f32_lit 0.2, f32_lit 0.2, f32_lit 0.2⟩⟩,
   ⟨⟨NOTCH_MAX_f32, f32.div NOTCH_WIDTH_f32 2, 3⟩, ⟨f32_lit 0.2, f32_lit 0.2, f32_lit 0.2⟩⟩,
   ⟨⟨NOTCH_MIN_f32, f32.div (-NOTCH_WIDTH_f32) 2, 3⟩, ⟨f32_lit 0.2, f32_lit 0.2, f32_lit 0.2⟩⟩,
   ⟨⟨NOTCH_MAX_f32, f32.div NOTCH_WIDTH_f32 2, 3⟩, ⟨f32_lit 0.2, f32_lit 0.2, f32_lit 0.2⟩⟩,
   ⟨⟨NOTCH_MAX_f32, f32.div (-NOTCH_WIDTH_f32) 2, 3⟩, ⟨f32_lit 0.2, f32_lit 0.2, f32_lit 0.2⟩⟩]

/-- The vertices appended by one pass of the tick loop, in binary32. -/
def tickBody_f32 (lm : Libm) (rpm : Int) : List datapack :=
  let angle := radians_f32 (tick_angle_f32 (f32.ofInt rpm))
  let mat := rotate_f32 lm mat4.identity angle ⟨0, 0, 1⟩
  let notch := if Int.tmod rpm (RPM_STEP * 5) = 0 then notch_large_f32 else notch_small_f32
  notch.map (fun data => { data with pos := (mat.mulVec_f32 (vec4.ofVec3 data.pos 0)).toVec3 })

/-- The tick loop of `genCompleteBase` over `tickBody_f32`. -/
def tickLoop_f32 (lm : Libm) (rpm : Int) (ret : List datapack) : List datapack :=
  if rpm ≤ RPM_MAX then tickLoop_f32 lm (rpm + RPM_STEP) (ret ++ tickBody_f32 lm rpm) else ret
termination_by (RPM_MAX + 1 - rpm).toNat
decreasing_by
  simp only [RPM_MAX, RPM_STEP] at *
  omega

/-- The final pass `vert.pos *= glm::vec3{DIAMETER, DIAMETER, 1.0}` in binary32. -/
def scaleVertex_f32 (vert : datapack) : datapack :=
  { vert with pos :=
      ⟨f32.mul vert.pos.x DIAMETER_f32, f32.mul vert.pos.y DIAMETER_f32, f32.mul vert.pos.z 1⟩ }

/-- The function `genCompleteBase` of `main.cpp` in binary32. -/
def genCompleteBase_f32 (lm : Libm) : List datapack :=
  let ret := circleLoop_f32 lm 0 []
  let ret := bandLoop_f32 lm RPM_MIN ret
  let ret := tickLoop_f32 lm RPM_MIN ret
  ret.map scaleVertex_f32

/-- The matrix `model` that `main` uploads before drawing the needle, in
binary32. -/
def needle_model_f32 (lm : Libm) (angle : ℚ) : mat4 :=
  rotate_f32 lm mat4.identity (radians_f32 (working_angle_f32 angle)) ⟨0, 0, -1⟩

/-- The values of the `float` cosine and sine (correctly rounded) at three
angles that `main.cpp` computes: the tick angles `(16470993/4194304)` (rpm 0,
225 degrees), `(12517955/4194304)` (rpm 700, 171 degrees) and `(13176795/8388608)`
(rpm 1750, 90 degrees); elsewhere 1 and 0, the values at the angle 0. The
inverse square root is only taken at 1. -/
def binary32Trig : Libm where
  cos := fun a =>
    if a = (16470993/4194304) then (-2965821/4194304)
    else if a = (12517955/4194304) then (-16570661/16777216)
    else if a = (13176795/8388608) then (-6151831/140737488355328)
    else 1
  sin := fun a =>
    if a = (16470993/4194304) then (-5931641/8388608)
    else if a = (12517955/4194304) then (5249069/33554432)
    else if a = (13176795/8388608) then 1
    else 0
  inversesqrt := fun _ => 1

/-! ## The text renderer in binary32 -/

/-- The function `glm::translate(m, v)` in binary32:
`m[0] * v[0] + m[1] * v[1] + m[2] * v[2] + m[3]`, summed from the left. -/
def translate_f32 (m : mat4) (v : vec3) : mat4 :=
  ⟨m.c0, m.c1, m.c2,
   vec4.add_f32 (vec4.add_f32 (vec4.add_f32 (vec4.smul_f32 v.x m.c0) (vec4.smul_f32 v.y m.c1))
     (vec4.smul_f32 v.z m.c2)) m.c3⟩

/-- The column `a[0] * v[0] + a[1] * v[1] + a[2] * v[2] + a[3] * v[3]` of a
matrix product in binary32, summed from the left. -/
def mat4.mulCol_f32 (a : mat4) (v : vec4) : vec4 :=
  vec4.add_f32 (vec4.add_f32 (vec4.add_f32 (vec4.smul_f32 v.x a.c0) (vec4.smul_f32 v.y a.c1))
    (vec4.smul_f32 v.z a.c2)) (vec4.smul_f32 v.w a.c3)

/-- Matrix product `a * b` in binary32. -/
def mat4.mul_f32 (a b : mat4) : mat4 :=
  ⟨a.mulCol_f32 b.c0, a.mulCol_f32 b.c1, a.mulCol_f32 b.c2, a.mulCol_f32 b.c3⟩

/-- The matrix `transform` that one pass of the loop in `draw` builds in
binary32 for a character with metrics `details` when the pen is at `x`; the
`int` metrics are converted to `float` before they are multiplied by `scale`. -/
def glyph_transform_f32 (details : character_details) (x y scale : ℚ) : mat4 :=
  let xpos := f32.add x (f32.mul (f32.ofInt details.Bearing.x) scale)
  let ypos := f32.sub y (f32.mul (f32.ofInt (details.Size.y - details.Bearing.y)) scale)
  mat4.mul_f32 (translate_f32 mat4.identity ⟨xpos, ypos, 0⟩)
    (scale_f32 mat4.identity
      ⟨f32.mul (f32.ofInt details.Size.x) scale, f32.mul (f32.ofInt details.Size.y) scale, 1⟩)

/-- One pass of the loop `for (char c : text)` in `text_renderer::draw`, in
binary32. -/
def draw_char_f32 (self : text_renderer) (y scale : ℚ) (st : draw_state) (c : Char) :
    draw_state :=
  let (details, ch) := st.ch.index c
  if c = ' ' then
    { gl := st.gl, ch := ch,
      x := f32.add st.x (f32.mul (f32.ofInt ((details.Advance >>> 6 : Nat) : Int)) scale) }
  else
    let transform := glyph_transform_f32 details st.x y scale
    let gl := Program.setUniform_mat4 self.program st.gl "transform" transform
    let gl := glBindTexture2D gl details.TextureID
    let gl := glDrawArrays gl GL_TRIANGLE_STRIP 0 4
    { gl := gl, ch := ch,
      x := f32.add st.x (f32.mul (f32.ofInt ((details.Advance >>> 6 : Nat) : Int)) scale) }

/-- The loop `for (char c : text)` of `text_renderer::draw`, in binary32. -/
def draw_loop_f32 (self : text_renderer) (y scale : ℚ) (st : draw_state) (text : List Char) :
    draw_state :=
  text.foldl (draw_char_f32 self y scale) st

/-- The method `text_renderer::draw` in binary32. -/
def text_renderer.draw_f32 (self : text_renderer) (gl : GLState) (text : List Char)
    (x y scale : ℚ) : text_renderer × GLState :=
  let last_blend := gl.blend
  let last_blend_src_alpha := gl.blend_src_alpha
  let last_program := gl.current_program
  let last_texture_2D := gl.texture_binding_2D
  let last_vertex_array := gl.vertex_array_binding
  let gl := glEnableBlend gl
  let gl := glBlendFunc gl GL_SRC_ALPHA GL_ONE_MINUS_SRC_ALPHA
  let gl := glUseProgram gl self.program
  let gl := glBindVertexArray gl self.vao
  let st := draw_loop_f32 self y scale ⟨gl, self.ch, x⟩ text
  let gl := glBindVertexArray st.gl last_vertex_array
  let gl := glBindTexture2D gl last_texture_2D
  let gl := glUseProgram gl last_program
  let gl := glBlendFunc gl GL_SRC_ALPHA last_blend_src_alpha
  let gl := if last_blend then glEnableBlend gl else glDisableBlend gl
  ({ self with ch := st.ch }, gl)

/-! ## The program with a checked division in `map`

The definitions of this section repeat every function of the program that
calls `map`, with the division of `map` checked: a call whose source range is
degenerate (`x_high - x_low = 0`, in some component for `glm::vec2`) yields
`none`, and the failure is passed on to the caller. -/

/-- The template `map<T>` at `T = float` with its division checked. -/
def map_checked (x x_low x_high t_low t_high : ℚ) : Option ℚ :=
  if x_high - x_low = 0 then none
  else some ((x - x_low) * (t_high - t_low) / (x_high - x_low) + t_low)

/-- The template `map<T>` at `T = glm::vec2` with its component-wise division
checked in both components. -/
def map_vec2_checked (x x_low x_high t_low t_high : vec2) : Option vec2 :=
  if x_high.x - x_low.x = 0 ∨ x_high.y - x_low.y = 0 then none
  else some
    ⟨(x.x - x_low.x) * (t_high.x - t_low.x) / (x_high.x - x_low.x) + t_low.x,
     (x.y - x_low.y) * (t_high.y - t_low.y) / (x_high.y - x_low.y) + t_low.y⟩

/-- The value `working_angle` of `main` over the checked `map`. -/
def working_angle_checked (angle : ℚ) : Option ℚ :=
  map_checked angle (RPM_MIN : ℚ) (RPM_MAX : ℚ) (-NEEDLE_RANGE / 2) (NEEDLE_RANGE / 2)

/-- The matrix `model` of `main` over the checked `map`. -/
def needle_model_checked (lm : Libm) (angle : ℚ) : Option mat4 :=
  match working_angle_checked angle with
  | none => none
  | some w => some (rotate lm mat4.identity (radians w) ⟨0, 0, -1⟩)

/-- The function `Hue` of `main.cpp` over the checked `map`. -/
def Hue_checked (H : ℚ) : Option vec3 :=
  match map_checked (fmodf H 360) 0 360 0 1 with
  | none => none
  | some H =>
    let R := |H * 6 - 3| - 1
    let G := 2 - |H * 6 - 2|
    let B := 2 - |H * 6 - 4|
    some (clamp ⟨R, G, B⟩)

/-- The `if` chain of the band loop over `Hue_checked`. -/
def bandColor_checked (rpm : Int) : Option vec3 :=
  if rpm < 500 ∨ (rpm ≥ 2600 ∧ rpm < 2800) then Hue_checked HUE_YELLOW
  else if rpm ≥ 2800 then Hue_checked HUE_RED
  else Hue_checked HUE_GREEN

/-- One pass of the band loop over the checked `map`. -/
def bandBody_checked (lm : Libm) (rpm : Int) : Option (List datapack) :=
  match map_checked (rpm : ℚ) 0 (RPM_MAX : ℚ) angle_min angle_max with
  | none => none
  | some degrees1 =>
    match map_checked ((rpm + RPM_STEP : Int) : ℚ) 0 (RPM_MAX : ℚ) angle_min angle_max with
    | none => none
    | some degrees2 =>
      let angle1 := radians degrees1
      let angle2 := radians degrees2
      let c1 := lm.cos angle1
      let s1 := lm.sin angle1
      let c2 := lm.cos angle2
      let s2 := lm.sin angle2
      match bandColor_checked rpm with
      | none => none
      | some color =>
        some
          [⟨⟨c1 * NOTCH_MAX_SMALL, s1 * NOTCH_MAX_SMALL, 1⟩, color⟩,
           ⟨⟨c1 * NOTCH_MIN, s1 * NOTCH_MIN, 1⟩, color⟩,
           ⟨⟨c2 * NOTCH_MIN, s2 * NOTCH_MIN, 1⟩, color⟩,
           ⟨⟨c1 * NOTCH_MAX_SMALL, s1 * NOTCH_MAX_SMALL, 1⟩, color⟩,
           ⟨⟨c2 * NOTCH_MAX_SMALL, s2 * NOTCH_MAX_SMALL, 1⟩, color⟩,
           ⟨⟨c2 * NOTCH_MIN, s2 * NOTCH_MIN, 1⟩, color⟩]

/-- The band loop of `genCompleteBase` over `bandBody_checked`. -/
def bandLoop_checked (lm : Libm) (rpm : Int) (ret : List datapack) : Option (List datapack) :=
  if rpm < RPM_MAX then
    match bandBody_checked lm rpm with
    | none => none
    | some body => bandLoop_checked lm (rpm + RPM_STEP) (ret ++ body)
  else some ret
termination_by (RPM_MAX - rpm).toNat
decreasing_by
  simp only [RPM_MAX, RPM_STEP] at *
  omega

/-- One pass of the tick loop over the checked `map`. -/
def tickBody_checked (lm : Libm) (rpm : Int) : Option (List datapack) :=
  match map_checked (rpm : ℚ) (RPM_MIN : ℚ) (RPM_MAX : ℚ) angle_min angle_max with
  | none => none
  | some degrees =>
    let angle := radians degrees
    let mat := rotate lm mat4.identity angle ⟨0, 0, 1⟩
    let notch := if Int.tmod rpm (RPM_STEP * 5) = 0 then notch_large else notch_small
    some (notch.map
      (fun data => { data with pos := (mat.mulVec (vec4.ofVec3 data.pos 0)).toVec3 }))

/-- The tick loop of `genCompleteBase` over `tickBody_checked`. -/
def tickLoop_checked (lm : Libm) (rpm : Int) (ret : List datapack) : Option (List datapack) :=
  if rpm ≤ RPM_MAX then
    match tickBody_checked lm rpm with
    | none => none
    | some body => tickLoop_checked lm (rpm + RPM_STEP) (ret ++ body)
  else some ret
termination_by (RPM_MAX + 1 - rpm).toNat
decreasing_by
  simp only [RPM_MAX, RPM_STEP] at *
  omega

/-- The function `genCompleteBase` over the checked `map` (the circle loop
calls no `map`): a failure of the band loop or of the tick loop is passed on. -/
def genCompleteBase_checked (lm : Libm) : Option (List datapack) :=
  (bandLoop_checked lm RPM_MIN (circleLoop lm 0 [])).bind fun ret =>
    (tickLoop_checked lm RPM_MIN ret).bind fun ret =>
      some (ret.map scaleVertex)

/-- One pass of the label loop of `main` over the checked `map`. -/
def label_body_checked (lm : Libm) (width height : Int) (notch_text_scale : ℚ) (i : Int) :
    Option label_draw :=
  let scale := (frame_view width height).1
  let view := (frame_view width height).2
  match map_checked (i : ℚ) 0 ((RPM_MAX : ℚ) / ((RPM_STEP * 5 : Int) : ℚ)) angle_min
      angle_max with
  | none => none
  | some degrees =>
    let angle1 := radians degrees
    let pos : vec2 := ⟨lm.cos angle1, lm.sin angle1⟩
    let pos4 := view.mulVec ⟨pos.x * DIAMETER * NOTCH_MAX, pos.y * DIAMETER * NOTCH_MAX, 0, 0⟩
    let pos : vec2 := ⟨pos4.x, pos4.y⟩
    match map_vec2_checked pos ⟨-1, -1⟩ ⟨1, 1⟩ ⟨0, 0⟩ ⟨(width : ℚ), (height : ℚ)⟩ with
    | none => none
    | some pos => some ⟨label_text i, pos.x, pos.y, notch_text_scale * scale⟩

/-- The label loop of `main` over `label_body_checked`. -/
def labelLoop_checked (lm : Libm) (width height : Int) (notch_text_scale : ℚ) (i : Int)
    (drawn : List label_draw) : Option (List label_draw) :=
  if i ≤ Int.tdiv RPM_MAX (RPM_STEP * 5) then
    match label_body_checked lm width height notch_text_scale i with
    | none => none
    | some d => labelLoop_checked lm width height notch_text_scale (i + 1) (drawn ++ [d])
  else some drawn
termination_by (Int.tdiv RPM_MAX (RPM_STEP * 5) + 1 - i).toNat
decreasing_by
  have e : Int.tdiv RPM_MAX (RPM_STEP * 5) = 7 := by decide
  omega

/-- The position of the readout text in `main` over the checked `map`. -/
def hours_pos_checked (width height : Int) : Option vec2 :=
  map_vec2_checked ⟨0, -0.2⟩ ⟨-1, -1⟩ ⟨1, 1⟩ ⟨0, 0⟩ ⟨(width : ℚ), (height : ℚ)⟩

/-- What one pass of the frame loop of `main` computes through `map`: the
needle matrix, the label draws and the readout position. -/
structure frame_values where
  model : mat4
  labels : List label_draw
  hours : vec2

/-- The `map` calls of one pass of the frame loop of `main`, unchecked. -/
def frame_maps (lm : Libm) (width height : Int) (notch_text_scale angle : ℚ) : frame_values :=
  ⟨needle_model lm angle, labelLoop lm width height notch_text_scale 0 [],
    hours_pos width height⟩

/-- The `map` calls of one pass of the frame loop of `main`, checked. -/
def frame_maps_checked (lm : Libm) (width height : Int) (notch_text_scale angle : ℚ) :
    Option frame_values :=
  match needle_model_checked lm angle with
  | none => none
  | some model =>
    match labelLoop_checked lm width height notch_text_scale 0 [] with
    | none => none
    | some labels =>
      match hours_pos_checked width height with
      | none => none
      | some hours => some ⟨model, labels, hours⟩

/-! ## Helper lemmas: the hue policy -/

lemma truncQ_eq_zero (q : ℚ) (h1 : -1 < q) (h2 : q < 1) : truncQ q = 0 := by
  unfold truncQ
  split_ifs with h
  · rw [Int.floor_eq_iff]
    constructor
    · simpa using h
    · simpa using h2
  · rw [Int.ceil_eq_iff]
    constructor
    · simpa using h1
    · push_neg at h
      simpa using h.le

lemma fmodf_small (x y : ℚ) (hy : 0 < y) (h1 : -y < x) (h2 : x < y) : fmodf x y = x := by
  unfold fmodf
  have hq1 : -1 < x / y := by
    rw [lt_div_iff₀ hy]
    linarith
  have hq2 : x / y < 1 := by
    rw [div_lt_iff₀ hy]
    linarith
  rw [truncQ_eq_zero _ hq1 hq2]
  simp

lemma Hue_yellow : Hue HUE_YELLOW = ⟨1, 1, 0⟩ := by
  unfold Hue HUE_YELLOW
  rw [fmodf_small 60 360 (by norm_num) (by norm_num) (by norm_num)]
  norm_num [map, clamp, clamp01, abs_of_nonneg, abs_of_nonpos]

lemma Hue_red : Hue HUE_RED = ⟨1, 0, 0⟩ := by
  unfold Hue HUE_RED
  rw [fmodf_small 0 360 (by norm_num) (by norm_num) (by norm_num)]
  norm_num [map, clamp, clamp01, abs_of_nonneg, abs_of_nonpos]

lemma Hue_green : Hue HUE_GREEN = ⟨0, 1, 1 / 3⟩ := by
  unfold Hue HUE_GREEN
  rw [fmodf_small 140 360 (by norm_num) (by norm_num) (by norm_num)]
  have e1 : |(map 140 0 360 0 1 : ℚ) * 6 - 3| = 2 / 3 := by
    rw [abs_of_nonpos] <;> norm_num [map]
  have e2 : |(map 140 0 360 0 1 : ℚ) * 6 - 2| = 1 / 3 := by
    rw [abs_of_nonneg] <;> norm_num [map]
  have e3 : |(map 140 0 360 0 1 : ℚ) * 6 - 4| = 5 / 3 := by
    rw [abs_of_nonpos] <;> norm_num [map]
  dsimp only
  rw [e1, e2, e3]
  norm_num [clamp, clamp01]

lemma clamp01_nonneg (x : ℚ) : 0 ≤ clamp01 x := by
  unfold clamp01
  exact le_min (le_max_right x 0) zero_le_one

lemma clamp01_le_one (x : ℚ) : clamp01 x ≤ 1 := by
  unfold clamp01
  exact min_le_right _ _

/-! ## Theorems: the value mapper -/

/-- C1: for a non-degenerate source range, `map` sends `x_low` to `t_low` and
`x_high` to `t_high`. -/
theorem map_endpoints (x_low x_high t_low t_high : ℚ) (h : x_high ≠ x_low) :
    map x_low x_low x_high t_low t_high = t_low ∧
    map x_high x_low x_high t_low t_high = t_high := by
  have hd : x_high - x_low ≠ 0 := sub_ne_zero.mpr h
  constructor
  · simp [map]
  · unfold map
    field_simp

theorem map_endpoints_witness :
    (3500 : ℚ) ≠ 0 ∧ map 0 0 3500 (-135) 135 = -135 ∧ map 3500 0 3500 (-135) 135 = 135 :=
  ⟨by norm_num, map_endpoints 0 3500 (-135) 135 (by norm_num)⟩

/-- C2: for a non-degenerate source range, `map` is affine in `x`: it maps the
affine combination `a * x1 + (1 - a) * x2` to the same combination of the images. -/
theorem map_affine (a x1 x2 x_low x_high t_low t_high : ℚ) (h : x_high ≠ x_low) :
    map (a * x1 + (1 - a) * x2) x_low x_high t_low t_high =
      a * map x1 x_low x_high t_low t_high + (1 - a) * map x2 x_low x_high t_low t_high := by
  have hd : x_high - x_low ≠ 0 := sub_ne_zero.mpr h
  unfold map
  field_simp
  ring

theorem map_affine_witness :
    (3500 : ℚ) ≠ 0 ∧
    map ((1 / 4) * 1000 + (1 - 1 / 4) * 3000) 0 3500 (-135) 135 =
      (1 / 4) * map 1000 0 3500 (-135) 135 + (1 - 1 / 4) * map 3000 0 3500 (-135) 135 :=
  ⟨by norm_num, map_affine (1 / 4) 1000 3000 0 3500 (-135) 135 (by norm_num)⟩

/-- C3 (amended): in exact arithmetic `map` does not clamp. For increasing
source and target ranges, an `x` above `x_high` is sent strictly above `t_high`
and an `x` below `x_low` strictly below `t_low`; the overshoot is
`(x - x_high)` times the slope of the line. -/
theorem map_no_clamp (x x_low x_high t_low t_high : ℚ)
    (hx : x_low < x_high) (ht : t_low < t_high) :
    (x_high < x → t_high < map x x_low x_high t_low t_high) ∧
    (x < x_low → map x x_low x_high t_low t_high < t_low) ∧
    map x x_low x_high t_low t_high - t_high =
      (x - x_high) * ((t_high - t_low) / (x_high - x_low)) := by
  have hd : 0 < x_high - x_low := sub_pos.mpr hx
  have hs : 0 < (t_high - t_low) / (x_high - x_low) := div_pos (sub_pos.mpr ht) hd
  have key : map x x_low x_high t_low t_high - t_high =
      (x - x_high) * ((t_high - t_low) / (x_high - x_low)) := by
    unfold map
    field_simp
    ring
  have key2 : map x x_low x_high t_low t_high - t_low =
      (x - x_low) * ((t_high - t_low) / (x_high - x_low)) := by
    unfold map
    field_simp
    ring
  refine ⟨fun hgt => ?_, fun hlt => ?_, key⟩
  · have : 0 < (x - x_high) * ((t_high - t_low) / (x_high - x_low)) :=
      mul_pos (sub_pos.mpr hgt) hs
    linarith
  · have : (x - x_low) * ((t_high - t_low) / (x_high - x_low)) < 0 :=
      mul_neg_of_neg_of_pos (sub_neg.mpr hlt) hs
    linarith

theorem map_no_clamp_witness :
    ((0 : ℚ) < 3500 ∧ (-135 : ℚ) < 135) ∧
    ((3500 : ℚ) < 4000 → (135 : ℚ) < map 4000 0 3500 (-135) 135) ∧
    ((4000 : ℚ) < 0 → map 4000 0 3500 (-135) 135 < -135) ∧
    map 4000 0 3500 (-135) 135 - 135 = (4000 - 3500) * ((135 - (-135)) / (3500 - 0)) :=
  ⟨⟨by norm_num, by norm_num⟩, map_no_clamp 4000 0 3500 (-135) 135 (by norm_num) (by norm_num)⟩

/-! ## Theorems: the frame driver -/

/-- C4: the needle angle of the frame driver is `map(value, 0, 3500, -135, 135)`:
`-135` at `RPM_MIN`, `+135` at `RPM_MAX` and `0` at the midpoint `1750`, where
the rotation uploaded for the needle is the identity matrix (for any math
library with `cos 0 = 1` and `sin 0 = 0`). -/
theorem needle_angle (lm : Libm) (hc : lm.cos 0 = 1) (hs : lm.sin 0 = 0) (value : ℚ) :
    working_angle value = map value 0 3500 (-135) 135 ∧
    working_angle (RPM_MIN : ℚ) = -135 ∧
    working_angle (RPM_MAX : ℚ) = 135 ∧
    working_angle 1750 = 0 ∧
    needle_model lm 1750 = mat4.identity := by
  have h0 : working_angle 1750 = 0 := by
    norm_num [working_angle, map, RPM_MIN, RPM_MAX, NEEDLE_RANGE]
  refine ⟨?_, ?_, ?_, h0, ?_⟩
  · norm_num [working_angle, map, RPM_MIN, RPM_MAX, NEEDLE_RANGE]
  · norm_num [working_angle, map, RPM_MIN, RPM_MAX, NEEDLE_RANGE]
  · norm_num [working_angle, map, RPM_MIN, RPM_MAX, NEEDLE_RANGE]
  · unfold needle_model
    rw [h0]
    simp [rotate, radians, hc, hs, mat4.identity, vec4.add, vec4.smul]

theorem needle_angle_witness :
    (rationalTrig.cos 0 = 1 ∧ rationalTrig.sin 0 = 0) ∧
    working_angle 875 = map 875 0 3500 (-135) 135 ∧
    working_angle (RPM_MIN : ℚ) = -135 ∧
    working_angle (RPM_MAX : ℚ) = 135 ∧
    working_angle 1750 = 0 ∧
    needle_model rationalTrig 1750 = mat4.identity :=
  ⟨⟨by norm_num [rationalTrig], by norm_num [rationalTrig]⟩,
   needle_angle rationalTrig (by norm_num [rationalTrig]) (by norm_num [rationalTrig]) 875⟩

/-! ## Theorems: the colour policy -/

/-- C5: the band colour of `genCompleteBase` is caution (`Hue(60)`) exactly for
`rpm < 500` or `2600 <= rpm < 2800`, danger (`Hue(0)`) exactly for `rpm >= 2800`
and normal (`Hue(140)`) exactly otherwise; the three colours are distinct, and
the sample and boundary values resolve half-open. -/
theorem bandColor_rule (rpm : Int) :
    (bandColor rpm = Hue 60 ↔ (rpm < 500 ∨ (2600 ≤ rpm ∧ rpm < 2800))) ∧
    (bandColor rpm = Hue 0 ↔ 2800 ≤ rpm) ∧
    (bandColor rpm = Hue 140 ↔ (500 ≤ rpm ∧ rpm < 2600)) ∧
    (Hue 60 ≠ Hue 0 ∧ Hue 60 ≠ Hue 140 ∧ Hue 0 ≠ Hue 140) ∧
    (bandColor 0 = Hue 60 ∧ bandColor 2700 = Hue 60 ∧ bandColor 1000 = Hue 140 ∧
      bandColor 3000 = Hue 0) ∧
    (bandColor 500 = Hue 140 ∧ bandColor 2600 = Hue 60 ∧ bandColor 2800 = Hue 0) := by
  have hy : Hue 60 = ⟨1, 1, 0⟩ := Hue_yellow
  have hr : Hue 0 = ⟨1, 0, 0⟩ := Hue_red
  have hg : Hue 140 = ⟨0, 1, 1 / 3⟩ := Hue_green
  have hyr : Hue 60 ≠ Hue 0 := by rw [hy, hr]; simp
  have hyg : Hue 60 ≠ Hue 140 := by rw [hy, hg]; simp
  have hrg : Hue 0 ≠ Hue 140 := by rw [hr, hg]; simp
  have key : ∀ r : Int, bandColor r =
      if r < 500 ∨ (2600 ≤ r ∧ r < 2800) then Hue 60
      else if 2800 ≤ r then Hue 0 else Hue 140 := by
    intro r
    simp only [bandColor, HUE_YELLOW, HUE_RED, HUE_GREEN, ge_iff_le]
  refine ⟨?_, ?_, ?_, ⟨hyr, hyg, hrg⟩, ⟨?_, ?_, ?_, ?_⟩, ⟨?_, ?_, ?_⟩⟩
  · rw [key]
    split_ifs with h1 h2
    · exact ⟨fun _ => h1, fun _ => rfl⟩
    · exact ⟨fun e => absurd e.symm hyr, fun h => absurd h h1⟩
    · exact ⟨fun e => absurd e.symm hyg, fun h => absurd h h1⟩
  · rw [key]
    split_ifs with h1 h2
    · exact ⟨fun e => absurd e hyr, fun h => by omega⟩
    · exact ⟨fun _ => h2, fun _ => rfl⟩
    · exact ⟨fun e => absurd e.symm hrg, fun h => absurd h h2⟩
  · rw [key]
    split_ifs with h1 h2
    · exact ⟨fun e => absurd e hyg, fun h => by omega⟩
    · exact ⟨fun e => absurd e hrg, fun h => by omega⟩
    · exact ⟨fun _ => by omega, fun _ => rfl⟩
  all_goals rw [key]; norm_num

/-- C6 (fails on the code): `Hue` is not periodic at negative angles. At
`h = -60` the code returns pure red `(1, 0, 0)`, because `fmodf` keeps the sign
of its argument, whereas one period later `Hue(300)` is magenta `(1, 0, 1)`. -/
theorem Hue_neg60_not_periodic :
    Hue (-60) = ⟨1, 0, 0⟩ ∧ Hue (-60 + 360) = ⟨1, 0, 1⟩ ∧ Hue (-60) ≠ Hue (-60 + 360) := by
  have h1 : Hue (-60) = ⟨1, 0, 0⟩ := by
    unfold Hue
    rw [fmodf_small (-60) 360 (by norm_num) (by norm_num) (by norm_num)]
    have e1 : |(map (-60) 0 360 0 1 : ℚ) * 6 - 3| = 4 := by
      rw [abs_of_nonpos] <;> norm_num [map]
    have e2 : |(map (-60) 0 360 0 1 : ℚ) * 6 - 2| = 3 := by
      rw [abs_of_nonpos] <;> norm_num [map]
    have e3 : |(map (-60) 0 360 0 1 : ℚ) * 6 - 4| = 5 := by
      rw [abs_of_nonpos] <;> norm_num [map]
    dsimp only
    rw [e1, e2, e3]
    norm_num [clamp, clamp01]
  have h2 : Hue (-60 + 360) = ⟨1, 0, 1⟩ := by
    have e : (-60 + 360 : ℚ) = 300 := by norm_num
    rw [e]
    unfold Hue
    rw [fmodf_small 300 360 (by norm_num) (by norm_num) (by norm_num)]
    have e1 : |(map 300 0 360 0 1 : ℚ) * 6 - 3| = 2 := by
      rw [abs_of_nonneg] <;> norm_num [map]
    have e2 : |(map 300 0 360 0 1 : ℚ) * 6 - 2| = 3 := by
      rw [abs_of_nonneg] <;> norm_num [map]
    have e3 : |(map 300 0 360 0 1 : ℚ) * 6 - 4| = 1 := by
      rw [abs_of_nonneg] <;> norm_num [map]
    dsimp only
    rw [e1, e2, e3]
    norm_num [clamp, clamp01]
  refine ⟨h1, h2, ?_⟩
  rw [h1, h2]
  simp

/-- C7: every channel of `Hue(h)` lies in `[0, 1]`, for every angle `h`. -/
theorem Hue_channels_unit (h : ℚ) :
    (0 ≤ (Hue h).x ∧ (Hue h).x ≤ 1) ∧
    (0 ≤ (Hue h).y ∧ (Hue h).y ≤ 1) ∧
    (0 ≤ (Hue h).z ∧ (Hue h).z ≤ 1) := by
  simp only [Hue, clamp]
  exact ⟨⟨clamp01_nonneg _, clamp01_le_one _⟩, ⟨clamp01_nonneg _, clamp01_le_one _⟩,
    ⟨clamp01_nonneg _, clamp01_le_one _⟩⟩


/-! ## Helper lemmas: the text renderer -/

lemma index_of_some (ch : glyph_table) (c : Char) (d : character_details)
    (h : ch c = some d) : ch.index c = (d, ch) := by
  simp [glyph_table.index, h]

lemma draw_char_nonspace (self : text_renderer) (y scale : ℚ) (st : draw_state) (c : Char)
    (hc : c ≠ ' ') (hp : st.gl.current_program = self.program) :
    (draw_char self y scale st c).gl.calls = st.gl.calls ++
        [⟨GL_TRIANGLE_STRIP, 0, 4, self.program, st.gl.vertex_array_binding,
          (st.ch.index c).1.TextureID, glyph_transform (st.ch.index c).1 st.x y scale⟩] ∧
    (draw_char self y scale st c).gl.current_program = self.program ∧
    (draw_char self y scale st c).gl.vertex_array_binding = st.gl.vertex_array_binding ∧
    (draw_char self y scale st c).x = st.x + pen_advance st.ch scale c ∧
    (draw_char self y scale st c).ch = (st.ch.index c).2 := by
  simp [draw_char, hc, pen_advance, glDrawArrays, glBindTexture2D, Program.setUniform_mat4,
    Program.uniformMatrix4fv, glUseProgram, glUniformMatrix4fv, hp, glyph_transform]


lemma draw_char_calls_length (self : text_renderer) (y scale : ℚ) (st : draw_state) (c : Char) :
    (draw_char self y scale st c).gl.calls.length =
      st.gl.calls.length + (if c = ' ' then 0 else 1) := by
  by_cases hc : c = ' '
  · simp [draw_char, hc]
  · simp [draw_char, hc, glDrawArrays, glBindTexture2D, Program.setUniform_mat4,
      Program.uniformMatrix4fv, glUseProgram, glUniformMatrix4fv]

lemma draw_char_calls_append (self : text_renderer) (y scale : ℚ) (st : draw_state) (c : Char) :
    ∃ more, (draw_char self y scale st c).gl.calls = st.gl.calls ++ more := by
  by_cases hc : c = ' '
  · exact ⟨[], by simp [draw_char, hc]⟩
  · exact ⟨_, by simp [draw_char, hc, glDrawArrays, glBindTexture2D, Program.setUniform_mat4,
      Program.uniformMatrix4fv, glUseProgram, glUniformMatrix4fv]; rfl⟩

lemma draw_loop_calls_length (self : text_renderer) (y scale : ℚ) (text : List Char) :
    ∀ st : draw_state, (draw_loop self y scale st text).gl.calls.length =
      st.gl.calls.length + text.countP (fun c => c ≠ ' ') := by
  induction text with
  | nil => intro st; simp [draw_loop]
  | cons c rest ih =>
    intro st
    have h := ih (draw_char self y scale st c)
    simp only [draw_loop, List.foldl_cons] at h ⊢
    rw [h, draw_char_calls_length]
    by_cases hc : c = ' '
    · simp [hc]
    · simp [hc, List.countP_cons]
      omega

lemma draw_loop_calls_append (self : text_renderer) (y scale : ℚ) (text : List Char) :
    ∀ st : draw_state, ∃ more, (draw_loop self y scale st text).gl.calls = st.gl.calls ++ more := by
  induction text with
  | nil => intro st; exact ⟨[], by simp [draw_loop]⟩
  | cons c rest ih =>
    intro st
    obtain ⟨m1, h1⟩ := draw_char_calls_append self y scale st c
    obtain ⟨m2, h2⟩ := ih (draw_char self y scale st c)
    refine ⟨m1 ++ m2, ?_⟩
    simp only [draw_loop, List.foldl_cons] at h2 ⊢
    rw [h2, h1, List.append_assoc]

lemma draw_char_present (self : text_renderer) (y scale : ℚ) (st : draw_state) (c : Char)
    (h : (st.ch c).isSome) : (draw_char self y scale st c).ch = st.ch := by
  obtain ⟨d, hd⟩ := Option.isSome_iff_exists.mp h
  by_cases hc : c = ' '
  · subst hc
    simp [draw_char, index_of_some _ _ _ hd]
  · simp [draw_char, hc, index_of_some _ _ _ hd]

lemma draw_char_x (self : text_renderer) (y scale : ℚ) (st : draw_state) (c : Char) :
    (draw_char self y scale st c).x = st.x + pen_advance st.ch scale c := by
  by_cases hc : c = ' '
  · simp [draw_char, hc, pen_advance]
  · simp [draw_char, hc, pen_advance]

lemma draw_char_bindings (self : text_renderer) (y scale : ℚ) (st : draw_state) (c : Char) :
    (draw_char self y scale st c).gl.current_program = st.gl.current_program ∧
    (draw_char self y scale st c).gl.vertex_array_binding = st.gl.vertex_array_binding := by
  by_cases hc : c = ' '
  · simp [draw_char, hc]
  · simp [draw_char, hc, glDrawArrays, glBindTexture2D, Program.setUniform_mat4,
      Program.uniformMatrix4fv, glUseProgram, glUniformMatrix4fv]

lemma draw_loop_present (self : text_renderer) (y scale : ℚ) (text : List Char) :
    ∀ st : draw_state, (∀ a ∈ text, (st.ch a).isSome) →
      (draw_loop self y scale st text).ch = st.ch ∧
      (draw_loop self y scale st text).x = st.x + (text.map (pen_advance st.ch scale)).sum ∧
      (draw_loop self y scale st text).gl.current_program = st.gl.current_program ∧
      (draw_loop self y scale st text).gl.vertex_array_binding = st.gl.vertex_array_binding := by
  induction text with
  | nil => intro st _; simp [draw_loop]
  | cons c rest ih =>
    intro st hall
    have hc : (st.ch c).isSome := hall c (List.mem_cons_self c rest)
    have hch := draw_char_present self y scale st c hc
    have hrest : ∀ a ∈ rest, ((draw_char self y scale st c).ch a).isSome := by
      intro a ha
      rw [hch]
      exact hall a (List.mem_cons_of_mem c ha)
    obtain ⟨h1, h2, h3, h4⟩ := ih (draw_char self y scale st c) hrest
    obtain ⟨b1, b2⟩ := draw_char_bindings self y scale st c
    simp only [draw_loop, List.foldl_cons] at h1 h2 h3 h4 ⊢
    refine ⟨h1.trans hch, ?_, h3.trans b1, h4.trans b2⟩
    rw [h2, hch, draw_char_x, List.map_cons, List.sum_cons]
    ring

lemma draw_calls (self : text_renderer) (gl : GLState) (text : List Char) (x y scale : ℚ) :
    (self.draw gl text x y scale).2.calls =
      (draw_loop self y scale
        ⟨glBindVertexArray (glUseProgram (glBlendFunc (glEnableBlend gl) GL_SRC_ALPHA
          GL_ONE_MINUS_SRC_ALPHA) self.program) self.vao, self.ch, x⟩ text).gl.calls := by
  simp only [text_renderer.draw]
  split_ifs <;> rfl


lemma quad_of_glyph_transform (mode : Nat) (first count : Int) (p v t : Nat)
    (d : character_details) (x y scale : ℚ) :
    quad_origin ⟨mode, first, count, p, v, t, glyph_transform d x y scale⟩ =
      ⟨x + (d.Bearing.x : ℚ) * scale, y - ((d.Size.y - d.Bearing.y : Int) : ℚ) * scale⟩ ∧
    quad_size ⟨mode, first, count, p, v, t, glyph_transform d x y scale⟩ =
      ⟨(d.Size.x : ℚ) * scale, (d.Size.y : ℚ) * scale⟩ := by
  simp [quad_origin, quad_size, quad_vertex, glyph_transform, draw_char.scale_mat, mat4.mul,
    mat4.mulVec, translate, RpmGauge.scale, mat4.identity, vec4.add, vec4.smul]

lemma draw_quad_at (self : text_renderer) (gl : GLState) (pre : List Char) (c : Char)
    (post : List Char) (x y scale : ℚ) (d : character_details)
    (hall : ∀ a ∈ pre ++ c :: post, (self.ch a).isSome) (hc : c ≠ ' ')
    (hd : self.ch c = some d) :
      (self.draw gl (pre ++ c :: post) x y scale).2.calls[
          gl.calls.length + pre.countP (fun a => a ≠ ' ')]? =
        some ⟨GL_TRIANGLE_STRIP, 0, 4, self.program, self.vao, d.TextureID,
          glyph_transform d (x + (pre.map (pen_advance self.ch scale)).sum) y scale⟩ := by
  rw [draw_calls]
  set st0 : draw_state :=
    ⟨glBindVertexArray (glUseProgram (glBlendFunc (glEnableBlend gl) GL_SRC_ALPHA
      GL_ONE_MINUS_SRC_ALPHA) self.program) self.vao, self.ch, x⟩ with hst0
  have hpre : ∀ a ∈ pre, (st0.ch a).isSome := fun a ha =>
    hall a (List.mem_append_left _ ha)
  obtain ⟨p1, p2, p3, p4⟩ := draw_loop_present self y scale pre st0 hpre
  have plen := draw_loop_calls_length self y scale pre st0
  set st1 := draw_loop self y scale st0 pre with hst1
  have hprog : st1.gl.current_program = self.program := by rw [p3]; rfl
  obtain ⟨q1, _, q3, _, _⟩ := draw_char_nonspace self y scale st1 c hc hprog
  obtain ⟨more, hmore⟩ := draw_loop_calls_append self y scale post (draw_char self y scale st1 c)
  have hsplit : draw_loop self y scale st0 (pre ++ c :: post) =
      draw_loop self y scale (draw_char self y scale st1 c) post := by
    simp [draw_loop, List.foldl_append, hst1]
  rw [hsplit, hmore, q1, p1, p2, p4]
  have hidx : st0.ch.index c = (d, st0.ch) := index_of_some _ _ _ hd
  rw [hidx]
  have hlen : gl.calls.length + pre.countP (fun a => a ≠ ' ') = st1.gl.calls.length := by
    rw [plen]
    rfl
  rw [hlen, List.append_assoc, List.getElem?_append_right (le_refl _)]
  simp [st0, glBindVertexArray]


/-! ## Theorems: the text renderer -/

/-- C8 (amended): in exact arithmetic, in `draw(text, x, y, scale)`, when every
character of the text has a glyph entry, the quad issued for the non-space
character `c` at index `pre.length` (`text = pre ++ c :: post`) has origin
`(x + S + bearing.x * scale, y - (size.y - bearing.y) * scale)` and
width/height `size * scale`, where `S` sums `(advance >> 6) * scale` over the
earlier characters `pre`; and for the text `AA`, when `A` has a glyph entry,
the second quad's x-origin is the first's plus `(advance_A >> 6) * scale`. -/
theorem draw_quad_layout (self : text_renderer) (gl : GLState) (x y scale : ℚ) :
    (∀ (pre : List Char) (c : Char) (post : List Char) (d : character_details),
      (∀ a ∈ pre ++ c :: post, (self.ch a).isSome) → c ≠ ' ' → self.ch c = some d →
      ∃ q, (self.draw gl (pre ++ c :: post) x y scale).2.calls[
          gl.calls.length + pre.countP (fun a => a ≠ ' ')]? = some q ∧
        quad_origin q =
          ⟨x + (pre.map (pen_advance self.ch scale)).sum + (d.Bearing.x : ℚ) * scale,
           y - ((d.Size.y - d.Bearing.y : Int) : ℚ) * scale⟩ ∧
        quad_size q = ⟨(d.Size.x : ℚ) * scale, (d.Size.y : ℚ) * scale⟩ ∧
        q.texture = d.TextureID) ∧
    (∀ dA : character_details, self.ch 'A' = some dA →
      ∃ q1 q2, (self.draw gl ['A', 'A'] x y scale).2.calls = gl.calls ++ [q1, q2] ∧
        (quad_origin q2).x = (quad_origin q1).x + ((dA.Advance >>> 6 : Nat) : ℚ) * scale) := by
  constructor
  · intro pre c post d hall hc hd
    have h := draw_quad_at self gl pre c post x y scale d hall hc hd
    refine ⟨_, h, ?_, ?_, rfl⟩
    · exact (quad_of_glyph_transform _ _ _ _ _ _ d _ y scale).1
    · exact (quad_of_glyph_transform _ _ _ _ _ _ d _ y scale).2
  · intro dA hA
    have hne : 'A' ≠ ' ' := by decide
    rw [draw_calls]
    set st0 : draw_state :=
      ⟨glBindVertexArray (glUseProgram (glBlendFunc (glEnableBlend gl) GL_SRC_ALPHA
        GL_ONE_MINUS_SRC_ALPHA) self.program) self.vao, self.ch, x⟩ with hst0
    have hp0 : st0.gl.current_program = self.program := rfl
    obtain ⟨a1, a2, _, a4, a5⟩ := draw_char_nonspace self y scale st0 'A' hne hp0
    obtain ⟨b1, _, _, _, _⟩ :=
      draw_char_nonspace self y scale (draw_char self y scale st0 'A') 'A' hne a2
    have hidx : st0.ch.index 'A' = (dA, st0.ch) := index_of_some _ _ _ hA
    have hloop : draw_loop self y scale st0 ['A', 'A'] =
        draw_char self y scale (draw_char self y scale st0 'A') 'A' := rfl
    rw [hloop, b1, a1, a4, a5, hidx]
    have hidx2 : (dA, st0.ch).2.index 'A' = (dA, st0.ch) := index_of_some _ _ _ hA
    rw [hidx2]
    refine ⟨_, _, by rw [List.append_assoc]; rfl, ?_⟩
    rw [(quad_of_glyph_transform _ _ _ _ _ _ dA _ y scale).1,
      (quad_of_glyph_transform _ _ _ _ _ _ dA _ y scale).1]
    simp only [pen_advance, hidx]
    ring

theorem draw_quad_layout_witness :
    ((∀ a ∈ ['A', ' '] ++ 'A' :: [], (sampleRenderer.ch a).isSome) ∧ 'A' ≠ ' ' ∧
      sampleRenderer.ch 'A' = some ⟨7, ⟨10, 12⟩, ⟨1, 11⟩, 704⟩) ∧
    (∃ q, (sampleRenderer.draw sampleGL (['A', ' '] ++ 'A' :: []) 100 200 2).2.calls[
          sampleGL.calls.length + (['A', ' ']).countP (fun a => a ≠ ' ')]? = some q ∧
        quad_origin q =
          ⟨100 + ((['A', ' ']).map (pen_advance sampleRenderer.ch 2)).sum +
              (((⟨7, ⟨10, 12⟩, ⟨1, 11⟩, 704⟩ : character_details).Bearing.x : Int) : ℚ) * 2,
           200 - (((⟨7, ⟨10, 12⟩, ⟨1, 11⟩, 704⟩ : character_details).Size.y -
              (⟨7, ⟨10, 12⟩, ⟨1, 11⟩, 704⟩ : character_details).Bearing.y : Int) : ℚ) * 2⟩ ∧
        quad_size q =
          ⟨(((⟨7, ⟨10, 12⟩, ⟨1, 11⟩, 704⟩ : character_details).Size.x : Int) : ℚ) * 2,
           (((⟨7, ⟨10, 12⟩, ⟨1, 11⟩, 704⟩ : character_details).Size.y : Int) : ℚ) * 2⟩ ∧
        q.texture = (⟨7, ⟨10, 12⟩, ⟨1, 11⟩, 704⟩ : character_details).TextureID) ∧
    (∃ q1 q2, (sampleRenderer.draw sampleGL ['A', 'A'] 100 200 2).2.calls =
          sampleGL.calls ++ [q1, q2] ∧
        (quad_origin q2).x = (quad_origin q1).x +
          (((⟨7, ⟨10, 12⟩, ⟨1, 11⟩, 704⟩ : character_details).Advance >>> 6 : Nat) : ℚ) * 2) :=
  have hall : ∀ a ∈ ['A', ' '] ++ 'A' :: [], (sampleRenderer.ch a).isSome := by
    intro a ha
    simp only [List.cons_append, List.nil_append, List.mem_cons, List.mem_singleton,
      List.not_mem_nil, or_false] at ha
    rcases ha with h | h | h <;> subst h <;> rfl
  ⟨⟨hall, by decide, rfl⟩,
   (draw_quad_layout sampleRenderer sampleGL 100 200 2).1 ['A', ' '] 'A' []
     ⟨7, ⟨10, 12⟩, ⟨1, 11⟩, 704⟩ hall (by decide) rfl,
   (draw_quad_layout sampleRenderer sampleGL 100 200 2).2 ⟨7, ⟨10, 12⟩, ⟨1, 11⟩, 704⟩ rfl⟩

/-- C9: `draw` issues no quad for a space and exactly one quad for any other
character, so the number of quads drawn for a text is its number of non-space
characters; a space leaves the OpenGL context untouched and still advances the
pen by `(advance_space >> 6) * scale`. -/
theorem draw_quad_count (self : text_renderer) (gl : GLState) (text : List Char)
    (x y scale : ℚ) (st : draw_state) (c : Char) :
    (self.draw gl text x y scale).2.calls.length =
      gl.calls.length + text.countP (fun a => a ≠ ' ') ∧
    (draw_char self y scale st c).gl.calls.length =
      st.gl.calls.length + (if c = ' ' then 0 else 1) ∧
    (draw_char self y scale st ' ').gl = st.gl ∧
    (draw_char self y scale st ' ').x =
      st.x + (((st.ch.index ' ').1.Advance >>> 6 : Nat) : ℚ) * scale := by
  refine ⟨?_, draw_char_calls_length self y scale st c, ?_, ?_⟩
  · rw [draw_calls, draw_loop_calls_length]
    rfl
  · simp [draw_char]
  · simp [draw_char]


/-! ## Helper lemmas: the dial mesh generator -/

lemma range_flatMap_succ {α : Type} (n : Nat) (f : Nat → List α) :
    (List.range (n + 1)).flatMap f = f 0 ++ (List.range n).flatMap (fun j => f (j + 1)) := by
  rw [List.range_succ_eq_map, List.flatMap_cons, List.flatMap_map]

lemma circleLoop_eq (lm : Libm) : ∀ (n k : Nat) (ret : List datapack), k + n = 64 →
    circleLoop lm (k : Int) ret =
      ret ++ (List.range n).flatMap (fun j => circleBody lm ((k + j : Nat) : Int)) := by
  intro n
  induction n with
  | zero =>
    intro k ret h
    rw [circleLoop]
    simp only [CIRCLE_DIVISIONS]
    rw [if_neg (by omega)]
    simp
  | succ n ih =>
    intro k ret h
    rw [circleLoop]
    simp only [CIRCLE_DIVISIONS]
    rw [if_pos (by omega)]
    have e : (k : Int) + 1 = ((k + 1 : Nat) : Int) := by push_cast; ring
    rw [e, ih (k + 1) _ (by omega), range_flatMap_succ, List.append_assoc]
    have hj : ∀ j : Int, (k : Int) + 1 + j = (k : Int) + (j + 1) := fun j => by ring
    simp only [Nat.cast_add, Nat.cast_one, Nat.cast_zero, add_zero, hj]

lemma bandLoop_eq (lm : Libm) : ∀ (n k : Nat) (ret : List datapack), k + n = 35 →
    bandLoop lm (100 * (k : Int)) ret =
      ret ++ (List.range n).flatMap (fun j => bandBody lm (100 * ((k + j : Nat) : Int))) := by
  intro n
  induction n with
  | zero =>
    intro k ret h
    rw [bandLoop]
    simp only [RPM_MAX]
    rw [if_neg (by omega)]
    simp
  | succ n ih =>
    intro k ret h
    rw [bandLoop]
    simp only [RPM_MAX, RPM_STEP]
    rw [if_pos (by omega)]
    have e : 100 * (k : Int) + 100 = 100 * ((k + 1 : Nat) : Int) := by push_cast; ring
    rw [e, ih (k + 1) _ (by omega), range_flatMap_succ, List.append_assoc]
    have hj : ∀ j : Int, (k : Int) + 1 + j = (k : Int) + (j + 1) := fun j => by ring
    simp only [Nat.cast_add, Nat.cast_one, Nat.cast_zero, add_zero, hj]

lemma tickLoop_eq (lm : Libm) : ∀ (n k : Nat) (ret : List datapack), k + n = 36 →
    tickLoop lm (100 * (k : Int)) ret =
      ret ++ (List.range n).flatMap (fun j => tickBody lm (100 * ((k + j : Nat) : Int))) := by
  intro n
  induction n with
  | zero =>
    intro k ret h
    rw [tickLoop]
    simp only [RPM_MAX]
    rw [if_neg (by omega)]
    simp
  | succ n ih =>
    intro k ret h
    rw [tickLoop]
    simp only [RPM_MAX, RPM_STEP]
    rw [if_pos (by omega)]
    have e : 100 * (k : Int) + 100 = 100 * ((k + 1 : Nat) : Int) := by push_cast; ring
    rw [e, ih (k + 1) _ (by omega), range_flatMap_succ, List.append_assoc]
    have hj : ∀ j : Int, (k : Int) + 1 + j = (k : Int) + (j + 1) := fun j => by ring
    simp only [Nat.cast_add, Nat.cast_one, Nat.cast_zero, add_zero, hj]

lemma length_flatMap_const {α β : Type} (l : List α) (f : α → List β) (n : Nat)
    (h : ∀ a, (f a).length = n) : (l.flatMap f).length = l.length * n := by
  induction l with
  | nil => simp
  | cons a l ih =>
    rw [List.flatMap_cons, List.length_append, ih, h, List.length_cons]
    ring

lemma circleBody_length (lm : Libm) (i : Int) : (circleBody lm i).length = 3 := rfl

lemma bandBody_length (lm : Libm) (rpm : Int) : (bandBody lm rpm).length = 6 := rfl

lemma tickBody_length (lm : Libm) (rpm : Int) : (tickBody lm rpm).length = 6 := by
  unfold tickBody
  simp only [List.length_map]
  split_ifs <;> rfl

/-! ## Theorems: the dial mesh generator -/

/-- C10: for `RPM_MIN = 0`, `RPM_MAX = 3500`, `RPM_STEP = 100` the mesh returned
by `genCompleteBase` is, vertex by vertex and before the final scaling pass,
64 disc triangles, then the 35 band segments at `0, 100, ..., 3400` (6 vertices,
2 triangles each, 70 triangles), then the 36 ticks at `0, 100, ..., 3500`
(6 vertices each); its length is always 618, a multiple of 3. -/
theorem genCompleteBase_layout (lm : Libm) :
    genCompleteBase lm =
      ((List.range 64).flatMap (fun i => circleBody lm (i : Int)) ++
        (List.range 35).flatMap (fun i => bandBody lm (100 * (i : Int))) ++
        (List.range 36).flatMap (fun i => tickBody lm (100 * (i : Int)))).map scaleVertex ∧
    ((∀ i, (circleBody lm i).length = 3) ∧ (∀ rpm, (bandBody lm rpm).length = 6) ∧
      (∀ rpm, (tickBody lm rpm).length = 6)) ∧
    (genCompleteBase lm).length = 618 ∧
    (618 = 3 * 64 + 3 * (2 * 35) + 3 * (2 * 36) ∧ 618 % 3 = 0 ∧
      2 * Int.tdiv (RPM_MAX - RPM_MIN) RPM_STEP = 70) := by
  have hc := circleLoop_eq lm 64 0 [] (by norm_num)
  have hb := bandLoop_eq lm 35 0 (circleLoop lm 0 []) (by norm_num)
  have ht := tickLoop_eq lm 36 0 (bandLoop lm RPM_MIN (circleLoop lm 0 [])) (by norm_num)
  simp only [Nat.cast_zero, mul_zero, zero_add, List.nil_append] at hc hb ht
  have hlayout : genCompleteBase lm =
      ((List.range 64).flatMap (fun i => circleBody lm (i : Int)) ++
        (List.range 35).flatMap (fun i => bandBody lm (100 * (i : Int))) ++
        (List.range 36).flatMap (fun i => tickBody lm (100 * (i : Int)))).map scaleVertex := by
    unfold genCompleteBase
    simp only [RPM_MIN] at ht ⊢
    rw [ht, hb, hc]
  refine ⟨hlayout, ⟨circleBody_length lm, bandBody_length lm, tickBody_length lm⟩, ?_,
    by norm_num, by norm_num, by decide⟩
  rw [hlayout, List.length_map, List.length_append, List.length_append,
    length_flatMap_const _ _ 3 (fun i => circleBody_length lm _),
    length_flatMap_const _ _ 6 (fun i => bandBody_length lm _),
    length_flatMap_const _ _ 6 (fun i => tickBody_length lm _)]
  simp


/-! ## Theorems: needle mesh, saved bindings, glyph lookup and loading, mesh invariants -/

/-- C11 (fails on the code): the list returned by `genNeedle` does not have 4
vertices; it has 6. -/
theorem genNeedle_not_four_vertices : genNeedle.length ≠ 4 := by
  decide

/-- C11 (amended): `genNeedle` returns a 6-vertex triangle list, two triangles
over four corner positions: two base vertices at `y = -NEEDLE_OFFSET` next to
the pivot and two tip vertices `NEEDLE_LENGTH` further along +Y; `main` draws it
with `GL_TRIANGLES` and a count of 6. -/
theorem genNeedle_triangle_list (gl : GLState) (vao_needle : Nat) :
    genNeedle.length = 6 ∧
    genNeedle.map (fun v => v.pos) =
      [⟨-0.0075, -0.01, 0⟩, ⟨0.0075, -0.01, 0⟩, ⟨-0.0075, 0.59, 0⟩,
       ⟨0.0075, -0.01, 0⟩, ⟨-0.0075, 0.59, 0⟩, ⟨0.0075, 0.59, 0⟩] ∧
    (0.59 : ℚ) - (-0.01) = NEEDLE_LENGTH ∧
    (draw_needle gl vao_needle).calls =
      gl.calls ++ [⟨GL_TRIANGLES, 0, 6, gl.current_program, vao_needle,
        gl.texture_binding_2D, gl.uniform_mat4 gl.current_program "transform"⟩] := by
  refine ⟨rfl, ?_, ?_, rfl⟩
  · norm_num [genNeedle, NEEDLE_WIDTH, NEEDLE_OFFSET, NEEDLE_LENGTH]
  · norm_num [NEEDLE_LENGTH]

/-- C12: `text_renderer::draw` leaves the bound shader program, the bound 2D
texture and the bound vertex array as it found them, for every text, position
and scale. -/
theorem draw_restores_bindings (self : text_renderer) (gl : GLState) (text : List Char)
    (x y scale : ℚ) :
    (self.draw gl text x y scale).2.current_program = gl.current_program ∧
    (self.draw gl text x y scale).2.texture_binding_2D = gl.texture_binding_2D ∧
    (self.draw gl text x y scale).2.vertex_array_binding = gl.vertex_array_binding := by
  simp only [text_renderer.draw]
  split_ifs <;> exact ⟨rfl, rfl, rfl⟩

/-- C13 (fails on the code): the lookup of a character without an entry is
defined. For the byte 200, absent from `sampleGlyphs`, `ch[c]` yields the
all-zero metrics and stores them in the table as the entry of that character. -/
theorem missing_glyph_defined :
    sampleGlyphs (Char.ofNat 200) = none ∧
    (sampleGlyphs.index (Char.ofNat 200)).1 = character_details.zero ∧
    (sampleGlyphs.index (Char.ofNat 200)).2 (Char.ofNat 200) = some character_details.zero := by
  have h : sampleGlyphs (Char.ofNat 200) = none := by decide
  refine ⟨h, ?_, ?_⟩
  · simp [glyph_table.index, h]
  · simp [glyph_table.index, h]

lemma draw_loop_bindings (self : text_renderer) (y scale : ℚ) (text : List Char) :
    ∀ st : draw_state,
      (draw_loop self y scale st text).gl.current_program = st.gl.current_program ∧
      (draw_loop self y scale st text).gl.vertex_array_binding = st.gl.vertex_array_binding := by
  induction text with
  | nil => intro st; simp [draw_loop]
  | cons c rest ih =>
    intro st
    obtain ⟨h1, h2⟩ := ih (draw_char self y scale st c)
    obtain ⟨b1, b2⟩ := draw_char_bindings self y scale st c
    simp only [draw_loop, List.foldl_cons] at h1 h2 ⊢
    exact ⟨h1.trans b1, h2.trans b2⟩

lemma draw_loop_absent (self : text_renderer) (y scale : ℚ) (text : List Char) (c : Char) :
    ∀ st : draw_state, st.ch c = none → c ∉ text →
      (draw_loop self y scale st text).ch c = none := by
  induction text with
  | nil => intro st h _; simpa [draw_loop] using h
  | cons a rest ih =>
    intro st h hmem
    have hne : c ≠ a := fun e => hmem (e ▸ List.mem_cons_self _ _)
    have hrest : c ∉ rest := fun e => hmem (List.mem_cons_of_mem _ e)
    have hstep : (draw_char self y scale st a).ch c = none := by
      by_cases ha : a = ' '
      · cases hidx : st.ch a <;> simp [draw_char, ha, glyph_table.index, hidx, h, hne] <;>
          simp_all [glyph_table.index]
      · cases hidx : st.ch a <;> simp [draw_char, ha, glyph_table.index, hidx, h, hne]
    have := ih (draw_char self y scale st a) hstep hrest
    simpa only [draw_loop, List.foldl_cons] using this

lemma index_of_none (ch : glyph_table) (c : Char) (h : ch c = none) :
    (ch.index c).1 = character_details.zero := by
  simp [glyph_table.index, h]

lemma zero_quad (mode : Nat) (first count : Int) (p v t : Nat) (x y scale : ℚ) :
    quad_origin ⟨mode, first, count, p, v, t,
        glyph_transform character_details.zero x y scale⟩ = ⟨x, y⟩ ∧
    quad_size ⟨mode, first, count, p, v, t,
        glyph_transform character_details.zero x y scale⟩ = ⟨0, 0⟩ := by
  obtain ⟨h1, h2⟩ := quad_of_glyph_transform mode first count p v t character_details.zero
    x y scale
  rw [h1, h2]
  simp [character_details.zero]

lemma draw_missing_quad_at (self : text_renderer) (gl : GLState) (pre : List Char) (c : Char)
    (post : List Char) (x y scale : ℚ) (hn : self.ch c = none) (hpre : c ∉ pre)
    (hc : c ≠ ' ') :
    ∃ px, (self.draw gl (pre ++ c :: post) x y scale).2.calls[
        gl.calls.length + pre.countP (fun a => a ≠ ' ')]? =
      some ⟨GL_TRIANGLE_STRIP, 0, 4, self.program, self.vao, 0,
        glyph_transform character_details.zero px y scale⟩ := by
  rw [draw_calls]
  set st0 : draw_state :=
    ⟨glBindVertexArray (glUseProgram (glBlendFunc (glEnableBlend gl) GL_SRC_ALPHA
      GL_ONE_MINUS_SRC_ALPHA) self.program) self.vao, self.ch, x⟩ with hst0
  obtain ⟨p3, p4⟩ := draw_loop_bindings self y scale pre st0
  have pabs := draw_loop_absent self y scale pre c st0 hn hpre
  have plen := draw_loop_calls_length self y scale pre st0
  set st1 := draw_loop self y scale st0 pre with hst1
  have hprog : st1.gl.current_program = self.program := by rw [p3]; rfl
  obtain ⟨q1, _, _, _, _⟩ := draw_char_nonspace self y scale st1 c hc hprog
  obtain ⟨more, hmore⟩ := draw_loop_calls_append self y scale post (draw_char self y scale st1 c)
  have hsplit : draw_loop self y scale st0 (pre ++ c :: post) =
      draw_loop self y scale (draw_char self y scale st1 c) post := by
    simp [draw_loop, List.foldl_append, hst1]
  refine ⟨st1.x, ?_⟩
  rw [hsplit, hmore, q1, p4, index_of_none _ _ pabs]
  have hlen : gl.calls.length + pre.countP (fun a => a ≠ ' ') = st1.gl.calls.length := by
    rw [plen]
    rfl
  rw [hlen, List.append_assoc, List.getElem?_append_right (le_refl _)]
  simp [st0, glBindVertexArray, character_details.zero]

/-- C13 (amended): for a character without an entry, `ch[c]` of the
`std::unordered_map` returns value-initialised (all-zero) metrics and inserts
them under that key, leaving the other keys alone. One pass of the loop of
`draw` then leaves the pen where it is (advance 0); for a space it draws
nothing, and for any other character it issues exactly one quad, with texture
0, of size `(0, 0)`, at the pen position `(x, y)`. In a whole call of `draw`,
the quad of the first occurrence of such a character has texture 0 and size
`(0, 0)` and lies on the baseline `y`. -/
theorem missing_glyph_lookup (self : text_renderer) (y scale : ℚ) (c : Char) :
    (∀ st : draw_state, st.ch c = none →
      (st.ch.index c).1 = character_details.zero ∧
      (st.ch.index c).2 c = some character_details.zero ∧
      (∀ k, k ≠ c → (st.ch.index c).2 k = st.ch k) ∧
      (draw_char self y scale st c).x = st.x ∧
      (draw_char self y scale st c).ch c = some character_details.zero ∧
      (draw_char self y scale st c).gl.calls.length =
        st.gl.calls.length + (if c = ' ' then 0 else 1) ∧
      (c = ' ' → (draw_char self y scale st c).gl = st.gl) ∧
      (c ≠ ' ' → st.gl.current_program = self.program →
        ∃ q, (draw_char self y scale st c).gl.calls = st.gl.calls ++ [q] ∧
          q.mode = GL_TRIANGLE_STRIP ∧ q.first = 0 ∧ q.count = 4 ∧ q.texture = 0 ∧
          quad_origin q = ⟨st.x, y⟩ ∧ quad_size q = ⟨0, 0⟩)) ∧
    (∀ (gl : GLState) (pre post : List Char) (x : ℚ),
      self.ch c = none → c ∉ pre → c ≠ ' ' →
      ∃ q, (self.draw gl (pre ++ c :: post) x y scale).2.calls[
          gl.calls.length + pre.countP (fun a => a ≠ ' ')]? = some q ∧
        q.texture = 0 ∧ (quad_origin q).y = y ∧ quad_size q = ⟨0, 0⟩) := by
  constructor
  · intro st h
    have hi : st.ch.index c = (character_details.zero,
        fun k => if k = c then some character_details.zero else st.ch k) := by
      simp [glyph_table.index, h]
    refine ⟨by rw [hi], by rw [hi]; simp, ?_, ?_, ?_, draw_char_calls_length self y scale st c,
      ?_, ?_⟩
    · intro k hk
      rw [hi]
      simp [hk]
    · rw [draw_char_x, pen_advance, hi]
      simp [character_details.zero]
    · by_cases hc : c = ' '
      · subst hc
        simp [draw_char, hi]
      · simp [draw_char, hc, hi]
    · intro hc
      subst hc
      simp [draw_char]
    · intro hc hp
      refine ⟨⟨GL_TRIANGLE_STRIP, 0, 4, self.program, st.gl.vertex_array_binding, 0,
        glyph_transform character_details.zero st.x y scale⟩, ?_, rfl, rfl, rfl, rfl, ?_, ?_⟩
      · simp [draw_char, hc, hi, glDrawArrays, glBindTexture2D, Program.setUniform_mat4,
          Program.uniformMatrix4fv, glUseProgram, glUniformMatrix4fv, hp, glyph_transform,
          character_details.zero]
      · simp [quad_origin, quad_vertex, glyph_transform, draw_char.scale_mat, mat4.mul,
          mat4.mulVec, translate, RpmGauge.scale, mat4.identity, vec4.add, vec4.smul,
          character_details.zero]
      · simp [quad_size, quad_vertex, glyph_transform, draw_char.scale_mat, mat4.mul,
          mat4.mulVec, translate, RpmGauge.scale, mat4.identity, vec4.add, vec4.smul,
          character_details.zero]
  · intro gl pre post x hn hpre hc
    obtain ⟨px, hq⟩ := draw_missing_quad_at self gl pre c post x y scale hn hpre hc
    refine ⟨_, hq, rfl, ?_, ?_⟩
    · rw [(zero_quad _ _ _ _ _ _ px y scale).1]
    · exact (zero_quad _ _ _ _ _ _ px y scale).2

lemma hue_normalised_of_nonneg (a : ℚ) (ha : 0 ≤ a) :
    fmodf a 360 / 360 = hue_normalised a := by
  have hq : 0 ≤ a / 360 := div_nonneg ha (by norm_num)
  unfold fmodf truncQ hue_normalised Int.fract
  rw [if_pos hq]
  ring

lemma hue_normalised_range (a : ℚ) : 0 ≤ hue_normalised a ∧ hue_normalised a < 1 :=
  ⟨Int.fract_nonneg _, Int.fract_lt_one _⟩

lemma hue_normalised_300 : hue_normalised 300 = 5 / 6 := by
  rw [← hue_normalised_of_nonneg 300 (by norm_num),
    fmodf_small 300 360 (by norm_num) (by norm_num) (by norm_num)]
  norm_num

/-- C17 (fails on the code): at `a = 300` (`h = 5/6`) the code's green channel
is `clamp(2 - 3) = 0`, whereas the formula with `|2 - |6h - 2||` gives
`clamp(|2 - 3|) = 1`. -/
theorem Hue_300_not_as_specified :
    Hue 300 = ⟨1, 0, 1⟩ ∧ Hue_as_specified 300 = ⟨1, 1, 1⟩ ∧ Hue 300 ≠ Hue_as_specified 300 := by
  have h1 : Hue 300 = ⟨1, 0, 1⟩ := by
    unfold Hue
    rw [fmodf_small 300 360 (by norm_num) (by norm_num) (by norm_num)]
    have e1 : |(map 300 0 360 0 1 : ℚ) * 6 - 3| = 2 := by
      rw [abs_of_nonneg] <;> norm_num [map]
    have e2 : |(map 300 0 360 0 1 : ℚ) * 6 - 2| = 3 := by
      rw [abs_of_nonneg] <;> norm_num [map]
    have e3 : |(map 300 0 360 0 1 : ℚ) * 6 - 4| = 1 := by
      rw [abs_of_nonneg] <;> norm_num [map]
    dsimp only
    rw [e1, e2, e3]
    norm_num [clamp, clamp01]
  have h2 : Hue_as_specified 300 = ⟨1, 1, 1⟩ := by
    unfold Hue_as_specified
    rw [hue_normalised_300]
    have e1 : |(6 : ℚ) * (5 / 6) - 3| = 2 := by
      rw [abs_of_nonneg] <;> norm_num
    have e2 : |(6 : ℚ) * (5 / 6) - 2| = 3 := by
      rw [abs_of_nonneg] <;> norm_num
    have e3 : |(6 : ℚ) * (5 / 6) - 4| = 1 := by
      rw [abs_of_nonneg] <;> norm_num
    have e4 : |(2 : ℚ) - 3| = 1 := by
      rw [abs_of_nonpos] <;> norm_num
    dsimp only
    rw [e1, e2, e3, e4]
    norm_num [clamp01]
  refine ⟨h1, h2, ?_⟩
  rw [h1, h2]
  simp

/-- C17 (amended): for every angle `a ≥ 0`, with `h = (a mod 360) / 360` the hue
normalised to `[0, 1)`, `Hue(a)` is
`(clamp(|6h - 3| - 1), clamp(2 - |6h - 2|), clamp(2 - |6h - 4|))`: the green
channel is the clamp of `2 - |6h - 2|`, without an outer absolute value. -/
theorem Hue_formula (a : ℚ) (ha : 0 ≤ a) :
    (0 ≤ hue_normalised a ∧ hue_normalised a < 1 ∧
      hue_normalised a = (a - 360 * (⌊a / 360⌋ : ℚ)) / 360) ∧
    Hue a =
      ⟨clamp01 (|6 * hue_normalised a - 3| - 1),
       clamp01 (2 - |6 * hue_normalised a - 2|),
       clamp01 (2 - |6 * hue_normalised a - 4|)⟩ := by
  refine ⟨⟨(hue_normalised_range a).1, (hue_normalised_range a).2, ?_⟩, ?_⟩
  · unfold hue_normalised Int.fract
    ring
  · have e : map (fmodf a 360) 0 360 0 1 * 6 = 6 * hue_normalised a := by
      rw [← hue_normalised_of_nonneg a ha]
      unfold map
      ring
    simp only [Hue, clamp, e]

theorem Hue_formula_witness :
    (0 : ℚ) ≤ 420 ∧
    (0 ≤ hue_normalised 420 ∧ hue_normalised 420 < 1 ∧
      hue_normalised 420 = (420 - 360 * (⌊(420 : ℚ) / 360⌋ : ℚ)) / 360) ∧
    Hue 420 =
      ⟨clamp01 (|6 * hue_normalised 420 - 3| - 1),
       clamp01 (2 - |6 * hue_normalised 420 - 2|),
       clamp01 (2 - |6 * hue_normalised 420 - 4|)⟩ :=
  ⟨by norm_num, Hue_formula 420 (by norm_num)⟩


lemma bandBody_eq (lm : Libm) (rpm : Int) :
    bandBody lm rpm =
      [⟨⟨lm.cos (radians (band_angle rpm)) * NOTCH_MAX_SMALL,
          lm.sin (radians (band_angle rpm)) * NOTCH_MAX_SMALL, 1⟩, bandColor rpm⟩,
       ⟨⟨lm.cos (radians (band_angle rpm)) * NOTCH_MIN,
          lm.sin (radians (band_angle rpm)) * NOTCH_MIN, 1⟩, bandColor rpm⟩,
       ⟨⟨lm.cos (radians (band_angle ((rpm + RPM_STEP : Int) : ℚ))) * NOTCH_MIN,
          lm.sin (radians (band_angle ((rpm + RPM_STEP : Int) : ℚ))) * NOTCH_MIN, 1⟩,
          bandColor rpm⟩,
       ⟨⟨lm.cos (radians (band_angle rpm)) * NOTCH_MAX_SMALL,
          lm.sin (radians (band_angle rpm)) * NOTCH_MAX_SMALL, 1⟩, bandColor rpm⟩,
       ⟨⟨lm.cos (radians (band_angle ((rpm + RPM_STEP : Int) : ℚ))) * NOTCH_MAX_SMALL,
          lm.sin (radians (band_angle ((rpm + RPM_STEP : Int) : ℚ))) * NOTCH_MAX_SMALL, 1⟩,
          bandColor rpm⟩,
       ⟨⟨lm.cos (radians (band_angle ((rpm + RPM_STEP : Int) : ℚ))) * NOTCH_MIN,
          lm.sin (radians (band_angle ((rpm + RPM_STEP : Int) : ℚ))) * NOTCH_MIN, 1⟩,
          bandColor rpm⟩] := rfl

lemma tickBody_eq (lm : Libm) (rpm : Int) :
    tickBody lm rpm =
      (tickNotch rpm).map (fun data =>
        { data with pos :=
            ((rotate lm mat4.identity (radians (tick_angle rpm)) ⟨0, 0, 1⟩).mulVec
              (vec4.ofVec3 data.pos 0)).toVec3 }) := rfl

/-- C18: the angle that `genCompleteBase` computes for a value, for band edges
and for ticks, is `map(v, 0, 3500, 225, -45)` degrees: 225 at `RPM_MIN`, -45 at
`RPM_MAX` (a sweep of 270), 90 at the midpoint 1750, and strictly decreasing in
the value; the band and tick vertices are built from this angle. -/
theorem dial_angle_sweep (lm : Libm) (rpm : Int) (v w : ℚ) (hvw : v < w) :
    (band_angle v = map v 0 3500 225 (-45) ∧ tick_angle v = map v 0 3500 225 (-45)) ∧
    (band_angle (RPM_MIN : ℚ) = 225 ∧ band_angle (RPM_MAX : ℚ) = -45 ∧
      (225 : ℚ) - (-45) = 270 ∧ band_angle 1750 = 90) ∧
    band_angle w < band_angle v ∧
    ((bandBody lm rpm)[0]?.map (fun d => d.pos) =
        some ⟨lm.cos (radians (band_angle rpm)) * NOTCH_MAX_SMALL,
          lm.sin (radians (band_angle rpm)) * NOTCH_MAX_SMALL, 1⟩ ∧
      (bandBody lm rpm)[2]?.map (fun d => d.pos) =
        some ⟨lm.cos (radians (band_angle ((rpm + RPM_STEP : Int) : ℚ))) * NOTCH_MIN,
          lm.sin (radians (band_angle ((rpm + RPM_STEP : Int) : ℚ))) * NOTCH_MIN, 1⟩ ∧
      tickBody lm rpm =
        (tickNotch rpm).map (fun data =>
          { data with pos :=
              ((rotate lm mat4.identity (radians (tick_angle rpm)) ⟨0, 0, 1⟩).mulVec
                (vec4.ofVec3 data.pos 0)).toVec3 })) := by
  have hb : ∀ x : ℚ, band_angle x = 225 - x * 270 / 3500 := by
    intro x
    norm_num [band_angle, map, RPM_MAX, angle_min, angle_max, NEEDLE_RANGE]
    ring
  have ht : ∀ x : ℚ, tick_angle x = 225 - x * 270 / 3500 := by
    intro x
    norm_num [tick_angle, map, RPM_MIN, RPM_MAX, angle_min, angle_max, NEEDLE_RANGE]
    ring
  have hm : ∀ x : ℚ, map x 0 3500 225 (-45) = 225 - x * 270 / 3500 := by
    intro x
    norm_num [map]
    ring
  refine ⟨⟨by rw [hb, hm], by rw [ht, hm]⟩, ⟨?_, ?_, by norm_num, ?_⟩, ?_,
    ⟨by rw [bandBody_eq]; rfl, by rw [bandBody_eq]; rfl, tickBody_eq lm rpm⟩⟩
  · rw [hb]; norm_num [RPM_MIN]
  · rw [hb]; norm_num [RPM_MAX]
  · rw [hb]; norm_num
  · rw [hb, hb]
    linarith

lemma notch_large_ne_small : notch_large ≠ notch_small := by
  intro h
  have h2 := congrArg (fun l => l.map (fun d => d.pos.x)) h
  norm_num [notch_large, notch_small, NOTCH_MAX, NOTCH_MAX_SMALL, NOTCH_MIN] at h2

lemma tickNotch_large_iff (rpm : Int) : tickNotch rpm = notch_large ↔ (500 : Int) ∣ rpm := by
  rw [Int.dvd_iff_tmod_eq_zero]
  have e : RPM_STEP * 5 = 500 := by decide
  unfold tickNotch
  rw [e]
  by_cases h : Int.tmod rpm 500 = 0
  · simp [h]
  · simp [h, notch_large_ne_small.symm]

lemma tickNotch_small_iff (rpm : Int) : tickNotch rpm = notch_small ↔ ¬ (500 : Int) ∣ rpm := by
  rw [Int.dvd_iff_tmod_eq_zero]
  have e : RPM_STEP * 5 = 500 := by decide
  unfold tickNotch
  rw [e]
  by_cases h : Int.tmod rpm 500 = 0
  · simp [h, notch_large_ne_small]
  · simp [h]

/-- C19: the tick at `rpm` is stamped with `notch_large` (radial span 0.70 to
0.90) exactly when `rpm` is a multiple of `5 * RPM_STEP = 500` and with
`notch_small` (0.70 to 0.80) exactly otherwise; of the 36 ticks the 8 at every
fifth step, from 0 to 3500, are large and the other 28 are small. -/
theorem tick_notch_rule (lm : Libm) (rpm : Int) :
    tickBody lm rpm =
      (tickNotch rpm).map (fun data =>
        { data with pos :=
            ((rotate lm mat4.identity (radians (tick_angle rpm)) ⟨0, 0, 1⟩).mulVec
              (vec4.ofVec3 data.pos 0)).toVec3 }) ∧
    ((tickNotch rpm = notch_large ↔ (5 * RPM_STEP) ∣ rpm) ∧
      (tickNotch rpm = notch_small ↔ ¬ (5 * RPM_STEP) ∣ rpm) ∧ 5 * RPM_STEP = 500) ∧
    (notch_large.map (fun d => d.pos.x) = [0.70, 0.70, 0.90, 0.70, 0.90, 0.90] ∧
      notch_small.map (fun d => d.pos.x) = [0.70, 0.70, 0.80, 0.70, 0.80, 0.80]) ∧
    (((List.range 36).filter (fun i => tickNotch (100 * (i : Int)) = notch_large)).length = 8 ∧
      ((List.range 36).filter (fun i => tickNotch (100 * (i : Int)) = notch_small)).length = 28 ∧
      (List.range 36).filter (fun i => tickNotch (100 * (i : Int)) = notch_large) =
        [0, 5, 10, 15, 20, 25, 30, 35]) := by
  have e : 5 * RPM_STEP = 500 := by decide
  have hl : (List.range 36).filter (fun i => tickNotch (100 * (i : Int)) = notch_large) =
      (List.range 36).filter (fun i => Int.tmod (100 * (i : Int)) 500 = 0) := by
    apply List.filter_congr
    intro i _
    rw [decide_eq_decide, tickNotch_large_iff, Int.dvd_iff_tmod_eq_zero]
  have hs : (List.range 36).filter (fun i => tickNotch (100 * (i : Int)) = notch_small) =
      (List.range 36).filter (fun i => ¬ Int.tmod (100 * (i : Int)) 500 = 0) := by
    apply List.filter_congr
    intro i _
    rw [decide_eq_decide, tickNotch_small_iff, Int.dvd_iff_tmod_eq_zero]
  refine ⟨tickBody_eq lm rpm, ⟨?_, ?_, e⟩, ⟨?_, ?_⟩, ?_, ?_, ?_⟩
  · rw [e]; exact tickNotch_large_iff rpm
  · rw [e]; exact tickNotch_small_iff rpm
  · norm_num [notch_large, NOTCH_MIN, NOTCH_MAX]
  · norm_num [notch_small, NOTCH_MIN, NOTCH_MAX_SMALL]
  · rw [hl]; decide
  · rw [hs]; decide
  · rw [hl]; decide


lemma genCompleteBase_unrolled (lm : Libm) :
    genCompleteBase lm =
      ((List.range 64).flatMap (fun i => circleBody lm (i : Int)) ++
        (List.range 35).flatMap (fun i => bandBody lm (100 * (i : Int))) ++
        (List.range 36).flatMap (fun i => tickBody lm (100 * (i : Int)))).map scaleVertex := by
  have hc := circleLoop_eq lm 64 0 [] (by norm_num)
  have hb := bandLoop_eq lm 35 0 (circleLoop lm 0 []) (by norm_num)
  have ht := tickLoop_eq lm 36 0 (bandLoop lm RPM_MIN (circleLoop lm 0 [])) (by norm_num)
  simp only [Nat.cast_zero, mul_zero, zero_add, List.nil_append] at hc hb ht
  unfold genCompleteBase
  simp only [RPM_MIN] at ht ⊢
  rw [ht, hb, hc]

lemma rotate_z (lm : Libm) (hinv : lm.inversesqrt 1 = 1) (a : ℚ) (p : vec3) :
    ((rotate lm mat4.identity a ⟨0, 0, 1⟩).mulVec (vec4.ofVec3 p 0)).toVec3 =
      ⟨lm.cos a * p.x - lm.sin a * p.y, lm.sin a * p.x + lm.cos a * p.y, p.z⟩ := by
  simp only [rotate, normalize, mat4.identity, mat4.mulVec, vec4.ofVec3, vec4.toVec3, vec4.add,
    vec4.smul]
  norm_num [hinv]
  refine ⟨by ring, by ring⟩

lemma circleBody_norm (lm : Libm) (htrig : ∀ a, lm.cos a ^ 2 + lm.sin a ^ 2 = 1) (i : Int) :
    ∀ u ∈ circleBody lm i, u.pos.x ^ 2 + u.pos.y ^ 2 ≤ 1 := by
  intro u hu
  simp only [circleBody, List.mem_cons, List.mem_singleton, List.not_mem_nil, or_false] at hu
  rcases hu with h | h | h <;> subst h
  · norm_num
  · exact le_of_eq (htrig _)
  · exact le_of_eq (htrig _)

lemma bandBody_norm (lm : Libm) (htrig : ∀ a, lm.cos a ^ 2 + lm.sin a ^ 2 = 1) (rpm : Int) :
    ∀ u ∈ bandBody lm rpm, u.pos.x ^ 2 + u.pos.y ^ 2 ≤ 1 := by
  have key : ∀ (a r : ℚ), r ^ 2 ≤ 1 → (lm.cos a * r) ^ 2 + (lm.sin a * r) ^ 2 ≤ 1 := by
    intro a r hr
    have : (lm.cos a * r) ^ 2 + (lm.sin a * r) ^ 2 = (lm.cos a ^ 2 + lm.sin a ^ 2) * r ^ 2 := by
      ring
    rw [this, htrig, one_mul]
    exact hr
  have h1 : NOTCH_MAX_SMALL ^ 2 ≤ 1 := by norm_num [NOTCH_MAX_SMALL]
  have h2 : NOTCH_MIN ^ 2 ≤ 1 := by norm_num [NOTCH_MIN]
  intro u hu
  simp only [bandBody, List.mem_cons, List.mem_singleton, List.not_mem_nil, or_false] at hu
  rcases hu with h | h | h | h | h | h <;> subst h
  · exact key _ _ h1
  · exact key _ _ h2
  · exact key _ _ h2
  · exact key _ _ h1
  · exact key _ _ h1
  · exact key _ _ h2

lemma notch_norm : ∀ d ∈ notch_large ++ notch_small, d.pos.x ^ 2 + d.pos.y ^ 2 ≤ 1 ∧ d.pos.z = 3 := by
  intro d hd
  simp only [notch_large, notch_small, List.cons_append, List.nil_append, List.mem_cons,
    List.mem_singleton, List.not_mem_nil, or_false] at hd
  rcases hd with h | h | h | h | h | h | h | h | h | h | h | h <;> subst h <;>
    norm_num [NOTCH_MIN, NOTCH_MAX, NOTCH_MAX_SMALL, NOTCH_WIDTH]

lemma tickNotch_mem (rpm : Int) : ∀ d ∈ tickNotch rpm, d ∈ notch_large ++ notch_small := by
  intro d hd
  unfold tickNotch at hd
  split_ifs at hd
  · exact List.mem_append_left _ hd
  · exact List.mem_append_right _ hd

lemma tickBody_norm (lm : Libm) (htrig : ∀ a, lm.cos a ^ 2 + lm.sin a ^ 2 = 1)
    (hinv : lm.inversesqrt 1 = 1) (rpm : Int) :
    ∀ u ∈ tickBody lm rpm, u.pos.x ^ 2 + u.pos.y ^ 2 ≤ 1 := by
  intro u hu
  rw [tickBody_eq, List.mem_map] at hu
  obtain ⟨d, hd, rfl⟩ := hu
  have hn := (notch_norm d (tickNotch_mem rpm d hd)).1
  simp only [rotate_z lm hinv]
  have e : (lm.cos (radians (tick_angle rpm)) * d.pos.x -
        lm.sin (radians (tick_angle rpm)) * d.pos.y) ^ 2 +
      (lm.sin (radians (tick_angle rpm)) * d.pos.x +
        lm.cos (radians (tick_angle rpm)) * d.pos.y) ^ 2 =
      (lm.cos (radians (tick_angle rpm)) ^ 2 + lm.sin (radians (tick_angle rpm)) ^ 2) *
        (d.pos.x ^ 2 + d.pos.y ^ 2) := by ring
  rw [e, htrig, one_mul]
  exact hn

lemma tickBody_z (lm : Libm) (hinv : lm.inversesqrt 1 = 1) (rpm : Int) :
    ∀ u ∈ tickBody lm rpm, u.pos.z = 3 := by
  intro u hu
  rw [tickBody_eq, List.mem_map] at hu
  obtain ⟨d, hd, rfl⟩ := hu
  simp only [rotate_z lm hinv]
  exact (notch_norm d (tickNotch_mem rpm d hd)).2

/-- C15: with exact trigonometry (`cos^2 + sin^2 = 1`, and `inversesqrt 1 = 1`
for the rotation axis), every vertex of the mesh returned by `genCompleteBase`
satisfies `x^2 + y^2 <= DIAMETER^2`. -/
theorem genCompleteBase_within_disc (lm : Libm)
    (htrig : ∀ a, lm.cos a ^ 2 + lm.sin a ^ 2 = 1) (hinv : lm.inversesqrt 1 = 1)
    (v : datapack) (hv : v ∈ genCompleteBase lm) :
    v.pos.x ^ 2 + v.pos.y ^ 2 ≤ DIAMETER ^ 2 := by
  rw [genCompleteBase_unrolled, List.mem_map] at hv
  obtain ⟨u, hu, rfl⟩ := hv
  have hu1 : u.pos.x ^ 2 + u.pos.y ^ 2 ≤ 1 := by
    rw [List.mem_append, List.mem_append] at hu
    rcases hu with (h | h) | h
    · obtain ⟨i, _, hi⟩ := List.mem_flatMap.mp h
      exact circleBody_norm lm htrig _ u hi
    · obtain ⟨i, _, hi⟩ := List.mem_flatMap.mp h
      exact bandBody_norm lm htrig _ u hi
    · obtain ⟨i, _, hi⟩ := List.mem_flatMap.mp h
      exact tickBody_norm lm htrig hinv _ u hi
  have e : (scaleVertex u).pos.x ^ 2 + (scaleVertex u).pos.y ^ 2 =
      DIAMETER ^ 2 * (u.pos.x ^ 2 + u.pos.y ^ 2) := by
    simp only [scaleVertex]
    ring
  rw [e]
  have hD : 0 ≤ DIAMETER ^ 2 := sq_nonneg _
  nlinarith

lemma rationalTrig_pythagoras : ∀ a, rationalTrig.cos a ^ 2 + rationalTrig.sin a ^ 2 = 1 := by
  intro a
  have h : 1 + a * a ≠ 0 := by nlinarith [mul_self_nonneg a]
  simp only [rationalTrig]
  field_simp
  ring

theorem genCompleteBase_within_disc_witness :
    ((∀ a, rationalTrig.cos a ^ 2 + rationalTrig.sin a ^ 2 = 1) ∧
      rationalTrig.inversesqrt 1 = 1 ∧
      (⟨⟨0 * DIAMETER, 0 * DIAMETER, 0 * 1⟩, ⟨0.7, 0.7, 0.7⟩⟩ : datapack) ∈
        genCompleteBase rationalTrig) ∧
    (⟨⟨0 * DIAMETER, 0 * DIAMETER, 0 * 1⟩, ⟨0.7, 0.7, 0.7⟩⟩ : datapack).pos.x ^ 2 +
      (⟨⟨0 * DIAMETER, 0 * DIAMETER, 0 * 1⟩, ⟨0.7, 0.7, 0.7⟩⟩ : datapack).pos.y ^ 2 ≤
        DIAMETER ^ 2 :=
  have hmem : (⟨⟨0 * DIAMETER, 0 * DIAMETER, 0 * 1⟩, ⟨0.7, 0.7, 0.7⟩⟩ : datapack) ∈
      genCompleteBase rationalTrig := by
    rw [genCompleteBase_unrolled, List.mem_map]
    refine ⟨⟨⟨0, 0, 0⟩, ⟨0.7, 0.7, 0.7⟩⟩, ?_, rfl⟩
    rw [List.mem_append, List.mem_append]
    left; left
    rw [List.mem_flatMap]
    exact ⟨0, by simp, by simp [circleBody]⟩
  ⟨⟨rationalTrig_pythagoras, rfl, hmem⟩,
    genCompleteBase_within_disc rationalTrig rationalTrig_pythagoras rfl _ hmem⟩


lemma map_flatMap_replicate {α β γ : Type} (l : List α) (f : α → List β) (g : β → γ) (n : Nat)
    (c : γ) (h : ∀ a ∈ l, (f a).map g = List.replicate n c) :
    (l.flatMap f).map g = List.replicate (l.length * n) c := by
  induction l with
  | nil => simp
  | cons a l ih =>
    rw [List.flatMap_cons, List.map_append, h a (List.mem_cons_self a l),
      ih (fun b hb => h b (List.mem_cons_of_mem a hb)), List.length_cons, Nat.add_mul, one_mul,
      Nat.add_comm, List.replicate_add]

lemma map_eq_replicate_of_forall {β γ : Type} (l : List β) (g : β → γ) (c : γ)
    (h : ∀ u ∈ l, g u = c) : l.map g = List.replicate l.length c := by
  induction l with
  | nil => simp
  | cons a l ih =>
    rw [List.map_cons, h a (List.mem_cons_self a l),
      ih (fun b hb => h b (List.mem_cons_of_mem a hb)), List.length_cons, List.replicate_succ]

/-- C16 (amended): in exact arithmetic the mesh of `genCompleteBase` is ordered
back to front: the layer keys (third position component) are 0 for the 192
disc vertices, then 1 for the 210 band vertices, then 3 for the 216 tick
vertices, hence non-decreasing along the list. -/
theorem genCompleteBase_back_to_front (lm : Libm) (hinv : lm.inversesqrt 1 = 1) :
    (genCompleteBase lm).map (fun v => v.pos.z) =
      List.replicate 192 0 ++ List.replicate 210 1 ++ List.replicate 216 3 ∧
    List.Sorted (fun a b : ℚ => a ≤ b) ((genCompleteBase lm).map (fun v => v.pos.z)) := by
  have hz : (genCompleteBase lm).map (fun v => v.pos.z) =
      List.replicate 192 0 ++ List.replicate 210 1 ++ List.replicate 216 3 := by
    rw [genCompleteBase_unrolled, List.map_map, List.map_append, List.map_append]
    have h1 : ((List.range 64).flatMap (fun i => circleBody lm (i : Int))).map
        ((fun v => v.pos.z) ∘ scaleVertex) = List.replicate (64 * 3) 0 := by
      have := map_flatMap_replicate (List.range 64) (fun i => circleBody lm (i : Int))
        ((fun v => v.pos.z) ∘ scaleVertex) 3 0 (fun i _ => by simp [circleBody, scaleVertex])
      simpa using this
    have h2 : ((List.range 35).flatMap (fun i => bandBody lm (100 * (i : Int)))).map
        ((fun v => v.pos.z) ∘ scaleVertex) = List.replicate (35 * 6) 1 := by
      have := map_flatMap_replicate (List.range 35) (fun i => bandBody lm (100 * (i : Int)))
        ((fun v => v.pos.z) ∘ scaleVertex) 6 1 (fun i _ => by simp [bandBody, scaleVertex])
      simpa using this
    have h3 : ((List.range 36).flatMap (fun i => tickBody lm (100 * (i : Int)))).map
        ((fun v => v.pos.z) ∘ scaleVertex) = List.replicate (36 * 6) 3 := by
      have := map_flatMap_replicate (List.range 36) (fun i => tickBody lm (100 * (i : Int)))
        ((fun v => v.pos.z) ∘ scaleVertex) 6 3 (fun i _ => by
          have hlen := tickBody_length lm (100 * (i : Int))
          have := map_eq_replicate_of_forall (tickBody lm (100 * (i : Int)))
            ((fun v => v.pos.z) ∘ scaleVertex) 3 (fun u hu => by
              have := tickBody_z lm hinv _ u hu
              simp [scaleVertex, this])
          rw [this, hlen])
      simpa using this
    rw [h1, h2, h3]
  refine ⟨hz, ?_⟩
  rw [hz]
  simp only [List.Sorted, List.pairwise_append, List.pairwise_replicate, List.mem_append,
    List.mem_replicate]
  norm_num

theorem genCompleteBase_back_to_front_witness :
    rationalTrig.inversesqrt 1 = 1 ∧
    (genCompleteBase rationalTrig).map (fun v => v.pos.z) =
      List.replicate 192 0 ++ List.replicate 210 1 ++ List.replicate 216 3 ∧
    List.Sorted (fun a b : ℚ => a ≤ b) ((genCompleteBase rationalTrig).map (fun v => v.pos.z)) :=
  ⟨rfl, genCompleteBase_back_to_front rationalTrig rfl⟩


lemma textures_getElem (texture_names : Nat → Nat) (c : Nat) (h : c < 127) :
    ((List.range 127).map texture_names)[c]? = some (texture_names c) := by
  rw [List.getElem?_map, List.getElem?_range h]
  rfl

lemma textures_getElem_127 (texture_names : Nat → Nat) :
    ((List.range 127).map texture_names)[127]? = none := by
  rw [List.getElem?_eq_none]
  simp

/-- When the glyph of code 127 loads, the loop ends in the out-of-bounds read. -/
lemma load_loop_out_of_bounds (ft : FreeType) (texture_names : Nat → Nat) (last : Nat)
    (g : FT_GlyphSlot) (h127 : ft.load_char 127 = some g) :
    ∀ (n c : Nat) (ch : glyph_table) (gl : GLState), c + n = 127 →
      load_loop ft ((List.range 127).map texture_names) last c ch gl =
        load_outcome.out_of_bounds 127 := by
  intro n
  induction n with
  | zero =>
    intro c ch gl h
    have hc : c = 127 := by omega
    subst hc
    rw [load_loop]
    simp only [h127, textures_getElem_127]
    rfl
  | succ n ih =>
    intro c ch gl h
    rw [load_loop]
    rw [if_pos (by omega)]
    cases hl : ft.load_char c with
    | none => exact ih (c + 1) ch gl (by omega)
    | some g' =>
      simp only [textures_getElem texture_names c (by omega)]
      exact ih (c + 1) _ _ (by omega)

/-- C20 (fails on the code): `glGenTextures(127, textures)` fills an array of
127 handles, and whenever the glyph of code 127 loads, `load_characters` reads
`textures[127]`, one past the end of the array. -/
theorem load_characters_texture_index (ft : FreeType) (texture_names : Nat → Nat)
    (ch : glyph_table) (gl : GLState) (g : FT_GlyphSlot)
    (hinit : ft.init_ok = true) (hface : ft.new_face_ok = true)
    (h127 : ft.load_char 127 = some g) :
    ((List.range 127).map texture_names).length = 127 ∧
    load_characters ft texture_names ch gl = load_outcome.out_of_bounds 127 := by
  refine ⟨by simp, ?_⟩
  unfold load_characters
  simp only [hinit, hface]
  exact load_loop_out_of_bounds ft texture_names _ g h127 127 0 ch gl (by norm_num)

theorem load_characters_texture_index_witness :
    (sampleFreeType.init_ok = true ∧ sampleFreeType.new_face_ok = true ∧
      sampleFreeType.load_char 127 = some ⟨10, 12, 1, 11, 704⟩) ∧
    ((List.range 127).map (fun i => i + 1)).length = 127 ∧
    load_characters sampleFreeType (fun i => i + 1) emptyGlyphs sampleGL =
      load_outcome.out_of_bounds 127 :=
  ⟨⟨rfl, rfl, rfl⟩,
    load_characters_texture_index sampleFreeType (fun i => i + 1) emptyGlyphs sampleGL
      ⟨10, 12, 1, 11, 704⟩ rfl rfl rfl⟩


lemma toNat_ofNat_small (c : Nat) (h : c < 128) : (Char.ofNat c).toNat = c := by
  have hv : c.isValidChar := Or.inl (by omega)
  simp only [Char.ofNat, dif_pos hv, Char.ofNatAux, Char.toNat]
  simp [UInt32.toNat]

lemma load_loop_returns (ft : FreeType) (texture_names : Nat → Nat) (last : Nat)
    (h127 : ft.load_char 127 = none) :
    ∀ (n c : Nat) (ch : glyph_table) (gl : GLState), c + n = 128 →
      load_loop ft ((List.range 127).map texture_names) last c ch gl =
        load_outcome.returned (loaded_table ft texture_names c ch)
          (glBindTexture2D gl last) := by
  intro n
  induction n with
  | zero =>
    intro c ch gl h
    have hc : c = 128 := by omega
    subst hc
    rw [load_loop]
    rw [if_neg (by omega)]
    congr 1
    funext k
    unfold loaded_table
    cases hk : ch k with
    | some d => rfl
    | none =>
      simp only
      rw [if_neg (by omega)]
  | succ n ih =>
    intro c ch gl h
    rw [load_loop]
    rw [if_pos (by omega)]
    cases hl : ft.load_char c with
    | none =>
      have h1 := ih (c + 1) ch gl (by omega)
      simp only
      rw [h1]
      congr 1
      funext k
      unfold loaded_table
      cases hk : ch k with
      | some d => rfl
      | none =>
        simp only
        by_cases hkc : k.toNat = c
        · rw [hkc, hl]
          simp
        · have e : (c + 1 ≤ k.toNat ∧ k.toNat < 128) ↔ (c ≤ k.toNat ∧ k.toNat < 128) := by
            omega
          simp only [e]
    | some g =>
      have hc127 : c ≠ 127 := by
        intro hc
        rw [hc, h127] at hl
        exact Option.noConfusion hl
      simp only [textures_getElem texture_names c (by omega)]
      have h1 := ih (c + 1)
        (ch.insert (Char.ofNat c) (make_character (texture_names c) g))
        (glBindTexture2D gl (texture_names c)) (by omega)
      rw [h1]
      have hgl : glBindTexture2D (glBindTexture2D gl (texture_names c)) last =
          glBindTexture2D gl last := rfl
      rw [hgl]
      congr 1
      funext k
      have hto : (Char.ofNat c).toNat = c := toNat_ofNat_small c (by omega)
      unfold loaded_table glyph_table.insert
      by_cases hkc : k = Char.ofNat c
      · subst hkc
        cases hk : ch (Char.ofNat c) with
        | some d => simp [hk]
        | none =>
          simp only [hk, if_true, hto, hl, Option.map_some']
          rw [if_pos ⟨le_refl _, by omega⟩]
      · have hne : k.toNat ≠ c := by
          intro hk
          apply hkc
          rw [← hk, Char.ofNat_toNat]
        have e : (c + 1 ≤ k.toNat ∧ k.toNat < 128) ↔ (c ≤ k.toNat ∧ k.toNat < 128) := by
          omega
        cases hc0 : ch (Char.ofNat c) with
        | some d => simp only [e]
        | none => simp only [hkc, if_false, e]


/-- C14 (fails on the code): a partial outcome exists. With a FreeType whose
codes 65 (`A`) and 127 fail to load, `load_characters` neither exits nor fills
the table: it returns with no entry for `A`, while `B` has its metrics. -/
theorem load_characters_partial_outcome :
    load_characters partialFreeType (fun i => i + 1) emptyGlyphs sampleGL =
      load_outcome.returned (loaded_table partialFreeType (fun i => i + 1) 0 emptyGlyphs)
        (glBindTexture2D sampleGL sampleGL.texture_binding_2D) ∧
    loaded_table partialFreeType (fun i => i + 1) 0 emptyGlyphs 'A' = none ∧
    loaded_table partialFreeType (fun i => i + 1) 0 emptyGlyphs 'B' =
      some ⟨67, ⟨10, 12⟩, ⟨1, 11⟩, 704⟩ := by
  refine ⟨?_, ?_, ?_⟩
  · unfold load_characters
    have h1 : partialFreeType.init_ok = true := rfl
    have h2 : partialFreeType.new_face_ok = true := rfl
    simp only [h1, h2]
    exact load_loop_returns partialFreeType (fun i => i + 1) _ rfl 128 0 emptyGlyphs sampleGL
      (by norm_num)
  · decide
  · decide

/-- C14 (amended): `load_characters` ends the process with status 1 when
`FT_Init_FreeType` or `FT_New_Face` fails, and in no other case. A code whose
glyph fails to load is skipped, so the function can return with a partial
table: whenever it returns, the table keeps the entries already present and
holds metrics for exactly those further codes in `0..127` whose glyph loaded,
and the texture binding is the one found at entry. It does return whenever
both initialisations succeed and the glyph of code 127 fails to load (the run
in which that glyph loads reads `textures[127]` and is left out). -/
theorem load_characters_outcomes (ft : FreeType) (texture_names : Nat → Nat)
    (ch : glyph_table) (gl : GLState) :
    (ft.init_ok = false → load_characters ft texture_names ch gl = load_outcome.exited 1) ∧
    (ft.new_face_ok = false →
      load_characters ft texture_names ch gl = load_outcome.exited 1) ∧
    (∀ status, load_characters ft texture_names ch gl = load_outcome.exited status →
      (ft.init_ok = false ∨ ft.new_face_ok = false) ∧ status = 1) ∧
    (∀ ch1 gl1, load_characters ft texture_names ch gl = load_outcome.returned ch1 gl1 →
      ch1 = loaded_table ft texture_names 0 ch ∧
      gl1 = glBindTexture2D gl gl.texture_binding_2D) ∧
    (ft.init_ok = true → ft.new_face_ok = true → ft.load_char 127 = none →
      load_characters ft texture_names ch gl =
        load_outcome.returned (loaded_table ft texture_names 0 ch)
          (glBindTexture2D gl gl.texture_binding_2D)) ∧
    (∀ k : Char, loaded_table ft texture_names 0 ch k =
      (match ch k with
        | some d => some d
        | none =>
          if k.toNat < 128 then
            (ft.load_char k.toNat).map (make_character (texture_names k.toNat))
          else none)) := by
  have hret : ft.init_ok = true → ft.new_face_ok = true → ft.load_char 127 = none →
      load_characters ft texture_names ch gl =
        load_outcome.returned (loaded_table ft texture_names 0 ch)
          (glBindTexture2D gl gl.texture_binding_2D) := by
    intro hinit hface h127
    unfold load_characters
    simp only [hinit, hface]
    exact load_loop_returns ft texture_names _ h127 128 0 ch gl (by norm_num)
  have hoob : ∀ g, ft.init_ok = true → ft.new_face_ok = true → ft.load_char 127 = some g →
      load_characters ft texture_names ch gl = load_outcome.out_of_bounds 127 := by
    intro g hinit hface h127
    unfold load_characters
    simp only [hinit, hface]
    exact load_loop_out_of_bounds ft texture_names _ g h127 127 0 ch gl (by norm_num)
  have hexit1 : ft.init_ok = false →
      load_characters ft texture_names ch gl = load_outcome.exited 1 := by
    intro h
    simp [load_characters, h]
  have hexit2 : ft.new_face_ok = false →
      load_characters ft texture_names ch gl = load_outcome.exited 1 := by
    intro h
    unfold load_characters
    by_cases hi : ft.init_ok = false
    · simp [hi]
    · simp [hi, h]
  refine ⟨hexit1, hexit2, ?_, ?_, hret, ?_⟩
  · intro status hs
    by_cases hi : ft.init_ok = false
    · rw [hexit1 hi] at hs
      exact ⟨Or.inl hi, (load_outcome.exited.inj hs).symm⟩
    · by_cases hf : ft.new_face_ok = false
      · rw [hexit2 hf] at hs
        exact ⟨Or.inr hf, (load_outcome.exited.inj hs).symm⟩
      · have hi1 : ft.init_ok = true := by simpa using hi
        have hf1 : ft.new_face_ok = true := by simpa using hf
        cases h127 : ft.load_char 127 with
        | none =>
          rw [hret hi1 hf1 h127] at hs
          exact load_outcome.noConfusion hs
        | some g =>
          rw [hoob g hi1 hf1 h127] at hs
          exact load_outcome.noConfusion hs
  · intro ch1 gl1 hr
    by_cases hi : ft.init_ok = false
    · rw [hexit1 hi] at hr
      exact load_outcome.noConfusion hr
    · by_cases hf : ft.new_face_ok = false
      · rw [hexit2 hf] at hr
        exact load_outcome.noConfusion hr
      · have hi1 : ft.init_ok = true := by simpa using hi
        have hf1 : ft.new_face_ok = true := by simpa using hf
        cases h127 : ft.load_char 127 with
        | none =>
          rw [hret hi1 hf1 h127] at hr
          obtain ⟨e1, e2⟩ := load_outcome.returned.inj hr
          exact ⟨e1.symm, e2.symm⟩
        | some g =>
          rw [hoob g hi1 hf1 h127] at hr
          exact load_outcome.noConfusion hr
  · intro k
    unfold loaded_table
    simp

theorem load_characters_outcomes_witness :
    (({ partialFreeType with init_ok := false } : FreeType).init_ok = false ∧
      ({ partialFreeType with new_face_ok := false } : FreeType).new_face_ok = false ∧
      partialFreeType.init_ok = true ∧ partialFreeType.new_face_ok = true ∧
      partialFreeType.load_char 127 = none) ∧
    load_characters { partialFreeType with init_ok := false } (fun i => i + 1) emptyGlyphs
      sampleGL = load_outcome.exited 1 ∧
    load_characters { partialFreeType with new_face_ok := false } (fun i => i + 1) emptyGlyphs
      sampleGL = load_outcome.exited 1 ∧
    load_characters partialFreeType (fun i => i + 1) emptyGlyphs sampleGL =
      load_outcome.returned (loaded_table partialFreeType (fun i => i + 1) 0 emptyGlyphs)
        (glBindTexture2D sampleGL sampleGL.texture_binding_2D) ∧
    loaded_table partialFreeType (fun i => i + 1) 0 emptyGlyphs 'C' =
      (match emptyGlyphs 'C' with
        | some d => some d
        | none =>
          if 'C'.toNat < 128 then
            (partialFreeType.load_char 'C'.toNat).map
              (make_character ((fun i => i + 1) 'C'.toNat))
          else none) :=
  ⟨⟨rfl, rfl, rfl, rfl, rfl⟩,
    (load_characters_outcomes { partialFreeType with init_ok := false } (fun i => i + 1)
      emptyGlyphs sampleGL).1 rfl,
    (load_characters_outcomes { partialFreeType with new_face_ok := false } (fun i => i + 1)
      emptyGlyphs sampleGL).2.1 rfl,
    (load_characters_outcomes partialFreeType (fun i => i + 1) emptyGlyphs
      sampleGL).2.2.2.2.1 rfl rfl rfl,
    (load_characters_outcomes partialFreeType (fun i => i + 1) emptyGlyphs
      sampleGL).2.2.2.2.2 'C'⟩

theorem missing_glyph_lookup_witness :
    (sampleProgramState.ch (Char.ofNat 200) = none ∧ Char.ofNat 200 ≠ ' ' ∧
      sampleProgramState.gl.current_program = sampleRenderer.program ∧
      sampleRenderer.ch (Char.ofNat 200) = none ∧ Char.ofNat 200 ∉ ['A']) ∧
    ((sampleProgramState.ch.index (Char.ofNat 200)).1 = character_details.zero ∧
      (sampleProgramState.ch.index (Char.ofNat 200)).2 (Char.ofNat 200) =
        some character_details.zero ∧
      (draw_char sampleRenderer 200 2 sampleProgramState (Char.ofNat 200)).x =
        sampleProgramState.x ∧
      (∃ q, (draw_char sampleRenderer 200 2 sampleProgramState (Char.ofNat 200)).gl.calls =
          sampleProgramState.gl.calls ++ [q] ∧
        q.mode = GL_TRIANGLE_STRIP ∧ q.first = 0 ∧ q.count = 4 ∧ q.texture = 0 ∧
        quad_origin q = ⟨sampleProgramState.x, 200⟩ ∧ quad_size q = ⟨0, 0⟩)) ∧
    (∃ q, (sampleRenderer.draw sampleGL (['A'] ++ Char.ofNat 200 :: ['A']) 100 200 2).2.calls[
          sampleGL.calls.length + (['A']).countP (fun a => a ≠ ' ')]? = some q ∧
        q.texture = 0 ∧ (quad_origin q).y = 200 ∧ quad_size q = ⟨0, 0⟩) :=
  have h := (missing_glyph_lookup sampleRenderer 200 2 (Char.ofNat 200)).1 sampleProgramState
    (by decide)
  ⟨⟨by decide, by decide, rfl, by decide, by decide⟩,
   ⟨h.1, h.2.1, h.2.2.2.1, h.2.2.2.2.2.2.2 (by decide) rfl⟩,
   (missing_glyph_lookup sampleRenderer 200 2 (Char.ofNat 200)).2 sampleGL ['A'] ['A'] 100
     (by decide) (by decide) (by decide)⟩

theorem dial_angle_sweep_witness :
    (1000 : ℚ) < 3000 ∧
    (band_angle 1000 = map 1000 0 3500 225 (-45) ∧
      tick_angle 1000 = map 1000 0 3500 225 (-45)) ∧
    (band_angle (RPM_MIN : ℚ) = 225 ∧ band_angle (RPM_MAX : ℚ) = -45 ∧
      (225 : ℚ) - (-45) = 270 ∧ band_angle 1750 = 90) ∧
    band_angle 3000 < band_angle 1000 ∧
    ((bandBody rationalTrig 500)[0]?.map (fun d => d.pos) =
        some ⟨rationalTrig.cos (radians (band_angle (500 : Int))) * NOTCH_MAX_SMALL,
          rationalTrig.sin (radians (band_angle (500 : Int))) * NOTCH_MAX_SMALL, 1⟩ ∧
      (bandBody rationalTrig 500)[2]?.map (fun d => d.pos) =
        some ⟨rationalTrig.cos (radians (band_angle ((500 + RPM_STEP : Int) : ℚ))) * NOTCH_MIN,
          rationalTrig.sin (radians (band_angle ((500 + RPM_STEP : Int) : ℚ))) * NOTCH_MIN,
          1⟩ ∧
      tickBody rationalTrig 500 =
        (tickNotch 500).map (fun data =>
          { data with pos :=
              ((rotate rationalTrig mat4.identity (radians (tick_angle (500 : Int)))
                ⟨0, 0, 1⟩).mulVec (vec4.ofVec3 data.pos 0)).toVec3 })) :=
  ⟨by norm_num, dial_angle_sweep rationalTrig 500 1000 3000 (by norm_num)⟩

/-! ## Theorems: map call sites, final scaling, band colours -/

lemma map_checked_eq (x x_low x_high t_low t_high : ℚ) (h : x_high - x_low ≠ 0) :
    map_checked x x_low x_high t_low t_high = some (map x x_low x_high t_low t_high) := by
  simp [map_checked, map, h]

lemma map_checked_none (x x_low x_high t_low t_high : ℚ) (h : x_high - x_low = 0) :
    map_checked x x_low x_high t_low t_high = none := by
  simp [map_checked, h]

lemma map_vec2_checked_eq (x x_low x_high t_low t_high : vec2)
    (hx : x_high.x - x_low.x ≠ 0) (hy : x_high.y - x_low.y ≠ 0) :
    map_vec2_checked x x_low x_high t_low t_high =
      some (map_vec2 x x_low x_high t_low t_high) := by
  simp [map_vec2_checked, map_vec2, hx, hy]

/-- C21: every call of `map` made by the program passes a non-degenerate source
range, so the division in `map` is never by zero: with the division checked
(a degenerate range, in any component, makes the call and its caller fail),
the mesh generator (`Hue`, band and tick angles) and one pass of the frame loop
(needle angle, label angles, the two conversions to pixels) do not fail, for
every math library, framebuffer size, text scale and slider value, and they
compute what the unchecked program computes; the checked `map` does fail on a
degenerate range. -/
theorem map_calls_nondegenerate (lm : Libm) (width height : Int)
    (notch_text_scale angle : ℚ) :
    genCompleteBase_checked lm = some (genCompleteBase lm) ∧
    frame_maps_checked lm width height notch_text_scale angle =
      some (frame_maps lm width height notch_text_scale angle) ∧
    (∀ H : ℚ, Hue_checked H = some (Hue H)) ∧
    (∀ x x_low x_high t_low t_high : ℚ,
      (x_high - x_low = 0 → map_checked x x_low x_high t_low t_high = none) ∧
      (x_high - x_low ≠ 0 →
        map_checked x x_low x_high t_low t_high = some (map x x_low x_high t_low t_high))) ∧
    (∀ x x_low x_high t_low t_high : vec2,
      (x_high.x - x_low.x = 0 ∨ x_high.y - x_low.y = 0 →
        map_vec2_checked x x_low x_high t_low t_high = none) ∧
      (x_high.x - x_low.x ≠ 0 → x_high.y - x_low.y ≠ 0 →
        map_vec2_checked x x_low x_high t_low t_high =
          some (map_vec2 x x_low x_high t_low t_high))) := by
  have hHue : ∀ H : ℚ, Hue_checked H = some (Hue H) := by
    intro H
    unfold Hue_checked Hue
    rw [map_checked_eq _ _ _ _ _ (by norm_num)]
  have hcolor : ∀ rpm : Int, bandColor_checked rpm = some (bandColor rpm) := by
    intro rpm
    unfold bandColor_checked bandColor
    split_ifs <;> exact hHue _
  have hband : ∀ rpm : Int, bandBody_checked lm rpm = some (bandBody lm rpm) := by
    intro rpm
    unfold bandBody_checked bandBody
    rw [map_checked_eq _ _ _ _ _ (by norm_num [RPM_MAX]),
      map_checked_eq _ _ _ _ _ (by norm_num [RPM_MAX]), hcolor]
  have htick : ∀ rpm : Int, tickBody_checked lm rpm = some (tickBody lm rpm) := by
    intro rpm
    unfold tickBody_checked tickBody
    rw [map_checked_eq _ _ _ _ _ (by norm_num [RPM_MAX, RPM_MIN])]
  have hbandLoop : ∀ (n k : Nat) (ret : List datapack), k + n = 35 →
      bandLoop_checked lm (100 * (k : Int)) ret =
        some (bandLoop lm (100 * (k : Int)) ret) := by
    intro n
    induction n with
    | zero =>
      intro k ret h
      rw [bandLoop_checked, bandLoop]
      simp only [RPM_MAX]
      rw [if_neg (by omega), if_neg (by omega)]
    | succ n ih =>
      intro k ret h
      rw [bandLoop_checked, bandLoop]
      simp only [RPM_MAX, RPM_STEP]
      rw [if_pos (by omega), if_pos (by omega), hband]
      have e : 100 * (k : Int) + 100 = 100 * ((k + 1 : Nat) : Int) := by push_cast; ring
      simp only [e]
      exact ih (k + 1) _ (by omega)
  have htickLoop : ∀ (n k : Nat) (ret : List datapack), k + n = 36 →
      tickLoop_checked lm (100 * (k : Int)) ret =
        some (tickLoop lm (100 * (k : Int)) ret) := by
    intro n
    induction n with
    | zero =>
      intro k ret h
      rw [tickLoop_checked, tickLoop]
      simp only [RPM_MAX]
      rw [if_neg (by omega), if_neg (by omega)]
    | succ n ih =>
      intro k ret h
      rw [tickLoop_checked, tickLoop]
      simp only [RPM_MAX, RPM_STEP]
      rw [if_pos (by omega), if_pos (by omega), htick]
      have e : 100 * (k : Int) + 100 = 100 * ((k + 1 : Nat) : Int) := by push_cast; ring
      simp only [e]
      exact ih (k + 1) _ (by omega)
  have hlabel : ∀ i : Int, label_body_checked lm width height notch_text_scale i =
      some (label_body lm width height notch_text_scale i) := by
    intro i
    unfold label_body_checked label_body label_angle
    rw [map_checked_eq _ _ _ _ _ (by norm_num [RPM_MAX, RPM_STEP])]
    simp only
    rw [map_vec2_checked_eq _ _ _ _ _ (by norm_num) (by norm_num)]
  have hlabelLoop : ∀ (n k : Nat) (drawn : List label_draw), k + n = 8 →
      labelLoop_checked lm width height notch_text_scale (k : Int) drawn =
        some (labelLoop lm width height notch_text_scale (k : Int) drawn) := by
    have e7 : Int.tdiv RPM_MAX (RPM_STEP * 5) = 7 := by decide
    intro n
    induction n with
    | zero =>
      intro k drawn h
      rw [labelLoop_checked, labelLoop]
      rw [e7, if_neg (by omega), if_neg (by omega)]
    | succ n ih =>
      intro k drawn h
      rw [labelLoop_checked, labelLoop]
      rw [e7, if_pos (by omega), if_pos (by omega), hlabel]
      have e : (k : Int) + 1 = ((k + 1 : Nat) : Int) := by push_cast; ring
      simp only [e]
      exact ih (k + 1) _ (by omega)
  have hgen : genCompleteBase_checked lm = some (genCompleteBase lm) := by
    have hb := hbandLoop 35 0 (circleLoop lm 0 []) (by norm_num)
    have ht := htickLoop 36 0 (bandLoop lm RPM_MIN (circleLoop lm 0 [])) (by norm_num)
    have e0 : (100 : Int) * ((0 : Nat) : Int) = RPM_MIN := by norm_num [RPM_MIN]
    rw [e0] at hb ht
    unfold genCompleteBase_checked
    rw [hb, Option.some_bind, ht, Option.some_bind]
    unfold genCompleteBase
    rfl
  have hframe : frame_maps_checked lm width height notch_text_scale angle =
      some (frame_maps lm width height notch_text_scale angle) := by
    have hl := hlabelLoop 8 0 [] (by norm_num)
    have e0 : ((0 : Nat) : Int) = 0 := rfl
    rw [e0] at hl
    have hw : working_angle_checked angle = some (working_angle angle) := by
      unfold working_angle_checked working_angle
      exact map_checked_eq _ _ _ _ _ (by norm_num [RPM_MAX, RPM_MIN])
    have hh : hours_pos_checked width height = some (hours_pos width height) := by
      unfold hours_pos_checked hours_pos
      exact map_vec2_checked_eq _ _ _ _ _ (by norm_num) (by norm_num)
    unfold frame_maps_checked frame_maps needle_model_checked needle_model
    rw [hw, hl, hh]
  refine ⟨hgen, hframe, hHue, ?_, ?_⟩
  · intro x x_low x_high t_low t_high
    exact ⟨map_checked_none _ _ _ _ _, map_checked_eq _ _ _ _ _⟩
  · intro x x_low x_high t_low t_high
    refine ⟨fun h => ?_, map_vec2_checked_eq _ _ _ _ _⟩
    simp [map_vec2_checked, h]

theorem map_calls_nondegenerate_witness :
    ((3500 : ℚ) - 0 = 3500 ∧ (3500 : ℚ) - 0 ≠ 0) ∧
    map_checked 1750 0 3500 (-135) 135 = some (map 1750 0 3500 (-135) 135) ∧
    map_checked 1750 3500 3500 (-135) 135 = none :=
  ⟨⟨by norm_num, by norm_num⟩,
   ((map_calls_nondegenerate rationalTrig 800 600 1 1750).2.2.2.1 1750 0 3500 (-135) 135).2
     (by norm_num),
   ((map_calls_nondegenerate rationalTrig 800 600 1 1750).2.2.2.1 1750 3500 3500 (-135) 135).1
     (by norm_num)⟩

/-- C22 (fails on the code): the final pass does not scale the third component.
The first vertex of the band segment at 0 has layer key 1 before and after the
pass, not `DIAMETER * 1`. -/
theorem scaleVertex_keeps_layer :
    ((bandBody rationalTrig 0).map scaleVertex)[0]?.map (fun d => d.pos.z) = some 1 ∧
    (bandBody rationalTrig 0)[0]?.map (fun d => d.pos.z) = some 1 ∧
    (1 : ℚ) ≠ DIAMETER * 1 := by
  refine ⟨?_, ?_, ?_⟩
  · simp [bandBody, scaleVertex]
  · simp [bandBody]
  · norm_num [DIAMETER]

/-- C22 (amended): the final pass of `genCompleteBase` multiplies the `x` and `y`
components of every vertex position by `DIAMETER` and leaves the third
component (multiplied by 1.0) and the colour as the earlier steps built them. -/
theorem genCompleteBase_final_scaling (lm : Libm) (vert : datapack) :
    genCompleteBase lm =
      (tickLoop lm RPM_MIN (bandLoop lm RPM_MIN (circleLoop lm 0 []))).map scaleVertex ∧
    (scaleVertex vert).pos = ⟨DIAMETER * vert.pos.x, DIAMETER * vert.pos.y, vert.pos.z⟩ ∧
    (scaleVertex vert).color = vert.color := by
  refine ⟨rfl, ?_, rfl⟩
  simp [scaleVertex, mul_comm]

/-- C24: no band segment straddles a colour threshold. For a segment start
`100 * k` with `k < 35` and every value `v` with `100 k <= v < 100 k + RPM_STEP`,
the colour rule read at `v` gives the colour of the segment, and the segment
lies within the range up to `RPM_MAX`. -/
theorem band_segments_single_colour (k : Nat) (v : ℚ) (hk : k < 35)
    (h1 : ((100 * (k : Int) : Int) : ℚ) ≤ v)
    (h2 : v < ((100 * (k : Int) + RPM_STEP : Int) : ℚ)) :
    band_rule v = bandColor (100 * (k : Int)) ∧
    band_rule ((100 * (k : Int) : Int) : ℚ) = bandColor (100 * (k : Int)) ∧
    100 * (k : Int) + RPM_STEP ≤ RPM_MAX := by
  have hin : 100 * (k : Int) + RPM_STEP ≤ RPM_MAX := by
    simp only [RPM_STEP, RPM_MAX]
    omega
  have hb : ∀ r : Int, band_rule (r : ℚ) = bandColor r := by
    intro r
    unfold band_rule bandColor
    have e1 : ((r : ℚ) < 500) ↔ r < 500 := by exact_mod_cast Iff.rfl
    have e2 : ((r : ℚ) ≥ 2600) ↔ r ≥ 2600 := by exact_mod_cast Iff.rfl
    have e3 : ((r : ℚ) < 2800) ↔ r < 2800 := by exact_mod_cast Iff.rfl
    have e4 : ((r : ℚ) ≥ 2800) ↔ r ≥ 2800 := by exact_mod_cast Iff.rfl
    simp only [e1, e2, e3, e4]
  refine ⟨?_, hb _, hin⟩
  rw [← hb]
  push_cast at h1 h2 ⊢
  simp only [RPM_STEP] at h2
  push_cast at h2
  have c1 : (v < 500) ↔ ((100 : ℚ) * k < 500) := by
    constructor
    · intro h; linarith
    · intro h
      have : k < 5 := by
        have : (100 : ℚ) * k < 100 * 5 := by linarith
        have : (k : ℚ) < 5 := by linarith
        exact_mod_cast this
      have : (k : ℚ) ≤ 4 := by exact_mod_cast Nat.lt_succ_iff.mp this
      linarith
  have c2 : (v ≥ 2600) ↔ ((100 : ℚ) * k ≥ 2600) := by
    constructor
    · intro h
      have : (k : ℚ) > 25 := by linarith
      have : 25 < k := by exact_mod_cast this
      have : (26 : ℚ) ≤ k := by exact_mod_cast this
      linarith
    · intro h; linarith
  have c3 : (v < 2800) ↔ ((100 : ℚ) * k < 2800) := by
    constructor
    · intro h; linarith
    · intro h
      have : (k : ℚ) < 28 := by linarith
      have : k < 28 := by exact_mod_cast this
      have : (k : ℚ) ≤ 27 := by exact_mod_cast Nat.lt_succ_iff.mp this
      linarith
  have c4 : (v ≥ 2800) ↔ ((100 : ℚ) * k ≥ 2800) := by
    constructor
    · intro h
      have : (k : ℚ) > 27 := by linarith
      have : 27 < k := by exact_mod_cast this
      have : (28 : ℚ) ≤ k := by exact_mod_cast this
      linarith
    · intro h; linarith
  unfold band_rule
  simp only [c1, c2, c3, c4]

theorem band_segments_single_colour_witness :
    ((4 : Nat) < 35 ∧ ((100 * ((4 : Nat) : Int) : Int) : ℚ) ≤ 499.5 ∧
      (499.5 : ℚ) < ((100 * ((4 : Nat) : Int) + RPM_STEP : Int) : ℚ)) ∧
    band_rule 499.5 = bandColor (100 * ((4 : Nat) : Int)) ∧
    band_rule ((100 * ((4 : Nat) : Int) : Int) : ℚ) = bandColor (100 * ((4 : Nat) : Int)) ∧
    100 * ((4 : Nat) : Int) + RPM_STEP ≤ RPM_MAX :=
  ⟨⟨by norm_num, by norm_num, by norm_num [RPM_STEP]⟩,
    band_segments_single_colour 4 499.5 (by norm_num) (by norm_num) (by norm_num [RPM_STEP])⟩


/-! ## Theorems: blend state, view scaling, uniform setters -/

/-- C25 (fails on the code): `draw` does not restore the blend function. Called
with the default factors `(GL_ONE, GL_ZERO)`, it returns with the source factor
`GL_SRC_ALPHA` and the destination factor `GL_ONE`. -/
theorem draw_blend_func_not_restored :
    (sampleGL.blend_src_rgb = 1 ∧ sampleGL.blend_dst_rgb = 0 ∧
      sampleGL.blend_src_alpha = 1 ∧ sampleGL.blend_dst_alpha = 0) ∧
    ((sampleRenderer.draw sampleGL [] 0 0 1).2.blend_src_rgb = GL_SRC_ALPHA ∧
      (sampleRenderer.draw sampleGL [] 0 0 1).2.blend_dst_rgb = 1 ∧
      (sampleRenderer.draw sampleGL [] 0 0 1).2.blend_src_alpha = GL_SRC_ALPHA ∧
      (sampleRenderer.draw sampleGL [] 0 0 1).2.blend_dst_alpha = 1) ∧
    (sampleRenderer.draw sampleGL [] 0 0 1).2.blend_src_rgb ≠ sampleGL.blend_src_rgb ∧
    (sampleRenderer.draw sampleGL [] 0 0 1).2.blend_dst_rgb ≠ sampleGL.blend_dst_rgb := by
  decide

/-- C28 (amended): for a framebuffer with positive width and height, the scale
factor of the frame lies in `(0, 1]`, the view matrix is diagonal and scales
only the longer axis by it (`x` when `width > height`, otherwise `y`), and in
exact arithmetic `(x scale) * width = (y scale) * height`. -/
theorem frame_view_circular (width height : Int) (hw : 0 < width) (hh : 0 < height) :
    (0 < (frame_view width height).1 ∧ (frame_view width height).1 ≤ 1) ∧
    (frame_view width height).2 =
      ⟨⟨(frame_view width height).2.c0.x, 0, 0, 0⟩, ⟨0, (frame_view width height).2.c1.y, 0, 0⟩,
        ⟨0, 0, 1, 0⟩, ⟨0, 0, 0, 1⟩⟩ ∧
    (width > height → (frame_view width height).2.c0.x = (frame_view width height).1 ∧
      (frame_view width height).2.c1.y = 1) ∧
    (¬ width > height → (frame_view width height).2.c0.x = 1 ∧
      (frame_view width height).2.c1.y = (frame_view width height).1) ∧
    (frame_view width height).2.c0.x * (width : ℚ) =
      (frame_view width height).2.c1.y * (height : ℚ) := by
  have hwq : (0 : ℚ) < (width : ℚ) := by exact_mod_cast hw
  have hhq : (0 : ℚ) < (height : ℚ) := by exact_mod_cast hh
  by_cases h : width > height
  · have hlt : (height : ℚ) < (width : ℚ) := by exact_mod_cast h
    simp only [frame_view, if_pos h, RpmGauge.scale, mat4.identity, vec4.smul]
    refine ⟨⟨div_pos hhq hwq, ?_⟩, ?_, ?_, ?_, ?_⟩
    · rw [div_le_one hwq]; exact hlt.le
    · simp
    · intro _; simp
    · intro hn; exact absurd h hn
    · field_simp
  · have hle : (width : ℚ) ≤ (height : ℚ) := by exact_mod_cast not_lt.mp h
    simp only [frame_view, if_neg h, RpmGauge.scale, mat4.identity, vec4.smul]
    refine ⟨⟨div_pos hwq hhq, ?_⟩, ?_, ?_, ?_, ?_⟩
    · rw [div_le_one hhq]; exact hle
    · simp
    · intro hp; exact absurd hp h
    · intro _; simp
    · field_simp

theorem frame_view_circular_witness :
    ((0 : Int) < 1280 ∧ (0 : Int) < 720) ∧
    (0 < (frame_view 1280 720).1 ∧ (frame_view 1280 720).1 ≤ 1) ∧
    (frame_view 1280 720).2 =
      ⟨⟨(frame_view 1280 720).2.c0.x, 0, 0, 0⟩, ⟨0, (frame_view 1280 720).2.c1.y, 0, 0⟩,
        ⟨0, 0, 1, 0⟩, ⟨0, 0, 0, 1⟩⟩ ∧
    ((1280 : Int) > 720 → (frame_view 1280 720).2.c0.x = (frame_view 1280 720).1 ∧
      (frame_view 1280 720).2.c1.y = 1) ∧
    (¬ (1280 : Int) > 720 → (frame_view 1280 720).2.c0.x = 1 ∧
      (frame_view 1280 720).2.c1.y = (frame_view 1280 720).1) ∧
    (frame_view 1280 720).2.c0.x * ((1280 : Int) : ℚ) =
      (frame_view 1280 720).2.c1.y * ((720 : Int) : ℚ) :=
  ⟨⟨by decide, by decide⟩, frame_view_circular 1280 720 (by decide) (by decide)⟩

/-- C29: every overload of `Program::setUniform` (bool, int, mat3, mat4, vec3,
vec4) leaves the currently bound program as it was, whichever program the
uniform is set on. -/
theorem setUniform_keeps_program (program_id : Nat) (gl : GLState) (name : String)
    (b : Bool) (i : Int) (m3 : mat3) (m4 : mat4) (v3 : vec3) (v4 : vec4) :
    (Program.setUniform_bool program_id gl name b).1.current_program = gl.current_program ∧
    (Program.setUniform_int program_id gl name i).1.current_program = gl.current_program ∧
    (Program.setUniform_mat3 program_id gl name m3).1.current_program = gl.current_program ∧
    (Program.setUniform_mat4 program_id gl name m4).current_program = gl.current_program ∧
    (Program.setUniform_vec3 program_id gl name v3).1.current_program = gl.current_program ∧
    (Program.setUniform_vec4 program_id gl name v4).1.current_program = gl.current_program :=
  ⟨rfl, rfl, rfl, rfl, rfl, rfl⟩

/-- C30 (fails on the code): `setUniform` with a `glm::vec4` issues `glUniform3fv`
and uploads the first three components only; `impl::Program::uniform4fv`, which
uploads all four, is not the method it calls. -/
theorem setUniform_vec4_uploads_three :
    (Program.setUniform_vec4 9 sampleGL "color" ⟨1, 2, 3, 4⟩).2.call =
      uniform_call.glUniform3fv ∧
    (Program.setUniform_vec4 9 sampleGL "color" ⟨1, 2, 3, 4⟩).2.value = [1, 2, 3] ∧
    (Program.setUniform_vec4 9 sampleGL "color" ⟨1, 2, 3, 4⟩).2.call ≠
      uniform_call.glUniform4fv ∧
    (Program.uniform4fv 9 sampleGL "color" 1 (vec4.value_ptr ⟨1, 2, 3, 4⟩)).2.value =
      [1, 2, 3, 4] := by
  refine ⟨rfl, rfl, ?_, rfl⟩
  decide


/-! ## Theorems: needle and dial -/

lemma rotate_neg_z (lm : Libm) (hinv : lm.inversesqrt 1 = 1) (a : ℚ) (p : vec3) :
    ((rotate lm mat4.identity a ⟨0, 0, -1⟩).mulVec (vec4.ofVec3 p 0)).toVec3 =
      ⟨lm.cos a * p.x + lm.sin a * p.y, -(lm.sin a * p.x) + lm.cos a * p.y, p.z⟩ := by
  simp only [rotate, normalize, mat4.identity, mat4.mulVec, vec4.ofVec3, vec4.toVec3, vec4.add,
    vec4.smul]
  norm_num [hinv]
  refine ⟨by ring, by ring⟩

lemma radians_neg (x : ℚ) : radians (-x) = -radians x := by
  unfold radians
  ring

/-- The rotation about `(0, 0, -1)` by an angle is the rotation about
`(0, 0, 1)` by the opposite angle, for an even cosine and an odd sine. -/
lemma rotate_neg_axis (lm : Libm) (hinv : lm.inversesqrt 1 = 1)
    (heven : ∀ x, lm.cos (-x) = lm.cos x) (hodd : ∀ x, lm.sin (-x) = -lm.sin x) (a : ℚ) :
    rotate lm mat4.identity a ⟨0, 0, -1⟩ = rotate lm mat4.identity (-a) ⟨0, 0, 1⟩ := by
  simp only [rotate, normalize, mat4.identity, vec4.add, vec4.smul, heven, hodd]
  norm_num [hinv]

/-- C23 (amended): in exact arithmetic the needle and the dial agree. For
every value `v`, `90 - map(v, RPM_MIN, RPM_MAX, -135, 135)` equals the dial
tick angle `map(v, RPM_MIN, RPM_MAX, 225, -45)`. The needle mesh is symmetric
about +Y, and (for a math library with an even cosine, an odd sine and
`inversesqrt 1 = 1`) the rotation of the needle by the working angle `w` about
`(0, 0, -1)` is the rotation about `(0, 0, 1)` by `-w`, that is by the tick
angle minus 90 degrees; it turns +Y to `(sin w, cos w)`. The tick of the same
value is the +X notch rotated about `(0, 0, 1)` by the tick angle `90 - w`, to
`(cos (90 - w), sin (90 - w))`. -/
theorem needle_matches_dial (lm : Libm) (hinv : lm.inversesqrt 1 = 1)
    (heven : ∀ x, lm.cos (-x) = lm.cos x) (hodd : ∀ x, lm.sin (-x) = -lm.sin x)
    (v : ℚ) (rpm : Int) :
    (90 - working_angle v = tick_angle v ∧
      90 - map v (RPM_MIN : ℚ) (RPM_MAX : ℚ) (-135) 135 =
        map v (RPM_MIN : ℚ) (RPM_MAX : ℚ) 225 (-45)) ∧
    (genNeedle.map (fun d => d.pos.x) =
      [-(NEEDLE_WIDTH / 2), NEEDLE_WIDTH / 2, -(NEEDLE_WIDTH / 2), NEEDLE_WIDTH / 2,
        -(NEEDLE_WIDTH / 2), NEEDLE_WIDTH / 2] ∧
      genNeedle.map (fun d => d.pos.y) =
        [-NEEDLE_OFFSET, -NEEDLE_OFFSET, NEEDLE_LENGTH - NEEDLE_OFFSET, -NEEDLE_OFFSET,
          NEEDLE_LENGTH - NEEDLE_OFFSET, NEEDLE_LENGTH - NEEDLE_OFFSET] ∧
      NEEDLE_OFFSET < NEEDLE_LENGTH - NEEDLE_OFFSET) ∧
    (needle_model lm v = rotate lm mat4.identity (radians (working_angle v)) ⟨0, 0, -1⟩ ∧
      needle_model lm v = rotate lm mat4.identity (radians (-(working_angle v))) ⟨0, 0, 1⟩ ∧
      needle_model lm v = rotate lm mat4.identity (radians (tick_angle v - 90)) ⟨0, 0, 1⟩) ∧
    ((needle_model lm v).mulVec ⟨0, 1, 0, 0⟩).toVec3 =
      ⟨lm.sin (radians (working_angle v)), lm.cos (radians (working_angle v)), 0⟩ ∧
    ((rotate lm mat4.identity (radians (tick_angle v)) ⟨0, 0, 1⟩).mulVec ⟨1, 0, 0, 0⟩).toVec3 =
      ⟨lm.cos (radians (90 - working_angle v)), lm.sin (radians (90 - working_angle v)), 0⟩ ∧
    tickBody lm rpm =
      (tickNotch rpm).map (fun data =>
        { data with pos :=
            ((rotate lm mat4.identity (radians (90 - working_angle (rpm : ℚ))) ⟨0, 0, 1⟩).mulVec
              (vec4.ofVec3 data.pos 0)).toVec3 }) := by
  have hang : ∀ u : ℚ, 90 - working_angle u = tick_angle u := by
    intro u
    norm_num [working_angle, tick_angle, map, RPM_MIN, RPM_MAX, NEEDLE_RANGE, angle_min,
      angle_max]
    ring
  have hang2 : 90 - map v (RPM_MIN : ℚ) (RPM_MAX : ℚ) (-135) 135 =
      map v (RPM_MIN : ℚ) (RPM_MAX : ℚ) 225 (-45) := by
    norm_num [map, RPM_MIN, RPM_MAX]
    ring
  have hrot : needle_model lm v =
      rotate lm mat4.identity (radians (-(working_angle v))) ⟨0, 0, 1⟩ := by
    rw [needle_model, rotate_neg_axis lm hinv heven hodd, radians_neg]
  have hneedle : ((needle_model lm v).mulVec ⟨0, 1, 0, 0⟩).toVec3 =
      ⟨lm.sin (radians (working_angle v)), lm.cos (radians (working_angle v)), 0⟩ := by
    have := rotate_neg_z lm hinv (radians (working_angle v)) ⟨0, 1, 0⟩
    simp only [vec4.ofVec3] at this
    rw [needle_model, this]
    simp
  have htick : ((rotate lm mat4.identity (radians (tick_angle v)) ⟨0, 0, 1⟩).mulVec
      ⟨1, 0, 0, 0⟩).toVec3 =
      ⟨lm.cos (radians (tick_angle v)), lm.sin (radians (tick_angle v)), 0⟩ := by
    have := rotate_z lm hinv (radians (tick_angle v)) ⟨1, 0, 0⟩
    simp only [vec4.ofVec3] at this
    rw [this]
    simp
  refine ⟨⟨hang v, hang2⟩, ⟨?_, ?_, ?_⟩, ⟨rfl, hrot, ?_⟩, hneedle, ?_, ?_⟩
  · simp [genNeedle, neg_div]
  · simp [genNeedle]
  · norm_num [NEEDLE_OFFSET, NEEDLE_LENGTH]
  · rw [hrot, ← hang v]
    congr 2
    ring
  · rw [htick, ← hang v]
  · rw [tickBody_eq, hang]

theorem needle_matches_dial_witness :
    (rationalTrig.inversesqrt 1 = 1 ∧
      (∀ x, rationalTrig.cos (-x) = rationalTrig.cos x) ∧
      (∀ x, rationalTrig.sin (-x) = -rationalTrig.sin x)) ∧
    (90 - working_angle 875 = tick_angle 875 ∧
      needle_model rationalTrig 875 =
        rotate rationalTrig mat4.identity (radians (tick_angle 875 - 90)) ⟨0, 0, 1⟩ ∧
      ((needle_model rationalTrig 875).mulVec ⟨0, 1, 0, 0⟩).toVec3 =
        ⟨rationalTrig.sin (radians (working_angle 875)),
          rationalTrig.cos (radians (working_angle 875)), 0⟩ ∧
      ((rotate rationalTrig mat4.identity (radians (tick_angle 875)) ⟨0, 0, 1⟩).mulVec
          ⟨1, 0, 0, 0⟩).toVec3 =
        ⟨rationalTrig.cos (radians (90 - working_angle 875)),
          rationalTrig.sin (radians (90 - working_angle 875)), 0⟩) :=
  have h1 : ∀ x, rationalTrig.cos (-x) = rationalTrig.cos x := by
    intro x
    simp [rationalTrig]
  have h2 : ∀ x, rationalTrig.sin (-x) = -rationalTrig.sin x := by
    intro x
    simp only [rationalTrig]
    ring
  have h := needle_matches_dial rationalTrig rfl h1 h2 875 900
  ⟨⟨rfl, h1, h2⟩, h.1.1, h.2.2.1.2.2, h.2.2.2.1, h.2.2.2.2.1⟩


/-! ## Theorems: glyph table effect of `draw`, tick labels -/

lemma draw_char_ch (self : text_renderer) (y scale : ℚ) (st : draw_state) (c : Char) :
    (draw_char self y scale st c).ch = (st.ch.index c).2 := by
  by_cases hc : c = ' '
  · simp [draw_char, hc]
  · simp [draw_char, hc]

lemma draw_loop_table (self : text_renderer) (y scale : ℚ) (text : List Char) :
    ∀ (st : draw_state) (k : Char), (draw_loop self y scale st text).ch k =
      (match st.ch k with
        | some d => some d
        | none => if k ∈ text then some character_details.zero else none) := by
  induction text with
  | nil =>
    intro st k
    simp only [draw_loop, List.foldl_nil, List.not_mem_nil, if_false]
    cases st.ch k <;> rfl
  | cons c rest ih =>
    intro st k
    have h := ih (draw_char self y scale st c) k
    simp only [draw_loop, List.foldl_cons] at h ⊢
    rw [h, draw_char_ch]
    unfold glyph_table.index
    cases hc : st.ch c with
    | some d =>
      simp only
      cases hk : st.ch k with
      | some d' => rfl
      | none =>
        have hne : k ≠ c := by
          intro e
          rw [e, hc] at hk
          exact Option.noConfusion hk
        simp [hne]
    | none =>
      simp only
      by_cases hkc : k = c
      · subst hkc
        simp [hc]
      · simp only [hkc, if_false, List.mem_cons, false_or]

/-- C26 (fails on the code): `draw` changes the glyph table when the text has a
character without an entry. Drawing the byte 200 over `sampleGlyphs` leaves an
entry for it that was not there before. -/
theorem draw_inserts_missing_glyph :
    sampleRenderer.ch (Char.ofNat 200) = none ∧
    (sampleRenderer.draw sampleGL [Char.ofNat 200] 0 0 1).1.ch (Char.ofNat 200) =
      some character_details.zero ∧
    (sampleRenderer.draw sampleGL [Char.ofNat 200] 0 0 1).1.ch ≠ sampleRenderer.ch := by
  have h1 : sampleRenderer.ch (Char.ofNat 200) = none := by decide
  have h2 : (sampleRenderer.draw sampleGL [Char.ofNat 200] 0 0 1).1.ch (Char.ofNat 200) =
      some character_details.zero := by
    simp only [text_renderer.draw]
    rw [draw_loop_table]
    simp [h1]
  refine ⟨h1, h2, ?_⟩
  intro e
  rw [e, h1] at h2
  exact Option.noConfusion h2

/-- C26 (amended): `draw` keeps every entry of the glyph table and adds an
all-zero entry for each character of the text that had none; keys that are
neither present nor in the text stay absent, so the table is unchanged exactly
when every character of the text has an entry. -/
theorem draw_table_effect (self : text_renderer) (gl : GLState) (text : List Char)
    (x y scale : ℚ) (k : Char) :
    (self.draw gl text x y scale).1.ch k =
      (match self.ch k with
        | some d => some d
        | none => if k ∈ text then some character_details.zero else none) ∧
    ((self.draw gl text x y scale).1.vao = self.vao ∧
      (self.draw gl text x y scale).1.vbo = self.vbo ∧
      (self.draw gl text x y scale).1.program = self.program) := by
  refine ⟨?_, rfl, rfl, rfl⟩
  simp only [text_renderer.draw]
  rw [draw_loop_table]

lemma labelLoop_eq (lm : Libm) (width height : Int) (nts : ℚ) :
    ∀ (n k : Nat) (drawn : List label_draw), k + n = 8 →
      labelLoop lm width height nts (k : Int) drawn =
        drawn ++ (List.range n).map
          (fun j => label_body lm width height nts ((k + j : Nat) : Int)) := by
  have e : Int.tdiv RPM_MAX (RPM_STEP * 5) = 7 := by decide
  intro n
  induction n with
  | zero =>
    intro k drawn h
    rw [labelLoop, e, if_neg (by omega)]
    simp
  | succ n ih =>
    intro k drawn h
    rw [labelLoop, e, if_pos (by omega)]
    have e1 : (k : Int) + 1 = ((k + 1 : Nat) : Int) := by push_cast; ring
    rw [e1, ih (k + 1) _ (by omega), List.range_succ_eq_map, List.map_cons, List.map_map,
      List.append_assoc]
    congr 1
    simp only [List.singleton_append, Nat.add_zero, List.cons.injEq, true_and]
    apply List.map_congr_left
    intro j _
    simp only [Function.comp, Nat.succ_eq_add_one]
    congr 2
    omega

lemma label_text_eq (i : Int) : label_text i = toString (5 * i) := by
  unfold label_text
  have : i * RPM_STEP * 5 = (5 * i) * 100 := by
    simp only [RPM_STEP]
    ring
  rw [this, Int.mul_tdiv_cancel _ (by norm_num)]

lemma tickBody_mem_genCompleteBase (lm : Libm) (j : Nat) (hj : j < 36) (u : datapack)
    (hu : u ∈ tickBody lm (100 * (j : Int))) : scaleVertex u ∈ genCompleteBase lm := by
  rw [genCompleteBase_unrolled]
  refine List.mem_map_of_mem _ (List.mem_append_right _ ?_)
  exact List.mem_flatMap.2 ⟨j, List.mem_range.2 hj, hu⟩

/-- C27: in exact arithmetic, the frame driver requests exactly 8 tick labels,
`i = 0..7`, whose texts are the decimals of `5 * i` (`500 * i / 100`); the
angle of label `i`, `map(i, 0, 7, 225, -45)`, equals
`map(500 i, RPM_MIN, RPM_MAX, 225, -45)`, the angle of the tick at `500 * i`.
The draw requested for label `i` is placed along the direction of that angle
(its cosine and sine, scaled by `DIAMETER * NOTCH_MAX`, through `view` and the
conversion to pixels), and the tick at `500 * i` is the large notch rotated by
the same angle, a part of the dial mesh for `i = 0..7`. -/
theorem tick_labels (lm : Libm) (width height : Int) (notch_text_scale : ℚ) (i : Int) :
    (labelLoop lm width height notch_text_scale 0 [] =
        (List.range 8).map (fun j => label_body lm width height notch_text_scale (j : Int)) ∧
      (labelLoop lm width height notch_text_scale 0 []).length = 8 ∧
      (labelLoop lm width height notch_text_scale 0 []).map (fun d => d.text) =
        ["0", "5", "10", "15", "20", "25", "30", "35"]) ∧
    (label_text i = toString (5 * i) ∧
      5 * i = Int.tdiv (500 * i) 100 ∧
      (label_body lm width height notch_text_scale i).text = label_text i) ∧
    (label_angle (i : ℚ) = map (i : ℚ) 0 7 225 (-45) ∧
      label_angle (i : ℚ) = map (500 * (i : ℚ)) (RPM_MIN : ℚ) (RPM_MAX : ℚ) 225 (-45) ∧
      label_angle (i : ℚ) = tick_angle ((500 * i : Int) : ℚ) ∧
      tickNotch (500 * i) = notch_large) ∧
    label_body lm width height notch_text_scale i =
      ⟨toString (5 * i),
        (map_vec2
          ⟨((frame_view width height).2.mulVec
              ⟨lm.cos (radians (tick_angle ((500 * i : Int) : ℚ))) * DIAMETER * NOTCH_MAX,
               lm.sin (radians (tick_angle ((500 * i : Int) : ℚ))) * DIAMETER * NOTCH_MAX,
               0, 0⟩).x,
           ((frame_view width height).2.mulVec
              ⟨lm.cos (radians (tick_angle ((500 * i : Int) : ℚ))) * DIAMETER * NOTCH_MAX,
               lm.sin (radians (tick_angle ((500 * i : Int) : ℚ))) * DIAMETER * NOTCH_MAX,
               0, 0⟩).y⟩
          ⟨-1, -1⟩ ⟨1, 1⟩ ⟨0, 0⟩ ⟨(width : ℚ), (height : ℚ)⟩).x,
        (map_vec2
          ⟨((frame_view width height).2.mulVec
              ⟨lm.cos (radians (tick_angle ((500 * i : Int) : ℚ))) * DIAMETER * NOTCH_MAX,
               lm.sin (radians (tick_angle ((500 * i : Int) : ℚ))) * DIAMETER * NOTCH_MAX,
               0, 0⟩).x,
           ((frame_view width height).2.mulVec
              ⟨lm.cos (radians (tick_angle ((500 * i : Int) : ℚ))) * DIAMETER * NOTCH_MAX,
               lm.sin (radians (tick_angle ((500 * i : Int) : ℚ))) * DIAMETER * NOTCH_MAX,
               0, 0⟩).y⟩
          ⟨-1, -1⟩ ⟨1, 1⟩ ⟨0, 0⟩ ⟨(width : ℚ), (height : ℚ)⟩).y,
        notch_text_scale * (frame_view width height).1⟩ ∧
    tickBody lm (500 * i) =
      notch_large.map (fun data =>
        { data with pos :=
            ((rotate lm mat4.identity (radians (label_angle (i : ℚ))) ⟨0, 0, 1⟩).mulVec
              (vec4.ofVec3 data.pos 0)).toVec3 }) ∧
    (0 ≤ i → i ≤ 7 → ∀ u ∈ tickBody lm (500 * i), scaleVertex u ∈ genCompleteBase lm) := by
  have hl := labelLoop_eq lm width height notch_text_scale 8 0 [] (by norm_num)
  simp only [Nat.cast_zero, List.nil_append, Nat.zero_add] at hl
  have ha : label_angle (i : ℚ) = tick_angle ((500 * i : Int) : ℚ) := by
    norm_num [label_angle, tick_angle, map, RPM_MIN, RPM_MAX, RPM_STEP, angle_min, angle_max,
      NEEDLE_RANGE]
    ring
  have hn : tickNotch (500 * i) = notch_large := by
    rw [tickNotch_large_iff]
    exact Dvd.intro _ rfl
  refine ⟨⟨hl, by rw [hl]; simp, ?_⟩, ⟨label_text_eq i, ?_, rfl⟩, ⟨?_, ?_, ha, hn⟩, ?_, ?_, ?_⟩
  · rw [hl, List.map_map]
    have : ((fun d : label_draw => d.text) ∘
        fun j : Nat => label_body lm width height notch_text_scale (j : Int)) =
        fun j : Nat => label_text (j : Int) := rfl
    rw [this]
    decide
  · have : 500 * i = (5 * i) * 100 := by ring
    rw [this, Int.mul_tdiv_cancel _ (by norm_num)]
  · norm_num [label_angle, map, RPM_MAX, RPM_STEP, angle_min, angle_max, NEEDLE_RANGE]
  · norm_num [label_angle, map, RPM_MIN, RPM_MAX, RPM_STEP, angle_min, angle_max, NEEDLE_RANGE]
    ring
  · simp only [label_body, ha, label_text_eq]
  · rw [tickBody_eq, hn, ha]
  · intro h0 h7 u hu
    have e : 500 * i = 100 * (((5 * i).toNat : Nat) : Int) := by
      rw [Int.toNat_of_nonneg (by omega)]
      ring
    rw [e] at hu
    exact tickBody_mem_genCompleteBase lm _ (by omega) u hu

theorem tick_labels_witness :
    ((0 : Int) ≤ 3 ∧ (3 : Int) ≤ 7) ∧
    label_angle ((3 : Int) : ℚ) = tick_angle ((500 * 3 : Int) : ℚ) ∧
    (label_body rationalTrig 800 600 1 3).text = label_text 3 ∧
    (∀ u ∈ tickBody rationalTrig (500 * 3), scaleVertex u ∈ genCompleteBase rationalTrig) :=
  ⟨⟨by decide, by decide⟩, (tick_labels rationalTrig 800 600 1 3).2.2.1.2.2.1,
    (tick_labels rationalTrig 800 600 1 3).2.1.2.2,
    (tick_labels rationalTrig 800 600 1 3).2.2.2.2.2 (by decide) (by decide)⟩

/-! ## Helper lemmas: binary32 rounding -/

lemma round_half_even_eq (x : ℚ) (n : Int) (h : |x - n| < 1 / 2) : round_half_even x = n := by
  rw [abs_lt] at h
  unfold round_half_even
  by_cases hf : (n : ℚ) ≤ x
  · have hfl : ⌊x⌋ = n := by
      rw [Int.floor_eq_iff]
      constructor
      · exact hf
      · linarith
    rw [hfl, if_pos (by linarith)]
  · push_neg at hf
    have hfl : ⌊x⌋ = n - 1 := by
      rw [Int.floor_eq_iff]
      push_cast
      constructor
      · linarith
      · linarith
    rw [hfl]
    push_cast
    rw [if_neg (by linarith), if_pos (by linarith)]
    ring

lemma round_to_eq (p : Nat) (emin : Int) (q : ℚ) (e n : Int) (he : emin ≤ e)
    (h1 : (2 : ℚ) ^ e ≤ |q|) (h2 : |q| < (2 : ℚ) ^ (e + 1))
    (h3 : |q / 2 ^ (e - ((p : Int) - 1)) - n| < 1 / 2) :
    round_to p emin q = (n : ℚ) * 2 ^ (e - ((p : Int) - 1)) := by
  have hpos : 0 < |q| := lt_of_lt_of_le (zpow_pos (by norm_num) e) h1
  have hlog : Int.log 2 |q| = e := by
    apply le_antisymm
    · have := (Int.lt_zpow_iff_log_lt (b := 2) (by norm_num) hpos).mp (by exact_mod_cast h2)
      omega
    · exact (Int.zpow_le_iff_le_log (b := 2) (by norm_num) hpos).mp (by exact_mod_cast h1)
  unfold round_to
  simp only [hlog, max_eq_left he]
  rw [round_half_even_eq _ n h3]

/-- Evaluation of `round32` at a rational whose binary exponent `e` and rounded
significand `n` are given. -/
lemma round32_of (q r : ℚ) (e n : Int) (he : -126 ≤ e)
    (h1 : (2 : ℚ) ^ e ≤ |q|) (h2 : |q| < (2 : ℚ) ^ (e + 1))
    (h3 : |q / 2 ^ (e - 23) - n| < 1 / 2) (hr : (n : ℚ) * 2 ^ (e - 23) = r) :
    round32 q = r := by
  unfold round32
  rw [round_to_eq 24 (-126) q e n he h1 h2 (by simpa using h3)]
  rw [← hr]
  norm_num

lemma round32_zero : round32 0 = 0 := by
  simp [round32, round_to, round_half_even]

lemma round_half_even_tie (x : ℚ) (n : Int) (h : |x - n| = 1 / 2) (hn : n % 2 = 0) :
    round_half_even x = n := by
  unfold round_half_even
  rcases abs_eq (by norm_num : (0 : ℚ) ≤ 1 / 2) |>.mp h with h1 | h1
  · have hfl : ⌊x⌋ = n := by
      rw [Int.floor_eq_iff]
      constructor <;> linarith
    rw [hfl, if_neg (by linarith), if_neg (by linarith), if_pos hn]
  · have hfl : ⌊x⌋ = n - 1 := by
      rw [Int.floor_eq_iff]
      push_cast
      constructor <;> linarith
    rw [hfl]
    push_cast
    rw [if_neg (by linarith), if_neg (by linarith), if_neg (by omega)]
    ring

/-- Evaluation of `round32` at a rational halfway between two binary32 numbers. -/
lemma round32_of_tie (q r : ℚ) (e n : Int) (he : -126 ≤ e)
    (h1 : (2 : ℚ) ^ e ≤ |q|) (h2 : |q| < (2 : ℚ) ^ (e + 1))
    (h3 : |q / 2 ^ (e - 23) - n| = 1 / 2) (hn : n % 2 = 0)
    (hr : (n : ℚ) * 2 ^ (e - 23) = r) :
    round32 q = r := by
  have hpos : 0 < |q| := lt_of_lt_of_le (zpow_pos (by norm_num) e) h1
  have hlog : Int.log 2 |q| = e := by
    apply le_antisymm
    · have := (Int.lt_zpow_iff_log_lt (b := 2) (by norm_num) hpos).mp (by exact_mod_cast h2)
      omega
    · exact (Int.zpow_le_iff_le_log (b := 2) (by norm_num) hpos).mp (by exact_mod_cast h1)
  unfold round32 round_to
  simp only [hlog, max_eq_left he]
  have e23 : e - (((24 : ℕ) : ℤ) - 1) = e - 23 := by norm_num
  rw [e23, round_half_even_tie _ n h3 hn, ← hr]

lemma f32.zero_mul (a : ℚ) : f32.mul 0 a = 0 := by
  simp [f32.mul, round32_zero]

lemma f32.mul_zero (a : ℚ) : f32.mul a 0 = 0 := by
  simp [f32.mul, round32_zero]

lemma f32.one_mul (a : ℚ) : f32.mul 1 a = round32 a := by
  simp [f32.mul]

lemma f32.mul_one (a : ℚ) : f32.mul a 1 = round32 a := by
  simp [f32.mul]

lemma f32.add_zero (a : ℚ) : f32.add a 0 = round32 a := by
  simp [f32.add]

lemma f32.zero_add (a : ℚ) : f32.add 0 a = round32 a := by
  simp [f32.add]

lemma f32.sub_zero (a : ℚ) : f32.sub a 0 = round32 a := by
  simp [f32.sub]

/-- Evaluation of `round64` at a rational whose binary exponent `e` and rounded
significand `n` are given. -/
lemma round64_of (q r : ℚ) (e n : Int) (he : -1022 ≤ e)
    (h1 : (2 : ℚ) ^ e ≤ |q|) (h2 : |q| < (2 : ℚ) ^ (e + 1))
    (h3 : |q / 2 ^ (e - 52) - n| < 1 / 2) (hr : (n : ℚ) * 2 ^ (e - 52) = r) :
    round64 q = r := by
  unfold round64
  rw [round_to_eq 53 (-1022) q e n he h1 h2 (by simpa using h3)]
  rw [← hr]
  norm_num

lemma round32_one : round32 1 = 1 :=
  round32_of _ _ 0 8388608 (by norm_num) (by norm_num) (by norm_num) (by norm_num [abs_lt])
    (by norm_num)

lemma radians_f32_factor :
    f32_lit 0.01745329251994329576923690768489 = (9370165/536870912) := by
  unfold f32_lit
  rw [show round64 (0.01745329251994329576923690768489 : ℚ) = (5030569068109113/288230376151711744) from
    (round64_of _ _ (-6) (5030569068109113) (by norm_num) (by norm_num [abs_of_nonneg, abs_of_nonpos]) (by norm_num [abs_of_nonneg, abs_of_nonpos]) (by norm_num [abs_lt]) (by norm_num))]
  exact (round32_of _ _ (-6) (9370165) (by norm_num) (by norm_num [abs_of_nonneg, abs_of_nonpos]) (by norm_num [abs_of_nonneg, abs_of_nonpos]) (by norm_num [abs_lt]) (by norm_num))

lemma tickLoop_f32_eq (lm : Libm) : ∀ (n k : Nat) (ret : List datapack), k + n = 36 →
    tickLoop_f32 lm (100 * (k : Int)) ret =
      ret ++ (List.range n).flatMap (fun j => tickBody_f32 lm (100 * ((k + j : Nat) : Int))) := by
  intro n
  induction n with
  | zero =>
    intro k ret h
    rw [tickLoop_f32]
    simp only [RPM_MAX]
    rw [if_neg (by omega)]
    simp
  | succ n ih =>
    intro k ret h
    rw [tickLoop_f32]
    simp only [RPM_MAX, RPM_STEP]
    rw [if_pos (by omega)]
    have e : 100 * (k : Int) + 100 = 100 * ((k + 1 : Nat) : Int) := by push_cast; ring
    rw [e, ih (k + 1) _ (by omega), range_flatMap_succ, List.append_assoc]
    have hj : ∀ j : Int, (k : Int) + 1 + j = (k : Int) + (j + 1) := fun j => by ring
    simp only [Nat.cast_add, Nat.cast_one, Nat.cast_zero, add_zero, hj]

lemma tickBody_f32_length (lm : Libm) (rpm : Int) : (tickBody_f32 lm rpm).length = 6 := by
  unfold tickBody_f32
  simp only [List.length_map]
  split_ifs <;> rfl

/-- The layer key of a tick vertex in binary32, after the final scaling pass:
the rotation about the z axis multiplies it by `c + (1 - c)`, rounded. -/
lemma tickBody_f32_z (lm : Libm) (hinv : lm.inversesqrt 1 = 1) (rpm : Int) :
    ∀ u ∈ tickBody_f32 lm rpm, (scaleVertex_f32 u).pos.z =
      round32 (round32 (round32 (f32.mul (round32 (round32 (f32.add
        (lm.cos (radians_f32 (tick_angle_f32 (f32.ofInt rpm))))
        (round32 (round32 (f32.sub 1
          (lm.cos (radians_f32 (tick_angle_f32 (f32.ofInt rpm)))))))))) 3))) := by
  intro u hu
  unfold tickBody_f32 at hu
  simp only [List.mem_map] at hu
  obtain ⟨d, hd, rfl⟩ := hu
  have hz : d.pos.z = 3 := by
    split_ifs at hd <;>
      simp only [notch_large_f32, notch_small_f32, List.mem_cons, List.mem_singleton,
        List.not_mem_nil, or_false] at hd <;>
      rcases hd with h | h | h | h | h | h <;> subst h <;> rfl
  simp only [scaleVertex_f32, rotate_f32, normalize_f32, mat4.mulVec_f32, vec4.add_f32,
    vec4.smul_f32, mat4.identity, vec4.ofVec3, vec4.toVec3, hz, f32.zero_mul, f32.mul_zero,
    f32.one_mul, f32.mul_one, f32.add_zero, f32.zero_add, f32.sub_zero, round32_zero,
    round32_one, hinv]

lemma not_sorted_append {l1 l2 : List ℚ} {a b : ℚ} (ha : a ∈ l1) (hb : b ∈ l2)
    (h : b < a) : ¬ List.Sorted (fun a b : ℚ => a ≤ b) (l1 ++ l2) := by
  intro hs
  have := (List.pairwise_append.1 hs).2.2 a ha b hb
  exact absurd this (not_le.2 h)

/-! ## Theorems: the value mapper, the view scaling, the angles and the mesh in binary32 -/

/-- C3 (fails on the code): in binary32 the extrapolated value is rounded and can
land on the bound. With the source range `[0, 1]` and the target range
`[2^24, 2^24 + 2]`, `map<float>` sends `1.25 > x_high` to exactly `t_high` and
`-0.25 < x_low` to exactly `t_low`. -/
theorem map_f32_lands_on_bounds :
    ((0 : ℚ) < 1 ∧ (16777216 : ℚ) < 16777218 ∧ (1 : ℚ) < 5 / 4 ∧ (-1 / 4 : ℚ) < 0) ∧
    map_f32 (5/4) 0 1 16777216 16777218 = 16777218 ∧
    map_f32 (-1/4) 0 1 16777216 16777218 = 16777216 ∧
    ¬ (16777218 < map_f32 (5/4) 0 1 16777216 16777218) ∧
    ¬ (map_f32 (-1/4) 0 1 16777216 16777218 < 16777216) := by
  have s1 : f32.sub (5/4) 0 = (5/4) := by
    unfold f32.sub
    rw [show ((5/4) - 0 : ℚ) = (5/4) by norm_num]
    exact (round32_of _ _ (0) (10485760) (by norm_num) (by norm_num [abs_of_nonneg, abs_of_nonpos]) (by norm_num [abs_of_nonneg, abs_of_nonpos]) (by norm_num [abs_lt]) (by norm_num))
  have s2 : f32.sub 16777218 16777216 = 2 := by
    unfold f32.sub
    rw [show (16777218 - 16777216 : ℚ) = 2 by norm_num]
    exact (round32_of _ _ (1) (8388608) (by norm_num) (by norm_num [abs_of_nonneg, abs_of_nonpos]) (by norm_num [abs_of_nonneg, abs_of_nonpos]) (by norm_num [abs_lt]) (by norm_num))
  have s3 : f32.mul (5/4) 2 = (5/2) := by
    unfold f32.mul
    rw [show ((5/4) * 2 : ℚ) = (5/2) by norm_num]
    exact (round32_of _ _ (1) (10485760) (by norm_num) (by norm_num [abs_of_nonneg, abs_of_nonpos]) (by norm_num [abs_of_nonneg, abs_of_nonpos]) (by norm_num [abs_lt]) (by norm_num))
  have s4 : f32.sub 1 0 = 1 := by
    unfold f32.sub
    rw [show (1 - 0 : ℚ) = 1 by norm_num]
    exact (round32_of _ _ (0) (8388608) (by norm_num) (by norm_num [abs_of_nonneg, abs_of_nonpos]) (by norm_num [abs_of_nonneg, abs_of_nonpos]) (by norm_num [abs_lt]) (by norm_num))
  have s5 : f32.div (5/2) 1 = (5/2) := by
    unfold f32.div
    rw [show ((5/2) / 1 : ℚ) = (5/2) by norm_num]
    exact (round32_of _ _ (1) (10485760) (by norm_num) (by norm_num [abs_of_nonneg, abs_of_nonpos]) (by norm_num [abs_of_nonneg, abs_of_nonpos]) (by norm_num [abs_lt]) (by norm_num))
  have s6 : f32.add (5/2) 16777216 = 16777218 := by
    unfold f32.add
    rw [show ((5/2) + 16777216 : ℚ) = (33554437/2) by norm_num]
    exact (round32_of _ _ (24) (8388609) (by norm_num) (by norm_num [abs_of_nonneg, abs_of_nonpos]) (by norm_num [abs_of_nonneg, abs_of_nonpos]) (by norm_num [abs_lt]) (by norm_num))
  have s7 : f32.sub (-1/4) 0 = (-1/4) := by
    unfold f32.sub
    rw [show ((-1/4) - 0 : ℚ) = (-1/4) by norm_num]
    exact (round32_of _ _ (-2) (-8388608) (by norm_num) (by norm_num [abs_of_nonneg, abs_of_nonpos]) (by norm_num [abs_of_nonneg, abs_of_nonpos]) (by norm_num [abs_lt]) (by norm_num))
  have s9 : f32.mul (-1/4) 2 = (-1/2) := by
    unfold f32.mul
    rw [show ((-1/4) * 2 : ℚ) = (-1/2) by norm_num]
    exact (round32_of _ _ (-1) (-8388608) (by norm_num) (by norm_num [abs_of_nonneg, abs_of_nonpos]) (by norm_num [abs_of_nonneg, abs_of_nonpos]) (by norm_num [abs_lt]) (by norm_num))
  have s11 : f32.div (-1/2) 1 = (-1/2) := by
    unfold f32.div
    rw [show ((-1/2) / 1 : ℚ) = (-1/2) by norm_num]
    exact (round32_of _ _ (-1) (-8388608) (by norm_num) (by norm_num [abs_of_nonneg, abs_of_nonpos]) (by norm_num [abs_of_nonneg, abs_of_nonpos]) (by norm_num [abs_lt]) (by norm_num))
  have s12 : f32.add (-1/2) 16777216 = 16777216 := by
    unfold f32.add
    rw [show ((-1/2) + 16777216 : ℚ) = (33554431/2) by norm_num]
    exact (round32_of_tie _ _ (23) (16777216) (by norm_num) (by norm_num [abs_of_nonneg, abs_of_nonpos]) (by norm_num [abs_of_nonneg, abs_of_nonpos]) (by norm_num [abs_of_nonneg, abs_of_nonpos]) (by decide) (by norm_num))
  have h1 : map_f32 (5/4) 0 1 16777216 16777218 = 16777218 := by
    unfold map_f32
    rw [s1, s2, s3, s4, s5, s6]
  have h2 : map_f32 (-1/4) 0 1 16777216 16777218 = 16777216 := by
    unfold map_f32
    rw [s7, s2, s9, s4, s11, s12]
  refine ⟨⟨by norm_num, by norm_num, by norm_num, by norm_num⟩, h1, h2, ?_, ?_⟩
  · rw [h1]; exact lt_irrefl _
  · rw [h2]; exact lt_irrefl _

/-- C28 (fails on the code): in binary32 the quotient is rounded, so the two
products differ. For a 1512 by 982 framebuffer the x scale is
`5448157 / 8388608`, and `(x scale) * 1512` is not `(y scale) * 982`, neither
exactly nor after rounding the products to `float`. -/
theorem frame_view_f32_not_circular :
    ((0 : Int) < 1512 ∧ (0 : Int) < 982) ∧
    (frame_view_f32 1512 982).2.c0.x = 5448157 / 8388608 ∧
    (frame_view_f32 1512 982).2.c1.y = 1 ∧
    (frame_view_f32 1512 982).2.c0.x * ((1512 : Int) : ℚ) ≠
      (frame_view_f32 1512 982).2.c1.y * ((982 : Int) : ℚ) ∧
    f32.mul (frame_view_f32 1512 982).2.c0.x (f32.ofInt 1512) ≠
      f32.mul (frame_view_f32 1512 982).2.c1.y (f32.ofInt 982) := by
  have s1 : round32 982 = 982 :=
    (round32_of _ _ (9) (16089088) (by norm_num) (by norm_num [abs_of_nonneg, abs_of_nonpos]) (by norm_num [abs_of_nonneg, abs_of_nonpos]) (by norm_num [abs_lt]) (by norm_num))
  have s2 : round32 1512 = 1512 :=
    (round32_of _ _ (10) (12386304) (by norm_num) (by norm_num [abs_of_nonneg, abs_of_nonpos]) (by norm_num [abs_of_nonneg, abs_of_nonpos]) (by norm_num [abs_lt]) (by norm_num))
  have s3 : f32.div 982 1512 = (5448157/8388608) := by
    unfold f32.div
    rw [show (982 / 1512 : ℚ) = (491/756) by norm_num]
    exact (round32_of _ _ (-1) (10896314) (by norm_num) (by norm_num [abs_of_nonneg, abs_of_nonpos]) (by norm_num [abs_of_nonneg, abs_of_nonpos]) (by norm_num [abs_lt]) (by norm_num))
  have s4 : round32 (5448157/8388608) = (5448157/8388608) :=
    (round32_of _ _ (-1) (10896314) (by norm_num) (by norm_num [abs_of_nonneg, abs_of_nonpos]) (by norm_num [abs_of_nonneg, abs_of_nonpos]) (by norm_num [abs_lt]) (by norm_num))
  have s5 : round32 1 = 1 :=
    (round32_of _ _ (0) (8388608) (by norm_num) (by norm_num [abs_of_nonneg, abs_of_nonpos]) (by norm_num [abs_of_nonneg, abs_of_nonpos]) (by norm_num [abs_lt]) (by norm_num))
  have s6 : f32.mul (5448157/8388608) 1512 = (16089089/16384) := by
    unfold f32.mul
    rw [show ((5448157/8388608) * 1512 : ℚ) = (1029701673/1048576) by norm_num]
    exact (round32_of _ _ (9) (16089089) (by norm_num) (by norm_num [abs_of_nonneg, abs_of_nonpos]) (by norm_num [abs_of_nonneg, abs_of_nonpos]) (by norm_num [abs_lt]) (by norm_num))
  have s7 : f32.mul 1 982 = 982 := by
    unfold f32.mul
    rw [show (1 * 982 : ℚ) = 982 by norm_num]
    exact (round32_of _ _ (9) (16089088) (by norm_num) (by norm_num [abs_of_nonneg, abs_of_nonpos]) (by norm_num [abs_of_nonneg, abs_of_nonpos]) (by norm_num [abs_lt]) (by norm_num))
  have hw : f32.ofInt 1512 = 1512 := by
    unfold f32.ofInt
    rw [show ((1512 : Int) : ℚ) = 1512 by norm_num]
    exact s2
  have hh : f32.ofInt 982 = 982 := by
    unfold f32.ofInt
    rw [show ((982 : Int) : ℚ) = 982 by norm_num]
    exact s1
  have hx : (frame_view_f32 1512 982).2.c0.x = 5448157 / 8388608 := by
    have hgt : (1512 : Int) > 982 := by decide
    simp only [frame_view_f32, if_pos hgt, scale_f32, vec4.smul_f32, mat4.identity, hw, hh,
      f32.one_mul, s3]
    rw [s4]
  have hy : (frame_view_f32 1512 982).2.c1.y = 1 := by
    have hgt : (1512 : Int) > 982 := by decide
    simp only [frame_view_f32, if_pos hgt, scale_f32, vec4.smul_f32, mat4.identity,
      f32.one_mul, s5]
  refine ⟨⟨by decide, by decide⟩, hx, hy, ?_, ?_⟩
  · rw [hx, hy]
    norm_num
  · rw [hx, hy, hw, hh, s6, s7]
    norm_num

/-- C16 (fails on the code): in binary32 the rotation of `glm::rotate` about the
z axis has the entry `c + (1 - c)`, which is `1 - 2^-24` for the cosine at the
tick angle of rpm 700 (171 degrees). The six vertices of the tick at rpm 0 have
the layer key 3, the six vertices of the tick at rpm 700, later in the list,
have `(12582911/4194304)`: the third components are not non-decreasing. -/
theorem genCompleteBase_f32_not_back_to_front :
    binary32Trig.inversesqrt 1 = 1 ∧
    binary32Trig.cos (radians_f32 (tick_angle_f32 (f32.ofInt 700))) = (-16570661/16777216) ∧
    (tickBody_f32 binary32Trig 0).map (fun v => (scaleVertex_f32 v).pos.z) =
      List.replicate 6 3 ∧
    (tickBody_f32 binary32Trig 700).map (fun v => (scaleVertex_f32 v).pos.z) =
      List.replicate 6 (12582911/4194304) ∧
    ¬ List.Sorted (fun a b : ℚ => a ≤ b)
      ((genCompleteBase_f32 binary32Trig).map (fun v => v.pos.z)) := by
  have s1 : round32 270 = 270 :=
    (round32_of _ _ (8) (8847360) (by norm_num) (by norm_num [abs_of_nonneg, abs_of_nonpos]) (by norm_num [abs_of_nonneg, abs_of_nonpos]) (by norm_num [abs_lt]) (by norm_num))
  have s2 : f32.div 270 2 = 135 := by
    unfold f32.div
    rw [show (270 / 2 : ℚ) = 135 by norm_num]
    exact (round32_of _ _ (7) (8847360) (by norm_num) (by norm_num [abs_of_nonneg, abs_of_nonpos]) (by norm_num [abs_of_nonneg, abs_of_nonpos]) (by norm_num [abs_lt]) (by norm_num))
  have s3 : f32.add 90 135 = 225 := by
    unfold f32.add
    rw [show (90 + 135 : ℚ) = 225 by norm_num]
    exact (round32_of _ _ (7) (14745600) (by norm_num) (by norm_num [abs_of_nonneg, abs_of_nonpos]) (by norm_num [abs_of_nonneg, abs_of_nonpos]) (by norm_num [abs_lt]) (by norm_num))
  have s4 : f32.sub 90 135 = (-45) := by
    unfold f32.sub
    rw [show (90 - 135 : ℚ) = (-45) by norm_num]
    exact (round32_of _ _ (5) (-11796480) (by norm_num) (by norm_num [abs_of_nonneg, abs_of_nonpos]) (by norm_num [abs_of_nonneg, abs_of_nonpos]) (by norm_num [abs_lt]) (by norm_num))
  have s5 : round32 3500 = 3500 :=
    (round32_of _ _ (11) (14336000) (by norm_num) (by norm_num [abs_of_nonneg, abs_of_nonpos]) (by norm_num [abs_of_nonneg, abs_of_nonpos]) (by norm_num [abs_lt]) (by norm_num))
  have s6 : round32 700 = 700 :=
    (round32_of _ _ (9) (11468800) (by norm_num) (by norm_num [abs_of_nonneg, abs_of_nonpos]) (by norm_num [abs_of_nonneg, abs_of_nonpos]) (by norm_num [abs_lt]) (by norm_num))
  have s7 : round32 1 = 1 :=
    (round32_of _ _ (0) (8388608) (by norm_num) (by norm_num [abs_of_nonneg, abs_of_nonpos]) (by norm_num [abs_of_nonneg, abs_of_nonpos]) (by norm_num [abs_lt]) (by norm_num))
  have s8 : f32.sub 0 0 = 0 := by
    unfold f32.sub
    rw [show (0 - 0 : ℚ) = 0 by norm_num]
    exact round32_zero
  have s9 : f32.sub (-45) 225 = (-270) := by
    unfold f32.sub
    rw [show ((-45) - 225 : ℚ) = (-270) by norm_num]
    exact (round32_of _ _ (8) (-8847360) (by norm_num) (by norm_num [abs_of_nonneg, abs_of_nonpos]) (by norm_num [abs_of_nonneg, abs_of_nonpos]) (by norm_num [abs_lt]) (by norm_num))
  have s10 : f32.mul 0 (-270) = 0 := by
    unfold f32.mul
    rw [show (0 * (-270) : ℚ) = 0 by norm_num]
    exact round32_zero
  have s11 : f32.sub 3500 0 = 3500 := by
    unfold f32.sub
    rw [show (3500 - 0 : ℚ) = 3500 by norm_num]
    exact (round32_of _ _ (11) (14336000) (by norm_num) (by norm_num [abs_of_nonneg, abs_of_nonpos]) (by norm_num [abs_of_nonneg, abs_of_nonpos]) (by norm_num [abs_lt]) (by norm_num))
  have s12 : f32.div 0 3500 = 0 := by
    unfold f32.div
    rw [show (0 / 3500 : ℚ) = 0 by norm_num]
    exact round32_zero
  have s13 : f32.add 0 225 = 225 := by
    unfold f32.add
    rw [show (0 + 225 : ℚ) = 225 by norm_num]
    exact (round32_of _ _ (7) (14745600) (by norm_num) (by norm_num [abs_of_nonneg, abs_of_nonpos]) (by norm_num [abs_of_nonneg, abs_of_nonpos]) (by norm_num [abs_lt]) (by norm_num))
  have s14 : f32.mul 225 (9370165/536870912) = (16470993/4194304) := by
    unfold f32.mul
    rw [show (225 * (9370165/536870912) : ℚ) = (2108287125/536870912) by norm_num]
    exact (round32_of _ _ (1) (16470993) (by norm_num) (by norm_num [abs_of_nonneg, abs_of_nonpos]) (by norm_num [abs_of_nonneg, abs_of_nonpos]) (by norm_num [abs_lt]) (by norm_num))
  have s15 : f32.sub 1 (-2965821/4194304) = (7160125/4194304) := by
    unfold f32.sub
    rw [show (1 - (-2965821/4194304) : ℚ) = (7160125/4194304) by norm_num]
    exact (round32_of _ _ (0) (14320250) (by norm_num) (by norm_num [abs_of_nonneg, abs_of_nonpos]) (by norm_num [abs_of_nonneg, abs_of_nonpos]) (by norm_num [abs_lt]) (by norm_num))
  have s16 : round32 (7160125/4194304) = (7160125/4194304) :=
    (round32_of _ _ (0) (14320250) (by norm_num) (by norm_num [abs_of_nonneg, abs_of_nonpos]) (by norm_num [abs_of_nonneg, abs_of_nonpos]) (by norm_num [abs_lt]) (by norm_num))
  have s17 : f32.add (-2965821/4194304) (7160125/4194304) = 1 := by
    unfold f32.add
    rw [show ((-2965821/4194304) + (7160125/4194304) : ℚ) = 1 by norm_num]
    exact (round32_of _ _ (0) (8388608) (by norm_num) (by norm_num [abs_of_nonneg, abs_of_nonpos]) (by norm_num [abs_of_nonneg, abs_of_nonpos]) (by norm_num [abs_lt]) (by norm_num))
  have s19 : f32.mul 1 3 = 3 := by
    unfold f32.mul
    rw [show (1 * 3 : ℚ) = 3 by norm_num]
    exact (round32_of _ _ (1) (12582912) (by norm_num) (by norm_num [abs_of_nonneg, abs_of_nonpos]) (by norm_num [abs_of_nonneg, abs_of_nonpos]) (by norm_num [abs_lt]) (by norm_num))
  have s20 : round32 3 = 3 :=
    (round32_of _ _ (1) (12582912) (by norm_num) (by norm_num [abs_of_nonneg, abs_of_nonpos]) (by norm_num [abs_of_nonneg, abs_of_nonpos]) (by norm_num [abs_lt]) (by norm_num))
  have s21 : f32.sub 700 0 = 700 := by
    unfold f32.sub
    rw [show (700 - 0 : ℚ) = 700 by norm_num]
    exact (round32_of _ _ (9) (11468800) (by norm_num) (by norm_num [abs_of_nonneg, abs_of_nonpos]) (by norm_num [abs_of_nonneg, abs_of_nonpos]) (by norm_num [abs_lt]) (by norm_num))
  have s23 : f32.mul 700 (-270) = (-189000) := by
    unfold f32.mul
    rw [show (700 * (-270) : ℚ) = (-189000) by norm_num]
    exact (round32_of _ _ (17) (-12096000) (by norm_num) (by norm_num [abs_of_nonneg, abs_of_nonpos]) (by norm_num [abs_of_nonneg, abs_of_nonpos]) (by norm_num [abs_lt]) (by norm_num))
  have s25 : f32.div (-189000) 3500 = (-54) := by
    unfold f32.div
    rw [show ((-189000) / 3500 : ℚ) = (-54) by norm_num]
    exact (round32_of _ _ (5) (-14155776) (by norm_num) (by norm_num [abs_of_nonneg, abs_of_nonpos]) (by norm_num [abs_of_nonneg, abs_of_nonpos]) (by norm_num [abs_lt]) (by norm_num))
  have s26 : f32.add (-54) 225 = 171 := by
    unfold f32.add
    rw [show ((-54) + 225 : ℚ) = 171 by norm_num]
    exact (round32_of _ _ (7) (11206656) (by norm_num) (by norm_num [abs_of_nonneg, abs_of_nonpos]) (by norm_num [abs_of_nonneg, abs_of_nonpos]) (by norm_num [abs_lt]) (by norm_num))
  have s27 : f32.mul 171 (9370165/536870912) = (12517955/4194304) := by
    unfold f32.mul
    rw [show (171 * (9370165/536870912) : ℚ) = (1602298215/536870912) by norm_num]
    exact (round32_of _ _ (1) (12517955) (by norm_num) (by norm_num [abs_of_nonneg, abs_of_nonpos]) (by norm_num [abs_of_nonneg, abs_of_nonpos]) (by norm_num [abs_lt]) (by norm_num))
  have s28 : f32.sub 1 (-16570661/16777216) = (8336969/4194304) := by
    unfold f32.sub
    rw [show (1 - (-16570661/16777216) : ℚ) = (33347877/16777216) by norm_num]
    exact (round32_of_tie _ _ (0) (16673938) (by norm_num) (by norm_num [abs_of_nonneg, abs_of_nonpos]) (by norm_num [abs_of_nonneg, abs_of_nonpos]) (by norm_num [abs_of_nonneg, abs_of_nonpos]) (by decide) (by norm_num))
  have s29 : round32 (8336969/4194304) = (8336969/4194304) :=
    (round32_of _ _ (0) (16673938) (by norm_num) (by norm_num [abs_of_nonneg, abs_of_nonpos]) (by norm_num [abs_of_nonneg, abs_of_nonpos]) (by norm_num [abs_lt]) (by norm_num))
  have s30 : f32.add (-16570661/16777216) (8336969/4194304) = (16777215/16777216) := by
    unfold f32.add
    rw [show ((-16570661/16777216) + (8336969/4194304) : ℚ) = (16777215/16777216) by norm_num]
    exact (round32_of _ _ (-1) (16777215) (by norm_num) (by norm_num [abs_of_nonneg, abs_of_nonpos]) (by norm_num [abs_of_nonneg, abs_of_nonpos]) (by norm_num [abs_lt]) (by norm_num))
  have s31 : round32 (16777215/16777216) = (16777215/16777216) :=
    (round32_of _ _ (-1) (16777215) (by norm_num) (by norm_num [abs_of_nonneg, abs_of_nonpos]) (by norm_num [abs_of_nonneg, abs_of_nonpos]) (by norm_num [abs_lt]) (by norm_num))
  have s32 : f32.mul (16777215/16777216) 3 = (12582911/4194304) := by
    unfold f32.mul
    rw [show ((16777215/16777216) * 3 : ℚ) = (50331645/16777216) by norm_num]
    exact (round32_of _ _ (1) (12582911) (by norm_num) (by norm_num [abs_of_nonneg, abs_of_nonpos]) (by norm_num [abs_of_nonneg, abs_of_nonpos]) (by norm_num [abs_lt]) (by norm_num))
  have s33 : round32 (12582911/4194304) = (12582911/4194304) :=
    (round32_of _ _ (1) (12582911) (by norm_num) (by norm_num [abs_of_nonneg, abs_of_nonpos]) (by norm_num [abs_of_nonneg, abs_of_nonpos]) (by norm_num [abs_lt]) (by norm_num))
  have hmin : f32.ofInt RPM_MIN = 0 := by
    simp [f32.ofInt, RPM_MIN, round32_zero]
  have hmax : f32.ofInt RPM_MAX = 3500 := by
    unfold f32.ofInt RPM_MAX
    rw [show ((3500 : Int) : ℚ) = 3500 by norm_num]
    exact s5
  have h0 : f32.ofInt 0 = 0 := by
    simp [f32.ofInt, round32_zero]
  have h700 : f32.ofInt 700 = 700 := by
    unfold f32.ofInt
    rw [show ((700 : Int) : ℚ) = 700 by norm_num]
    exact s6
  have ha0 : radians_f32 (tick_angle_f32 (f32.ofInt 0)) = (16470993/4194304) := by
    simp only [radians_f32, radians_f32_factor, tick_angle_f32, map_f32, angle_min_f32,
      angle_max_f32, NEEDLE_RANGE_f32, hmin, hmax, h0, s1, s2, s3, s4, s5, s6, s7, s8, s9, s10, s11, s12, s13, s14, s15, s16, s17, s19, s20, s21, s23, s25, s26, s27, s28, s29, s30, s31, s32, s33]
  have ha7 : radians_f32 (tick_angle_f32 (f32.ofInt 700)) = (12517955/4194304) := by
    simp only [radians_f32, radians_f32_factor, tick_angle_f32, map_f32, angle_min_f32,
      angle_max_f32, NEEDLE_RANGE_f32, hmin, hmax, h700, s1, s2, s3, s4, s5, s6, s7, s8, s9, s10, s11, s12, s13, s14, s15, s16, s17, s19, s20, s21, s23, s25, s26, s27, s28, s29, s30, s31, s32, s33]
  have hc0 : binary32Trig.cos (16470993/4194304) = (-2965821/4194304) := by
    simp [binary32Trig]
  have hc7 : binary32Trig.cos (12517955/4194304) = (-16570661/16777216) := by
    norm_num [binary32Trig]
  have hz0 : ∀ u ∈ tickBody_f32 binary32Trig 0, (scaleVertex_f32 u).pos.z = 3 := by
    intro u hu
    rw [tickBody_f32_z binary32Trig rfl 0 u hu, ha0, hc0]
    simp only [s1, s2, s3, s4, s5, s6, s7, s8, s9, s10, s11, s12, s13, s14, s15, s16, s17, s19, s20, s21, s23, s25, s26, s27, s28, s29, s30, s31, s32, s33]
  have hz7 : ∀ u ∈ tickBody_f32 binary32Trig 700,
      (scaleVertex_f32 u).pos.z = (12582911/4194304) := by
    intro u hu
    rw [tickBody_f32_z binary32Trig rfl 700 u hu, ha7, hc7]
    simp only [s1, s2, s3, s4, s5, s6, s7, s8, s9, s10, s11, s12, s13, s14, s15, s16, s17, s19, s20, s21, s23, s25, s26, s27, s28, s29, s30, s31, s32, s33]
  have hl0 := map_eq_replicate_of_forall (tickBody_f32 binary32Trig 0)
    (fun v => (scaleVertex_f32 v).pos.z) 3 hz0
  have hl7 := map_eq_replicate_of_forall (tickBody_f32 binary32Trig 700)
    (fun v => (scaleVertex_f32 v).pos.z) (12582911/4194304) hz7
  rw [tickBody_f32_length] at hl0 hl7
  refine ⟨rfl, by rw [ha7, hc7], hl0, hl7, ?_⟩
  have hu := tickLoop_f32_eq binary32Trig 36 0
    (bandLoop_f32 binary32Trig RPM_MIN (circleLoop_f32 binary32Trig 0 [])) (by norm_num)
  have hr : List.range 36 = List.range 7 ++ 7 :: List.range' 8 28 := by decide
  simp only [Nat.cast_zero, mul_zero, zero_add] at hu
  unfold genCompleteBase_f32
  simp only [RPM_MIN] at hu ⊢
  rw [hu, hr, List.flatMap_append, List.flatMap_cons, ← List.append_assoc, List.map_append,
    List.map_append, List.map_map, List.map_map]
  refine not_sorted_append (a := 3) (b := (12582911/4194304)) ?_ ?_ (by norm_num)
  · rw [List.mem_map]
    refine ⟨(tickBody_f32 binary32Trig 0).head (by
      rw [← List.length_pos, tickBody_f32_length]; norm_num), ?_, ?_⟩
    · refine List.mem_append_right _ (List.mem_flatMap.2 ⟨0, by simp, ?_⟩)
      simp only [Nat.cast_zero, mul_zero]
      exact List.head_mem _
    · exact hz0 _ (List.head_mem _)
  · rw [List.mem_map]
    refine ⟨(tickBody_f32 binary32Trig 700).head (by
      rw [← List.length_pos, tickBody_f32_length]; norm_num), ?_, ?_⟩
    · refine List.mem_append_left _ ?_
      have e7 : (100 * ((7 : Nat) : Int)) = 700 := by norm_num
      rw [e7]
      exact List.head_mem _
    · exact hz7 _ (List.head_mem _)

/-- C23 (fails on the code): in binary32 the two angles differ. At the value 100
the working angle is `(-16683593/131072)` and the tick angle `(14240037/65536)`
degrees; `90 - working angle` is not the tick angle, neither exactly nor after
rounding the difference to `float`. At the value 1750 the angles are exactly 0
and 90, and still the directions differ: the needle rotation sends +Y (its
second column) to `(0, 1)`, the tick rotation sends +X (its first column) to
`(cos, 1)` with the `float` cosine `(-6151831/140737488355328)` of `radians(90)`. -/
theorem needle_dial_f32_differ :
    working_angle_f32 100 = (-16683593/131072) ∧
    tick_angle_f32 100 = (14240037/65536) ∧
    90 - working_angle_f32 100 ≠ tick_angle_f32 100 ∧
    f32.sub 90 (working_angle_f32 100) ≠ tick_angle_f32 100 ∧
    working_angle_f32 1750 = 0 ∧
    tick_angle_f32 1750 = 90 ∧
    (needle_model_f32 binary32Trig 1750).c1 = ⟨0, 1, 0, 0⟩ ∧
    (rotate_f32 binary32Trig mat4.identity (radians_f32 (tick_angle_f32 1750)) ⟨0, 0, 1⟩).c0 =
      ⟨(-6151831/140737488355328), 1, 0, 0⟩ ∧
    (rotate_f32 binary32Trig mat4.identity (radians_f32 (tick_angle_f32 1750)) ⟨0, 0, 1⟩).c0 ≠
      (needle_model_f32 binary32Trig 1750).c1 := by
  have s1 : round32 270 = 270 :=
    (round32_of _ _ (8) (8847360) (by norm_num) (by norm_num [abs_of_nonneg, abs_of_nonpos]) (by norm_num [abs_of_nonneg, abs_of_nonpos]) (by norm_num [abs_lt]) (by norm_num))
  have s2 : f32.div (-270) 2 = (-135) := by
    unfold f32.div
    rw [show ((-270) / 2 : ℚ) = (-135) by norm_num]
    exact (round32_of _ _ (7) (-8847360) (by norm_num) (by norm_num [abs_of_nonneg, abs_of_nonpos]) (by norm_num [abs_of_nonneg, abs_of_nonpos]) (by norm_num [abs_lt]) (by norm_num))
  have s3 : f32.div 270 2 = 135 := by
    unfold f32.div
    rw [show (270 / 2 : ℚ) = 135 by norm_num]
    exact (round32_of _ _ (7) (8847360) (by norm_num) (by norm_num [abs_of_nonneg, abs_of_nonpos]) (by norm_num [abs_of_nonneg, abs_of_nonpos]) (by norm_num [abs_lt]) (by norm_num))
  have s4 : round32 3500 = 3500 :=
    (round32_of _ _ (11) (14336000) (by norm_num) (by norm_num [abs_of_nonneg, abs_of_nonpos]) (by norm_num [abs_of_nonneg, abs_of_nonpos]) (by norm_num [abs_lt]) (by norm_num))
  have s5 : f32.add 90 135 = 225 := by
    unfold f32.add
    rw [show (90 + 135 : ℚ) = 225 by norm_num]
    exact (round32_of _ _ (7) (14745600) (by norm_num) (by norm_num [abs_of_nonneg, abs_of_nonpos]) (by norm_num [abs_of_nonneg, abs_of_nonpos]) (by norm_num [abs_lt]) (by norm_num))
  have s6 : f32.sub 90 135 = (-45) := by
    unfold f32.sub
    rw [show (90 - 135 : ℚ) = (-45) by norm_num]
    exact (round32_of _ _ (5) (-11796480) (by norm_num) (by norm_num [abs_of_nonneg, abs_of_nonpos]) (by norm_num [abs_of_nonneg, abs_of_nonpos]) (by norm_num [abs_lt]) (by norm_num))
  have s7 : f32.sub 100 0 = 100 := by
    unfold f32.sub
    rw [show (100 - 0 : ℚ) = 100 by norm_num]
    exact (round32_of _ _ (6) (13107200) (by norm_num) (by norm_num [abs_of_nonneg, abs_of_nonpos]) (by norm_num [abs_of_nonneg, abs_of_nonpos]) (by norm_num [abs_lt]) (by norm_num))
  have s8 : f32.sub 135 (-135) = 270 := by
    unfold f32.sub
    rw [show (135 - (-135) : ℚ) = 270 by norm_num]
    exact (round32_of _ _ (8) (8847360) (by norm_num) (by norm_num [abs_of_nonneg, abs_of_nonpos]) (by norm_num [abs_of_nonneg, abs_of_nonpos]) (by norm_num [abs_lt]) (by norm_num))
  have s9 : f32.mul 100 270 = 27000 := by
    unfold f32.mul
    rw [show (100 * 270 : ℚ) = 27000 by norm_num]
    exact (round32_of _ _ (14) (13824000) (by norm_num) (by norm_num [abs_of_nonneg, abs_of_nonpos]) (by norm_num [abs_of_nonneg, abs_of_nonpos]) (by norm_num [abs_lt]) (by norm_num))
  have s10 : f32.sub 3500 0 = 3500 := by
    unfold f32.sub
    rw [show (3500 - 0 : ℚ) = 3500 by norm_num]
    exact (round32_of _ _ (11) (14336000) (by norm_num) (by norm_num [abs_of_nonneg, abs_of_nonpos]) (by norm_num [abs_of_nonneg, abs_of_nonpos]) (by norm_num [abs_lt]) (by norm_num))
  have s11 : f32.div 27000 3500 = (8089015/1048576) := by
    unfold f32.div
    rw [show (27000 / 3500 : ℚ) = (54/7) by norm_num]
    exact (round32_of _ _ (2) (16178030) (by norm_num) (by norm_num [abs_of_nonneg, abs_of_nonpos]) (by norm_num [abs_of_nonneg, abs_of_nonpos]) (by norm_num [abs_lt]) (by norm_num))
  have s12 : f32.add (8089015/1048576) (-135) = (-16683593/131072) := by
    unfold f32.add
    rw [show ((8089015/1048576) + (-135) : ℚ) = (-133468745/1048576) by norm_num]
    exact (round32_of _ _ (6) (-16683593) (by norm_num) (by norm_num [abs_of_nonneg, abs_of_nonpos]) (by norm_num [abs_of_nonneg, abs_of_nonpos]) (by norm_num [abs_lt]) (by norm_num))
  have s14 : f32.sub (-45) 225 = (-270) := by
    unfold f32.sub
    rw [show ((-45) - 225 : ℚ) = (-270) by norm_num]
    exact (round32_of _ _ (8) (-8847360) (by norm_num) (by norm_num [abs_of_nonneg, abs_of_nonpos]) (by norm_num [abs_of_nonneg, abs_of_nonpos]) (by norm_num [abs_lt]) (by norm_num))
  have s15 : f32.mul 100 (-270) = (-27000) := by
    unfold f32.mul
    rw [show (100 * (-270) : ℚ) = (-27000) by norm_num]
    exact (round32_of _ _ (14) (-13824000) (by norm_num) (by norm_num [abs_of_nonneg, abs_of_nonpos]) (by norm_num [abs_of_nonneg, abs_of_nonpos]) (by norm_num [abs_lt]) (by norm_num))
  have s17 : f32.div (-27000) 3500 = (-8089015/1048576) := by
    unfold f32.div
    rw [show ((-27000) / 3500 : ℚ) = (-54/7) by norm_num]
    exact (round32_of _ _ (2) (-16178030) (by norm_num) (by norm_num [abs_of_nonneg, abs_of_nonpos]) (by norm_num [abs_of_nonneg, abs_of_nonpos]) (by norm_num [abs_lt]) (by norm_num))
  have s18 : f32.add (-8089015/1048576) 225 = (14240037/65536) := by
    unfold f32.add
    rw [show ((-8089015/1048576) + 225 : ℚ) = (227840585/1048576) by norm_num]
    exact (round32_of _ _ (7) (14240037) (by norm_num) (by norm_num [abs_of_nonneg, abs_of_nonpos]) (by norm_num [abs_of_nonneg, abs_of_nonpos]) (by norm_num [abs_lt]) (by norm_num))
  have s19 : f32.sub 90 (-16683593/131072) = (3560009/16384) := by
    unfold f32.sub
    rw [show (90 - (-16683593/131072) : ℚ) = (28480073/131072) by norm_num]
    exact (round32_of_tie _ _ (7) (14240036) (by norm_num) (by norm_num [abs_of_nonneg, abs_of_nonpos]) (by norm_num [abs_of_nonneg, abs_of_nonpos]) (by norm_num [abs_of_nonneg, abs_of_nonpos]) (by decide) (by norm_num))
  have s20 : f32.sub 1750 0 = 1750 := by
    unfold f32.sub
    rw [show (1750 - 0 : ℚ) = 1750 by norm_num]
    exact (round32_of _ _ (10) (14336000) (by norm_num) (by norm_num [abs_of_nonneg, abs_of_nonpos]) (by norm_num [abs_of_nonneg, abs_of_nonpos]) (by norm_num [abs_lt]) (by norm_num))
  have s22 : f32.mul 1750 270 = 472500 := by
    unfold f32.mul
    rw [show (1750 * 270 : ℚ) = 472500 by norm_num]
    exact (round32_of _ _ (18) (15120000) (by norm_num) (by norm_num [abs_of_nonneg, abs_of_nonpos]) (by norm_num [abs_of_nonneg, abs_of_nonpos]) (by norm_num [abs_lt]) (by norm_num))
  have s24 : f32.div 472500 3500 = 135 := by
    unfold f32.div
    rw [show (472500 / 3500 : ℚ) = 135 by norm_num]
    exact (round32_of _ _ (7) (8847360) (by norm_num) (by norm_num [abs_of_nonneg, abs_of_nonpos]) (by norm_num [abs_of_nonneg, abs_of_nonpos]) (by norm_num [abs_lt]) (by norm_num))
  have s25 : f32.add 135 (-135) = 0 := by
    unfold f32.add
    rw [show (135 + (-135) : ℚ) = 0 by norm_num]
    exact round32_zero
  have s28 : f32.mul 1750 (-270) = (-472500) := by
    unfold f32.mul
    rw [show (1750 * (-270) : ℚ) = (-472500) by norm_num]
    exact (round32_of _ _ (18) (-15120000) (by norm_num) (by norm_num [abs_of_nonneg, abs_of_nonpos]) (by norm_num [abs_of_nonneg, abs_of_nonpos]) (by norm_num [abs_lt]) (by norm_num))
  have s30 : f32.div (-472500) 3500 = (-135) := by
    unfold f32.div
    rw [show ((-472500) / 3500 : ℚ) = (-135) by norm_num]
    exact (round32_of _ _ (7) (-8847360) (by norm_num) (by norm_num [abs_of_nonneg, abs_of_nonpos]) (by norm_num [abs_of_nonneg, abs_of_nonpos]) (by norm_num [abs_lt]) (by norm_num))
  have s31 : f32.add (-135) 225 = 90 := by
    unfold f32.add
    rw [show ((-135) + 225 : ℚ) = 90 by norm_num]
    exact (round32_of _ _ (6) (11796480) (by norm_num) (by norm_num [abs_of_nonneg, abs_of_nonpos]) (by norm_num [abs_of_nonneg, abs_of_nonpos]) (by norm_num [abs_lt]) (by norm_num))
  have s32 : f32.mul 90 (9370165/536870912) = (13176795/8388608) := by
    unfold f32.mul
    rw [show (90 * (9370165/536870912) : ℚ) = (421657425/268435456) by norm_num]
    exact (round32_of _ _ (0) (13176795) (by norm_num) (by norm_num [abs_of_nonneg, abs_of_nonpos]) (by norm_num [abs_of_nonneg, abs_of_nonpos]) (by norm_num [abs_lt]) (by norm_num))
  have s33 : round32 1 = 1 :=
    (round32_of _ _ (0) (8388608) (by norm_num) (by norm_num [abs_of_nonneg, abs_of_nonpos]) (by norm_num [abs_of_nonneg, abs_of_nonpos]) (by norm_num [abs_lt]) (by norm_num))
  have s34 : round32 (-1) = (-1) :=
    (round32_of _ _ (0) (-8388608) (by norm_num) (by norm_num [abs_of_nonneg, abs_of_nonpos]) (by norm_num [abs_of_nonneg, abs_of_nonpos]) (by norm_num [abs_lt]) (by norm_num))
  have s35 : round32 (-6151831/140737488355328) = (-6151831/140737488355328) :=
    (round32_of _ _ (-25) (-12303662) (by norm_num) (by norm_num [abs_of_nonneg, abs_of_nonpos]) (by norm_num [abs_of_nonneg, abs_of_nonpos]) (by norm_num [abs_lt]) (by norm_num))
  have s36 : f32.sub 1 1 = 0 := by
    unfold f32.sub
    rw [show (1 - 1 : ℚ) = 0 by norm_num]
    exact round32_zero
  have s37 : f32.sub 1 (-6151831/140737488355328) = 1 := by
    unfold f32.sub
    rw [show (1 - (-6151831/140737488355328) : ℚ) = (140737494507159/140737488355328) by norm_num]
    exact (round32_of _ _ (0) (8388608) (by norm_num) (by norm_num [abs_of_nonneg, abs_of_nonpos]) (by norm_num [abs_of_nonneg, abs_of_nonpos]) (by norm_num [abs_lt]) (by norm_num))
  have hmin : f32.ofInt RPM_MIN = 0 := by
    simp [f32.ofInt, RPM_MIN, round32_zero]
  have hmax : f32.ofInt RPM_MAX = 3500 := by
    unfold f32.ofInt RPM_MAX
    rw [show ((3500 : Int) : ℚ) = 3500 by norm_num]
    exact s4
  have hw : working_angle_f32 100 = (-16683593/131072) := by
    simp only [working_angle_f32, map_f32, NEEDLE_RANGE_f32, hmin, hmax, s1, s2, s3, s4, s5, s6, s7, s8, s9, s10, s11, s12, s14, s15, s17, s18, s19, s20, s22, s24, s25, s28, s30, s31, s32, s33, s34, s35, s36, s37]
  have ht : tick_angle_f32 100 = (14240037/65536) := by
    simp only [tick_angle_f32, map_f32, angle_min_f32, angle_max_f32, NEEDLE_RANGE_f32, hmin,
      hmax, s1, s2, s3, s4, s5, s6, s7, s8, s9, s10, s11, s12, s14, s15, s17, s18, s19, s20, s22, s24, s25, s28, s30, s31, s32, s33, s34, s35, s36, s37]
  have hw2 : working_angle_f32 1750 = 0 := by
    simp only [working_angle_f32, map_f32, NEEDLE_RANGE_f32, hmin, hmax, s1, s2, s3, s4, s5, s6, s7, s8, s9, s10, s11, s12, s14, s15, s17, s18, s19, s20, s22, s24, s25, s28, s30, s31, s32, s33, s34, s35, s36, s37]
  have ht2 : tick_angle_f32 1750 = 90 := by
    simp only [tick_angle_f32, map_f32, angle_min_f32, angle_max_f32, NEEDLE_RANGE_f32, hmin,
      hmax, s1, s2, s3, s4, s5, s6, s7, s8, s9, s10, s11, s12, s14, s15, s17, s18, s19, s20, s22, s24, s25, s28, s30, s31, s32, s33, s34, s35, s36, s37]
  have hr0 : radians_f32 0 = 0 := by
    simp only [radians_f32, f32.zero_mul]
  have hr90 : radians_f32 90 = (13176795/8388608) := by
    simp only [radians_f32, radians_f32_factor, s1, s2, s3, s4, s5, s6, s7, s8, s9, s10, s11, s12, s14, s15, s17, s18, s19, s20, s22, s24, s25, s28, s30, s31, s32, s33, s34, s35, s36, s37]
  have hc0 : binary32Trig.cos 0 = 1 := by
    norm_num [binary32Trig]
  have hs0 : binary32Trig.sin 0 = 0 := by
    norm_num [binary32Trig]
  have hc90 : binary32Trig.cos (13176795/8388608) = (-6151831/140737488355328) := by
    norm_num [binary32Trig]
  have hs90 : binary32Trig.sin (13176795/8388608) = 1 := by
    norm_num [binary32Trig]
  have hinv : binary32Trig.inversesqrt 1 = 1 := rfl
  have hneg : f32.mul (-1) 1 = -1 := by
    rw [f32.mul_one]
    exact s34
  have hneedle : (needle_model_f32 binary32Trig 1750).c1 = ⟨0, 1, 0, 0⟩ := by
    simp only [needle_model_f32, hw2, hr0, hc0, hs0, hinv, hneg, mul_neg, mul_one, neg_neg,
      rotate_f32, normalize_f32, vec4.add_f32, vec4.smul_f32, mat4.identity,
      f32.zero_mul, f32.mul_zero, f32.one_mul, f32.mul_one, f32.add_zero, f32.zero_add,
      f32.sub_zero, round32_zero, round32_one, s1, s2, s3, s4, s5, s6, s7, s8, s9, s10, s11, s12, s14, s15, s17, s18, s19, s20, s22, s24, s25, s28, s30, s31, s32, s33, s34, s35, s36, s37]
  have htick : (rotate_f32 binary32Trig mat4.identity (radians_f32 (tick_angle_f32 1750))
      ⟨0, 0, 1⟩).c0 = ⟨(-6151831/140737488355328), 1, 0, 0⟩ := by
    simp only [ht2, hr90, hc90, hs90, hinv,
      rotate_f32, normalize_f32, vec4.add_f32, vec4.smul_f32, mat4.identity,
      f32.zero_mul, f32.mul_zero, f32.one_mul, f32.mul_one, f32.add_zero, f32.zero_add,
      f32.sub_zero, round32_zero, round32_one, s1, s2, s3, s4, s5, s6, s7, s8, s9, s10, s11, s12, s14, s15, s17, s18, s19, s20, s22, s24, s25, s28, s30, s31, s32, s33, s34, s35, s36, s37]
  refine ⟨hw, ht, ?_, ?_, hw2, ht2, hneedle, htick, ?_⟩
  · rw [hw, ht]
    norm_num
  · rw [hw, ht, s19]
    norm_num
  · rw [hneedle, htick]
    norm_num

lemma draw_char_f32_nonspace (self : text_renderer) (y scale : ℚ) (st : draw_state) (c : Char)
    (hc : c ≠ ' ') (hp : st.gl.current_program = self.program) :
    (draw_char_f32 self y scale st c).gl.calls = st.gl.calls ++
        [⟨GL_TRIANGLE_STRIP, 0, 4, self.program, st.gl.vertex_array_binding,
          (st.ch.index c).1.TextureID, glyph_transform_f32 (st.ch.index c).1 st.x y scale⟩] ∧
    (draw_char_f32 self y scale st c).gl.current_program = self.program ∧
    (draw_char_f32 self y scale st c).gl.vertex_array_binding = st.gl.vertex_array_binding ∧
    (draw_char_f32 self y scale st c).x = f32.add st.x
      (f32.mul (f32.ofInt (((st.ch.index c).1.Advance >>> 6 : Nat) : Int)) scale) ∧
    (draw_char_f32 self y scale st c).ch = (st.ch.index c).2 := by
  simp [draw_char_f32, hc, glDrawArrays, glBindTexture2D, Program.setUniform_mat4,
    Program.uniformMatrix4fv, glUseProgram, glUniformMatrix4fv, hp]

lemma draw_f32_calls (self : text_renderer) (gl : GLState) (text : List Char) (x y scale : ℚ) :
    (self.draw_f32 gl text x y scale).2.calls =
      (draw_loop_f32 self y scale
        ⟨glBindVertexArray (glUseProgram (glBlendFunc (glEnableBlend gl) GL_SRC_ALPHA
          GL_ONE_MINUS_SRC_ALPHA) self.program) self.vao, self.ch, x⟩ text).gl.calls := by
  simp only [text_renderer.draw_f32]
  split_ifs <;> rfl

/-- The x origin of the quad drawn with `glyph_transform_f32`: the pen position
plus the rounded bearing offset; the matrix operations after it only multiply
by 0 or 1 and add 0. -/
lemma glyph_transform_f32_origin_x (mode : Nat) (first count : Int) (p v t : Nat)
    (d : character_details) (x y scale : ℚ) :
    (quad_origin ⟨mode, first, count, p, v, t, glyph_transform_f32 d x y scale⟩).x =
      round32 (round32 (round32 (round32 (round32 (round32
        (f32.add x (f32.mul (f32.ofInt d.Bearing.x) scale))))))) := by
  simp only [quad_origin, quad_vertex, glyph_transform_f32, mat4.mul_f32, mat4.mulCol_f32,
    translate_f32, scale_f32, mat4.identity, mat4.mulVec, vec4.add, vec4.smul, vec4.add_f32,
    vec4.smul_f32, f32.zero_mul, f32.mul_zero, f32.one_mul, f32.mul_one, f32.add_zero,
    f32.zero_add, round32_zero, round32_one, zero_mul, mul_zero, zero_add, add_zero, mul_one,
    one_mul]

/-! ## Theorems: the text renderer in binary32 -/

/-- C8 (fails on the code): in binary32 the pen position and the quad origins
are rounded sums. For the text `AA` over `sampleGlyphs` (advance 11 pixels,
bearing 1), drawn at `x = 10` with the scale `0.7f`, the two quads have the x
origins `(11219763/1048576)` and `(2411725/131072)`; the second is not the first plus
`(advance_A >> 6) * scale`, neither exactly nor after rounding that sum to
`float`. -/
theorem draw_f32_second_quad_origin :
    sampleRenderer.ch 'A' = some ⟨7, ⟨10, 12⟩, ⟨1, 11⟩, 704⟩ ∧
    f32_lit 0.7 = (11744051/16777216) ∧
    ((sampleRenderer.draw_f32 sampleGL ['A', 'A'] 10 200 (f32_lit 0.7)).2.calls.map
        (fun q => (quad_origin q).x)) = [(11219763/1048576), (2411725/131072)] ∧
    ((11219763/1048576) : ℚ) + ((704 >>> 6 : Nat) : ℚ) * f32_lit 0.7 ≠ (2411725/131072) ∧
    f32.add (11219763/1048576) (f32.mul (f32.ofInt ((704 >>> 6 : Nat) : Int)) (f32_lit 0.7)) ≠
      (2411725/131072) := by
  have hs : f32_lit 0.7 = (11744051/16777216) := by
    unfold f32_lit
    rw [show round64 (0.7 : ℚ) = (3152519739159347/4503599627370496) from
      (round64_of _ _ (-1) (6305039478318694) (by norm_num) (by norm_num [abs_of_nonneg, abs_of_nonpos]) (by norm_num [abs_of_nonneg, abs_of_nonpos]) (by norm_num [abs_lt]) (by norm_num))]
    exact (round32_of _ _ (-1) (11744051) (by norm_num) (by norm_num [abs_of_nonneg, abs_of_nonpos]) (by norm_num [abs_of_nonneg, abs_of_nonpos]) (by norm_num [abs_lt]) (by norm_num))
  have s1 : round32 1 = 1 :=
    (round32_of _ _ (0) (8388608) (by norm_num) (by norm_num [abs_of_nonneg, abs_of_nonpos]) (by norm_num [abs_of_nonneg, abs_of_nonpos]) (by norm_num [abs_lt]) (by norm_num))
  have s2 : round32 11 = 11 :=
    (round32_of _ _ (3) (11534336) (by norm_num) (by norm_num [abs_of_nonneg, abs_of_nonpos]) (by norm_num [abs_of_nonneg, abs_of_nonpos]) (by norm_num [abs_lt]) (by norm_num))
  have s3 : f32.mul 1 (11744051/16777216) = (11744051/16777216) := by
    unfold f32.mul
    rw [show (1 * (11744051/16777216) : ℚ) = (11744051/16777216) by norm_num]
    exact (round32_of _ _ (-1) (11744051) (by norm_num) (by norm_num [abs_of_nonneg, abs_of_nonpos]) (by norm_num [abs_of_nonneg, abs_of_nonpos]) (by norm_num [abs_lt]) (by norm_num))
  have s4 : f32.add 10 (11744051/16777216) = (11219763/1048576) := by
    unfold f32.add
    rw [show (10 + (11744051/16777216) : ℚ) = (179516211/16777216) by norm_num]
    exact (round32_of _ _ (3) (11219763) (by norm_num) (by norm_num [abs_of_nonneg, abs_of_nonpos]) (by norm_num [abs_of_nonneg, abs_of_nonpos]) (by norm_num [abs_lt]) (by norm_num))
  have s5 : f32.mul 11 (11744051/16777216) = (8074035/1048576) := by
    unfold f32.mul
    rw [show (11 * (11744051/16777216) : ℚ) = (129184561/16777216) by norm_num]
    exact (round32_of _ _ (2) (16148070) (by norm_num) (by norm_num [abs_of_nonneg, abs_of_nonpos]) (by norm_num [abs_of_nonneg, abs_of_nonpos]) (by norm_num [abs_lt]) (by norm_num))
  have s6 : f32.add 10 (8074035/1048576) = (4639949/262144) := by
    unfold f32.add
    rw [show (10 + (8074035/1048576) : ℚ) = (18559795/1048576) by norm_num]
    exact (round32_of_tie _ _ (4) (9279898) (by norm_num) (by norm_num [abs_of_nonneg, abs_of_nonpos]) (by norm_num [abs_of_nonneg, abs_of_nonpos]) (by norm_num [abs_of_nonneg, abs_of_nonpos]) (by decide) (by norm_num))
  have s7 : f32.add (4639949/262144) (11744051/16777216) = (2411725/131072) := by
    unfold f32.add
    rw [show ((4639949/262144) + (11744051/16777216) : ℚ) = (308700787/16777216) by norm_num]
    exact (round32_of _ _ (4) (9646900) (by norm_num) (by norm_num [abs_of_nonneg, abs_of_nonpos]) (by norm_num [abs_of_nonneg, abs_of_nonpos]) (by norm_num [abs_lt]) (by norm_num))
  have s8 : round32 (11219763/1048576) = (11219763/1048576) :=
    (round32_of _ _ (3) (11219763) (by norm_num) (by norm_num [abs_of_nonneg, abs_of_nonpos]) (by norm_num [abs_of_nonneg, abs_of_nonpos]) (by norm_num [abs_lt]) (by norm_num))
  have s9 : round32 (2411725/131072) = (2411725/131072) :=
    (round32_of _ _ (4) (9646900) (by norm_num) (by norm_num [abs_of_nonneg, abs_of_nonpos]) (by norm_num [abs_of_nonneg, abs_of_nonpos]) (by norm_num [abs_lt]) (by norm_num))
  have s10 : f32.add (11219763/1048576) (8074035/1048576) = (9646899/524288) := by
    unfold f32.add
    rw [show ((11219763/1048576) + (8074035/1048576) : ℚ) = (9646899/524288) by norm_num]
    exact (round32_of _ _ (4) (9646899) (by norm_num) (by norm_num [abs_of_nonneg, abs_of_nonpos]) (by norm_num [abs_of_nonneg, abs_of_nonpos]) (by norm_num [abs_lt]) (by norm_num))
  have hsh : (704 >>> 6 : Nat) = 11 := by decide
  have ho1 : f32.ofInt 1 = 1 := by
    unfold f32.ofInt
    rw [show ((1 : Int) : ℚ) = 1 by norm_num]
    exact s1
  have ho11 : f32.ofInt ((11 : Nat) : Int) = 11 := by
    unfold f32.ofInt
    rw [show (((11 : Nat) : Int) : ℚ) = 11 by norm_num]
    exact s2
  have hne : 'A' ≠ ' ' := by decide
  have hA : sampleRenderer.ch 'A' = some ⟨7, ⟨10, 12⟩, ⟨1, 11⟩, 704⟩ := rfl
  refine ⟨hA, hs, ?_, ?_, ?_⟩
  · rw [draw_f32_calls, hs]
    set st0 : draw_state :=
      ⟨glBindVertexArray (glUseProgram (glBlendFunc (glEnableBlend sampleGL) GL_SRC_ALPHA
        GL_ONE_MINUS_SRC_ALPHA) sampleRenderer.program) sampleRenderer.vao, sampleRenderer.ch,
        10⟩ with hst0
    have hp0 : st0.gl.current_program = sampleRenderer.program := rfl
    obtain ⟨a1, a2, _, a4, a5⟩ :=
      draw_char_f32_nonspace sampleRenderer 200 (11744051/16777216) st0 'A' hne hp0
    obtain ⟨b1, _, _, _, _⟩ := draw_char_f32_nonspace sampleRenderer 200 (11744051/16777216)
      (draw_char_f32 sampleRenderer 200 (11744051/16777216) st0 'A') 'A' hne a2
    have hidx : st0.ch.index 'A' = (⟨7, ⟨10, 12⟩, ⟨1, 11⟩, 704⟩, st0.ch) :=
      index_of_some _ _ _ hA
    have hloop : draw_loop_f32 sampleRenderer 200 (11744051/16777216) st0 ['A', 'A'] =
        draw_char_f32 sampleRenderer 200 (11744051/16777216)
          (draw_char_f32 sampleRenderer 200 (11744051/16777216) st0 'A') 'A' := rfl
    rw [hloop, b1, a1, a4, a5, hidx]
    have hidx2 : ((⟨7, ⟨10, 12⟩, ⟨1, 11⟩, 704⟩ : character_details), st0.ch).2.index 'A' =
        (⟨7, ⟨10, 12⟩, ⟨1, 11⟩, 704⟩, st0.ch) := index_of_some _ _ _ hA
    rw [hidx2]
    have hcalls : (glBindVertexArray (glUseProgram (glBlendFunc (glEnableBlend sampleGL)
        GL_SRC_ALPHA GL_ONE_MINUS_SRC_ALPHA) sampleRenderer.program) sampleRenderer.vao).calls =
        [] := rfl
    simp only [hcalls, List.nil_append, List.cons_append, List.map_cons, List.map_nil,
      glyph_transform_f32_origin_x, hsh, ho1, ho11, s1, s2, s3, s4, s5, s6, s7, s8, s9, s10]
  · rw [hs, hsh]
    norm_num
  · rw [hs, hsh, ho11, s5, s10]
    norm_num

end RpmGauge
